import Mathlib

/-! FlightPrint: flight-offer normalisation, emissions estimate, ranking, search validation.

A shallow embedding of `server/services/amadeusService.js` (`estimateEmissions`) and
`server/controllers/flightController.js` (`searchFlights`, `processFlightOffers`,
`getAirlineName`, `prioritizeFlights`, `estimateFlightDistance`), of the `pre('save')` hook
of `server/models/Flight.js` and of `client/src/pages/FlightResults.jsx` (`calculateLayover`,
the displayed duration, `sortedFlights`).

Conventions of the embedding.

* A finite JavaScript number is an exact rational (`ℚ`); `NaN` is a separate value of `Num`.
  Arithmetic is exact, except where the rounding of IEEE-754 doubles decides the property:
  the duration parse and the comparator of the `Double` section round every result with
  `binary64`.  `Infinity` has no counterpart: `binary64` does not overflow.
* An optional JSON field is an `Option`; a JSON array whose elements may be `null` is a list
  of `Option`s.  Reading a property of `null` raises a `TypeError`, modelled by `Except`.
* A property read on an object literal finds the literal's own keys and, failing that, the
  names every object inherits from `Object.prototype`.
* The built-ins `parseFloat`, `parseInt`, `Math.round`, `Array.prototype.sort` and the `Date`
  constructor on a date-only string are modelled after ECMAScript; the clock, the time zone,
  `toUpperCase`, other date formats and the flight-search provider are fields of `Runtime`.
-/

namespace FlightPrint

/-! ## JavaScript values -/

/-- A JavaScript number: a finite value or `NaN`. -/
inductive Num where
  | val (q : ℚ)
  | NaN
  deriving DecidableEq

/-- The product `a * b` of two JavaScript numbers. -/
def Num.mul : Num → Num → Num
  | .val a, .val b => .val (a * b)
  | _, _ => .NaN

/-- The result of reading `obj[key]` on an object literal: a value of the expected type,
an object or function inherited from `Object.prototype`, or `undefined`. -/
inductive Lookup (α : Type) where
  | value (v : α)
  | inherited
  | undefined
  deriving DecidableEq

/-- Names that every object literal inherits from `Object.prototype`; reading one of them
yields a function (or, for `__proto__`, the prototype object), never `undefined`. -/
def objectPrototypeKeys : List String :=
  ["constructor", "__defineGetter__", "__defineSetter__", "hasOwnProperty",
   "__lookupGetter__", "__lookupSetter__", "isPrototypeOf", "propertyIsEnumerable",
   "toString", "valueOf", "__proto__", "toLocaleString"]

/-- The property read `literal[key]` where `literal` is an object literal with the
given own entries. -/
def objectGet {α : Type} (literal : List (String × α)) (key : String) : Lookup α :=
  match literal.lookup key with
  | some v => .value v
  | none => if key ∈ objectPrototypeKeys then .inherited else .undefined

/-- The property key a possibly missing string argument is converted to. -/
def propertyKey : Option String → String
  | some s => s
  | none => "undefined"

/-- Truthiness of a looked-up number: an inherited function is truthy, a number is truthy
unless it is zero, `undefined` is falsy. -/
def Lookup.truthyNum : Lookup ℚ → Bool
  | .value q => decide (q ≠ 0)
  | .inherited => true
  | .undefined => false

/-- Numeric conversion of a looked-up number: a function or `undefined` converts to `NaN`. -/
def Lookup.toNum : Lookup ℚ → Num
  | .value q => .val q
  | .inherited => .NaN
  | .undefined => .NaN

/-- The call `Math.round(x)`: the nearest integer, halves rounded up. -/
def Math.round : Num → Num
  | .val q => .val (⌊q + 1 / 2⌋ : ℤ)
  | .NaN => .NaN

/-- Truthiness-based default `s || d` for an optional string: the empty string is falsy. -/
def strOr (s : Option String) (d : String) : String :=
  match s with
  | some v => if v = "" then d else v
  | none => d

/-- White space and line terminators skipped by `parseFloat` and `parseInt`. -/
def isWhiteSpace (c : Char) : Bool :=
  c.toNat ∈ [9, 10, 11, 12, 13, 32, 160, 5760, 8192, 8193, 8194, 8195, 8196, 8197, 8198,
    8199, 8200, 8201, 8202, 8232, 8233, 8239, 8287, 12288, 65279]

/-- The value of a run of decimal digits. -/
def digitsValue (ds : List Char) : ℕ :=
  ds.foldl (fun n c => 10 * n + (c.toNat - 48)) 0

/-- The exponent part `e[+-]digits` at the head of the input, 0 when there is none. -/
def exponentPart (cs : List Char) : ℤ :=
  match cs with
  | [] => 0
  | c :: r =>
    if c = 'e' ∨ c = 'E' then
      match r with
      | [] => 0
      | s :: r2 =>
        if s = '-' then
          (if (r2.takeWhile Char.isDigit) = [] then 0
           else -(digitsValue (r2.takeWhile Char.isDigit) : ℤ))
        else if s = '+' then (digitsValue (r2.takeWhile Char.isDigit) : ℤ)
        else (digitsValue (r.takeWhile Char.isDigit) : ℤ)
    else 0

/-- The unsigned decimal literal at the head of the input, `none` when there is none. -/
def unsignedDecimal (cs : List Char) : Option ℚ :=
  let ip := cs.takeWhile Char.isDigit
  let r1 := cs.dropWhile Char.isDigit
  let hasPoint := decide (r1.head? = some '.')
  let fp := if hasPoint then r1.tail.takeWhile Char.isDigit else []
  let r2 := if hasPoint then r1.tail.dropWhile Char.isDigit else r1
  if ip = [] ∧ fp = [] then none
  else some (((digitsValue ip : ℚ) + (digitsValue fp : ℚ) / 10 ^ fp.length) * 10 ^ exponentPart r2)

/-- The call `parseFloat(x)` on an optional string; `none` is `NaN`.  Leading white space
is skipped and the longest decimal literal at the head is read.  The literal `Infinity`
is not a finite number and is read as `NaN` here. -/
def parseFloat (x : Option String) : Option ℚ :=
  match x with
  | none => none
  | some s =>
    let cs := s.toList.dropWhile isWhiteSpace
    if cs.head? = some '-' then (unsignedDecimal cs.tail).map (fun q => -q)
    else if cs.head? = some '+' then unsignedDecimal cs.tail
    else unsignedDecimal cs

/-- Truthiness-based default `x || d` for a number that may be `NaN`. -/
def numOr (x : Option ℚ) (d : ℚ) : ℚ :=
  match x with
  | some q => if q = 0 then d else q
  | none => d

/-! ## Rounding of doubles -/

/-- The integer nearest to `x`, the even one of the two when `x` lies halfway. -/
def roundHalfEven (x : ℚ) : ℤ :=
  if x - ⌊x⌋ < 1 / 2 then ⌊x⌋
  else if 1 / 2 < x - ⌊x⌋ then ⌊x⌋ + 1
  else if ⌊x⌋ % 2 = 0 then ⌊x⌋ else ⌊x⌋ + 1

/-- The exponent of the spacing of binary64 values at `x`: 53 significant bits, and the
spacing `2^-1074` of the subnormal range below `2^-1022`. -/
def spacingExponent (x : ℚ) : ℤ := max (Int.log 2 |x| - 52) (-1074)

/-- The double in which an arithmetic result `x` is stored: the nearest multiple of the
spacing at `x`, ties to even (IEEE-754 binary64, round to nearest).  The exponent is not
bounded above, so a result of `2^1024` or more, `Infinity` in the code, stays finite here. -/
def binary64 (x : ℚ) : ℚ := roundHalfEven (x / 2 ^ spacingExponent x) * 2 ^ spacingExponent x

/-! ## amadeusService.js -/

/-- The table `emissionFactors` of `estimateEmissions`. -/
def emissionFactors : List (String × ℚ) :=
  [("ECONOMY", 0.09), ("PREMIUM_ECONOMY", 0.13), ("BUSINESS", 0.20), ("FIRST", 0.27)]

/-- The method `estimateEmissions(distance, travelClass, stops)`. -/
def estimateEmissions (distance : Num) (travelClass : Option String) (stops : ℚ) : Num :=
  let first := objectGet emissionFactors (propertyKey travelClass)
  let factor := if first.truthyNum then first else objectGet emissionFactors "ECONOMY"
  let stopMultiplier : ℚ := 1 + stops * 0.20
  Math.round ((distance.mul factor.toNum).mul (.val stopMultiplier))

/-! ## flightController.js: lookup tables -/

/-- The table `airlines` of `getAirlineName`. -/
def airlineNames : List (String × String) :=
  [("AA", "American Airlines"), ("UA", "United Airlines"), ("DL", "Delta Air Lines"),
   ("BA", "British Airways"), ("AF", "Air France"), ("LH", "Lufthansa"), ("EK", "Emirates"),
   ("QR", "Qatar Airways"), ("SQ", "Singapore Airlines"), ("EY", "Etihad Airways"),
   ("TK", "Turkish Airlines"), ("KL", "KLM"), ("AC", "Air Canada"), ("NH", "ANA"),
   ("JL", "Japan Airlines"), ("CX", "Cathay Pacific"), ("QF", "Qantas"),
   ("VS", "Virgin Atlantic"), ("AZ", "ITA Airways"), ("IB", "Iberia"),
   ("LX", "Swiss International Air Lines"), ("OS", "Austrian Airlines"),
   ("SN", "Brussels Airlines"), ("SK", "SAS Scandinavian Airlines"), ("AY", "Finnair"),
   ("TP", "TAP Air Portugal"),
   ("UL", "SriLankan Airlines"), ("AI", "Air India"), ("SV", "Saudia"), ("MS", "EgyptAir"),
   ("TG", "Thai Airways"), ("MH", "Malaysia Airlines"), ("GA", "Garuda Indonesia"),
   ("KE", "Korean Air"), ("OZ", "Asiana Airlines"), ("BR", "EVA Air"),
   ("CI", "China Airlines"), ("CA", "Air China"), ("MU", "China Eastern"),
   ("CZ", "China Southern"), ("HU", "Hainan Airlines"),
   ("GF", "Gulf Air"), ("RJ", "Royal Jordanian"), ("ME", "Middle East Airlines"),
   ("WY", "Oman Air"), ("KU", "Kuwait Airways"),
   ("WN", "Southwest Airlines"), ("B6", "JetBlue Airways"), ("NK", "Spirit Airlines"),
   ("F9", "Frontier Airlines"), ("G4", "Allegiant Air"), ("FR", "Ryanair"), ("U2", "easyJet"),
   ("VY", "Vueling"), ("W6", "Wizz Air"), ("FZ", "flydubai"), ("WK", "Edelweiss Air"),
   ("6E", "IndiGo"), ("SG", "SpiceJet"),
   ("AS", "Alaska Airlines"), ("WS", "WestJet"), ("LA", "LATAM Airlines"),
   ("AM", "AeromÃ©xico"), ("CM", "Copa Airlines"), ("ET", "Ethiopian Airlines"),
   ("KQ", "Kenya Airways"), ("SA", "South African Airways")]

/-- The function `getAirlineName(code)`, that is `airlines[code] || code`.  The argument
is `none` when the segment carries no carrier code; the result is then `undefined`. -/
def getAirlineName (code : Option String) : Lookup String :=
  match objectGet airlineNames (propertyKey code) with
  | .value name =>
    if name = "" then (match code with | some c => .value c | none => .undefined)
    else .value name
  | .inherited => .inherited
  | .undefined => match code with
    | some c => .value c
    | none => .undefined

/-- The set `premiumAirlines` of `prioritizeFlights`. -/
def premiumAirlines : List String :=
  ["EK", "QR", "SQ", "EY", "BA", "AF", "LH", "AA", "UA", "DL", "CX", "QF", "NH", "JL",
   "TK", "KL", "VS", "AC", "UL", "AI", "TG", "MH", "KE", "LX", "OS", "IB", "AZ"]

/-- The table `distances` of `estimateFlightDistance`. -/
def distances : List (String × ℚ) :=
  [("JFKLAX", 3983), ("JFKLHR", 5541), ("LAXSFO", 543), ("LASDFW", 1789), ("ORDLAX", 2799)]

/-- The function `estimateFlightDistance(origin, destination)`, that is
`distances[key] || distances[reverseKey] || 1500`. -/
def estimateFlightDistance (origin destination : String) : Lookup ℚ :=
  let key := origin ++ destination
  let reverseKey := destination ++ origin
  let direct := objectGet distances key
  if direct.truthyNum then direct
  else
    let reverse := objectGet distances reverseKey
    if reverse.truthyNum then reverse else .value 1500

/-! ## The provider's raw offer (read-only input) -/

/-- The `departure` or `arrival` object of a raw segment. -/
structure RawEndpoint where
  iataCode : Option String
  terminal : Option String
  /-- The field `at`, a timestamp string. -/
  atTime : Option String
  deriving DecidableEq

/-- One raw segment of an itinerary. -/
structure RawSegment where
  departure : Option RawEndpoint
  arrival : Option RawEndpoint
  carrierCode : Option String
  number : Option String
  /-- The value of `aircraft?.code`. -/
  aircraft : Option String
  duration : Option String
  numberOfStops : Option ℚ
  deriving DecidableEq

/-- One raw itinerary; an element of `segments` may be `null`. -/
structure RawItinerary where
  duration : Option String
  segments : Option (List (Option RawSegment))
  deriving DecidableEq

/-- One entry of a fare detail's `co2Emissions` array. -/
structure RawCo2 where
  weight : Option ℚ
  deriving DecidableEq

/-- One entry of `fareDetailsBySegment`. -/
structure RawFareDetails where
  cabin : Option String
  co2Emissions : Option (List (Option RawCo2))
  deriving DecidableEq

/-- One entry of `travelerPricings`. -/
structure RawTravelerPricing where
  fareDetailsBySegment : Option (List (Option RawFareDetails))
  deriving DecidableEq

/-- The `price` object of a raw offer; the provider sends amounts as strings. -/
structure RawPrice where
  currency : Option String
  total : Option String
  base : Option String
  grandTotal : Option String
  deriving DecidableEq

/-- A raw flight offer. -/
structure RawOffer where
  id : Option String
  itineraries : Option (List (Option RawItinerary))
  price : Option RawPrice
  travelerPricings : Option (List (Option RawTravelerPricing))
  validatingAirlineCodes : Option (List String)
  numberOfBookableSeats : Option ℚ
  deriving DecidableEq

/-! ## The canonical flight (output of the normaliser) -/

/-- An entry of `airlines`. -/
structure Airline where
  code : String
  name : Lookup String
  deriving DecidableEq

/-- The `departure` or `arrival` of a normalised segment; `atTime` is the argument
handed to the `Date` constructor. -/
structure Endpoint where
  iataCode : Option String
  terminal : Option String
  atTime : Option String
  deriving DecidableEq

/-- A normalised segment. -/
structure Segment where
  departure : Endpoint
  arrival : Endpoint
  carrierCode : Option String
  carrierName : Lookup String
  flightNumber : Option String
  aircraft : Option String
  duration : Option String
  numberOfStops : ℚ
  deriving DecidableEq

/-- A normalised itinerary. -/
structure Itinerary where
  duration : Option String
  segments : Option (List Segment)
  deriving DecidableEq

/-- The `price` of a flight. -/
structure Price where
  currency : String
  total : ℚ
  base : ℚ
  grandTotal : ℚ
  deriving DecidableEq

/-- The `carbonEmissions` of a flight. -/
structure CarbonEmissions where
  weight : Num
  weightUnit : String
  cabin : String
  deriving DecidableEq

/-- The object `ecoInsights` of the Flight model. -/
structure EcoInsights where
  treesNeeded : ℤ
  carKmEquivalent : ℤ
  homeEnergyDays : ℚ
  deriving DecidableEq

/-- A flight object: `flightData` as `processFlightOffers` builds and pushes it, or a
document of the Flight model.  The key `ecoInsights` is absent (`none`) on an object whose
literal does not name it; the `pre('save')` hook of the model assigns it. -/
structure Flight where
  flightOfferId : Option String
  origin : String
  destination : String
  /-- The `Date` handed over by the caller, in milliseconds since the epoch. -/
  departureDate : ℤ
  itineraries : List Itinerary
  price : Price
  travelClass : String
  stops : ℚ
  airlines : List Airline
  carbonEmissions : CarbonEmissions
  validatingAirlineCodes : List String
  numberOfBookableSeats : ℚ
  ecoInsights : Option EcoInsights := none
  deriving DecidableEq

/-- The error raised by reading a property of `null`. -/
def typeError : String := "TypeError: Cannot read properties of null"

/-! ## flightController.js: processFlightOffers -/

/-- The `reduce` over the segments of one itinerary: the sum of `numberOfStops || 0`. -/
def segmentStops (segments : List (Option RawSegment)) : Except String ℚ :=
  segments.foldlM (fun sum segment =>
    match segment with
    | none => .error typeError
    | some seg => .ok (sum + numOr seg.numberOfStops 0)) 0

/-- The first `itineraries.forEach`: the running total `totalStops`. -/
def countStops (itineraries : List (Option RawItinerary)) : Except String ℚ :=
  itineraries.foldlM (fun totalStops itinerary =>
    match itinerary with
    | none => .error typeError
    | some it =>
      let segments := it.segments.getD []
      match segmentStops segments with
      | .error e => .error e
      | .ok stops => .ok (totalStops + (max 0 ((segments.length : ℚ) - 1) + stops))) 0

/-- The body of the inner `forEach` of the airline extraction: the state is the set
`airlineCodes` (in insertion order) and the array `airlines`. -/
def addAirline (st : List String × List Airline) (segment : Option RawSegment) :
    Except String (List String × List Airline) :=
  match segment with
  | none => .error typeError
  | some seg =>
    match seg.carrierCode with
    | none => .ok st
    | some code =>
      if code ≠ "" ∧ code ∉ st.1 then
        .ok (st.1 ++ [code], st.2 ++ [{ code := code, name := getAirlineName (some code) }])
      else .ok st

/-- The second `itineraries.forEach`: the airline extraction. -/
def collectAirlines (itineraries : List (Option RawItinerary)) :
    Except String (List String × List Airline) :=
  itineraries.foldlM (fun st itinerary =>
    match itinerary with
    | none => .error typeError
    | some it =>
      match it.segments with
      | none => .ok st
      | some segments => segments.foldlM addAirline st) ([], [])

/-- The expression `travelerPricings[0]?.fareDetailsBySegment`. -/
def firstFareDetails (travelerPricings : List (Option RawTravelerPricing)) :
    Option (List (Option RawFareDetails)) :=
  travelerPricings.head?.join.bind (fun tp => tp.fareDetailsBySegment)

/-- The expression `travelerPricings[0]?.fareDetailsBySegment?.[0]?.cabin`. -/
def firstCabin (travelerPricings : List (Option RawTravelerPricing)) : Option String :=
  ((firstFareDetails travelerPricings).bind (fun l => l.head?.join)).bind (fun fd => fd.cabin)

/-- The `forEach` over the first traveler's fare details: the running `totalEmissions`. -/
def providerEmissions (segments : List (Option RawFareDetails)) : Except String ℚ :=
  segments.foldlM (fun totalEmissions segment =>
    match segment with
    | none => .error typeError
    | some seg =>
      match seg.co2Emissions with
      | none => .ok totalEmissions
      | some co2 => .ok (totalEmissions + numOr (co2.head?.join.bind (fun c => c.weight)) 0)) 0

/-- The emissions resolution: provider data when its total is positive, otherwise the
estimate for one direction times the number of itineraries. -/
def resolveEmissions (origin destination : String)
    (travelerPricings : List (Option RawTravelerPricing)) (itineraryCount : ℕ)
    (totalStops : ℚ) : Except String CarbonEmissions :=
  let cabin := strOr (firstCabin travelerPricings) "ECONOMY"
  let provided : Except String ℚ :=
    match firstFareDetails travelerPricings with
    | none => .ok 0
    | some segments =>
      match providerEmissions segments with
      | .error e => .error e
      | .ok totalEmissions => .ok (if totalEmissions > 0 then totalEmissions else 0)
  match provided with
  | .error e => .error e
  | .ok weight =>
    if weight = 0 then
      let estimatedDistance := estimateFlightDistance origin destination
      let singleTripEmissions := estimateEmissions estimatedDistance.toNum (some cabin) totalStops
      .ok { weight := singleTripEmissions.mul (.val itineraryCount), weightUnit := "KG",
            cabin := cabin }
    else .ok { weight := .val weight, weightUnit := "KG", cabin := cabin }

/-- The endpoint object built for `departure` and `arrival`. -/
def mapEndpoint (e : Option RawEndpoint) : Endpoint :=
  { iataCode := e.bind (fun x => x.iataCode), terminal := e.bind (fun x => x.terminal),
    atTime := e.bind (fun x => x.atTime) }

/-- The callback of `itinerary.segments?.map`. -/
def mapSegment (segment : Option RawSegment) : Except String Segment :=
  match segment with
  | none => .error typeError
  | some seg =>
    .ok { departure := mapEndpoint seg.departure, arrival := mapEndpoint seg.arrival,
          carrierCode := seg.carrierCode, carrierName := getAirlineName seg.carrierCode,
          flightNumber := seg.number, aircraft := seg.aircraft, duration := seg.duration,
          numberOfStops := numOr seg.numberOfStops 0 }

/-- The callback of `itineraries.map`. -/
def mapItinerary (itinerary : Option RawItinerary) : Except String Itinerary :=
  match itinerary with
  | none => .error typeError
  | some it =>
    match it.segments with
    | none => .ok { duration := it.duration, segments := none }
    | some segments =>
      match segments.mapM mapSegment with
      | .error e => .error e
      | .ok mapped => .ok { duration := it.duration, segments := some mapped }

/-- The body of the `try` block of `processFlightOffers`: one offer to one `flightData`,
or the exception the block raises. -/
def processOffer (offer : Option RawOffer) (origin destination : String)
    (departureDate : ℤ) : Except String Flight :=
  match offer with
  | none => .error typeError
  | some offer => do
    let itineraries := offer.itineraries.getD []
    let price := offer.price.getD
      { currency := none, total := none, base := none, grandTotal := none }
    let travelerPricings := offer.travelerPricings.getD []
    let totalStops ← countStops itineraries
    let collected ← collectAirlines itineraries
    let carbonEmissions ←
      resolveEmissions origin destination travelerPricings itineraries.length totalStops
    let mappedItineraries ← itineraries.mapM mapItinerary
    pure
      { flightOfferId := offer.id, origin := origin, destination := destination,
        departureDate := departureDate, itineraries := mappedItineraries,
        price :=
          { currency := strOr price.currency "USD",
            total := numOr (parseFloat price.total) 0,
            base := numOr (parseFloat price.base) 0,
            grandTotal := numOr (parseFloat price.grandTotal)
              (numOr (parseFloat price.total) 0) },
        travelClass := strOr (firstCabin travelerPricings) "ECONOMY",
        stops := totalStops, airlines := collected.2, carbonEmissions := carbonEmissions,
        validatingAirlineCodes := offer.validatingAirlineCodes.getD [],
        numberOfBookableSeats := numOr offer.numberOfBookableSeats 0 }

/-- The function `processFlightOffers(offers, origin, destination, departureDate)`: an
offer whose processing raises is logged and skipped. -/
def processFlightOffers (offers : List (Option RawOffer)) (origin destination : String)
    (departureDate : ℤ) : List Flight :=
  offers.foldl (fun processedFlights offer =>
    match processOffer offer origin destination departureDate with
    | .ok flightData => processedFlights ++ [flightData]
    | .error _ => processedFlights) []

/-! ## flightController.js: prioritizeFlights -/

/-- One optional group `(?:(\d+)U)?` of the duration pattern, tried at the head of the
input: the captured digits (if the group matches) and the input left after it. -/
def matchGroup (unit : Char) (cs : List Char) : Option (List Char) × List Char :=
  let ds := cs.takeWhile Char.isDigit
  let rest := cs.dropWhile Char.isDigit
  if ds ≠ [] ∧ rest.head? = some unit then (some ds, rest.tail) else (none, cs)

/-- The call `duration.match(/PT(?:(\d+)H)?(?:(\d+)M)?/)`: the two capture groups of the
leftmost match, `none` when the pattern matches nowhere. -/
def durationMatch : List Char → Option (Option (List Char) × Option (List Char))
  | [] => none
  | c :: cs =>
    if c = 'P' ∧ cs.head? = some 'T' then
      let hoursGroup := matchGroup 'H' cs.tail
      let minutesGroup := matchGroup 'M' hoursGroup.2
      some (hoursGroup.1, minutesGroup.1)
    else durationMatch cs

/-- The call `parseInt(group || 0)` on a capture group of digits: the double nearest to
the value of the digits, which is that value itself below `2^53`. -/
def parseGroup : Option (List Char) → ℚ
  | some ds => binary64 (digitsValue ds)
  | none => 0

/-- The local function `getDurationMinutes(flight)` of the comparator. -/
def getDurationMinutes (flight : Flight) : ℚ :=
  match flight.itineraries.head?.bind (fun it => it.duration) with
  | none => 9999
  | some duration =>
    if duration = "" then 9999
    else
      match durationMatch duration.toList with
      | none => 9999
      | some (g1, g2) =>
        let hours := parseGroup g1
        let minutes := parseGroup g2
        binary64 (binary64 (hours * 60) + minutes)

/-- The comparator `(a, b) => ...` handed to `flights.sort`, with the arithmetic of the
score read exactly; `Double.compareFlights` is the same comparator in doubles. -/
def compareFlights (a b : Flight) : ℚ :=
  let scoreA : ℚ := 0
  let scoreB : ℚ := 0
  let scoreA := if a.stops = 0 then scoreA + 1000 else scoreA
  let scoreB := if b.stops = 0 then scoreB + 1000 else scoreB
  let hasAPremiumAirline := a.airlines.any (fun airline => decide (airline.code ∈ premiumAirlines))
  let hasBPremiumAirline := b.airlines.any (fun airline => decide (airline.code ∈ premiumAirlines))
  let scoreA := if hasAPremiumAirline then scoreA + 500 else scoreA
  let scoreB := if hasBPremiumAirline then scoreB + 500 else scoreB
  let scoreA := scoreA - a.stops * 200
  let scoreB := scoreB - b.stops * 200
  let scoreA := scoreA - a.price.grandTotal / 10
  let scoreB := scoreB - b.price.grandTotal / 10
  let scoreA := scoreA + a.numberOfBookableSeats * 2
  let scoreB := scoreB + b.numberOfBookableSeats * 2
  let durationA := getDurationMinutes a
  let durationB := getDurationMinutes b
  let scoreA := scoreA - durationA * 0.5
  let scoreB := scoreB - durationB * 0.5
  scoreB - scoreA

/-- Insertion of `x` in front of the first element it does not sort after. -/
def sortedInsert {α : Type} (comparator : α → α → ℚ) (x : α) : List α → List α
  | [] => [x]
  | y :: ys =>
    if comparator x y ≤ 0 then x :: y :: ys else y :: sortedInsert comparator x ys

/-- The built-in `Array.prototype.sort(comparator)`.  ECMAScript fixes its result for a
consistent comparator: the elements in comparator order, equal elements in their
original order.  It is modelled by a stable insertion sort. -/
def arraySort {α : Type} (comparator : α → α → ℚ) : List α → List α
  | [] => []
  | x :: xs => sortedInsert comparator x (arraySort comparator xs)

/-- The function `prioritizeFlights(flights)`. -/
def prioritizeFlights (flights : List Flight) : List Flight :=
  arraySort compareFlights flights

/-! ## flightController.js: the comparator in doubles

`compareFlights` evaluates the score in exact arithmetic, as the formula of the
specification reads.  The code evaluates it in doubles: every number it reads is a double
and every operation rounds its result.  The definitions of this section follow the same
lines of the code with `binary64` around each number read and each result; the constants
1000, 500, 200, 10, 2 and 0.5 are doubles as they stand. -/

/-- The value `scoreA` (or `scoreB`) the comparator has computed for a flight when it
returns, in doubles. -/
def Double.score (flight : Flight) : ℚ :=
  let score : ℚ := 0
  let score := if binary64 flight.stops = 0 then binary64 (score + 1000) else score
  let hasPremiumAirline :=
    flight.airlines.any (fun airline => decide (airline.code ∈ premiumAirlines))
  let score := if hasPremiumAirline then binary64 (score + 500) else score
  let score := binary64 (score - binary64 (binary64 flight.stops * 200))
  let score := binary64 (score - binary64 (binary64 flight.price.grandTotal / 10))
  let score := binary64 (score + binary64 (binary64 flight.numberOfBookableSeats * 2))
  let duration := getDurationMinutes flight
  binary64 (score - binary64 (duration * 0.5))

/-- The comparator `(a, b) => ...` handed to `flights.sort`, evaluated in doubles. -/
def Double.compareFlights (a b : Flight) : ℚ :=
  let scoreA : ℚ := 0
  let scoreB : ℚ := 0
  let scoreA := if binary64 a.stops = 0 then binary64 (scoreA + 1000) else scoreA
  let scoreB := if binary64 b.stops = 0 then binary64 (scoreB + 1000) else scoreB
  let hasAPremiumAirline := a.airlines.any (fun airline => decide (airline.code ∈ premiumAirlines))
  let hasBPremiumAirline := b.airlines.any (fun airline => decide (airline.code ∈ premiumAirlines))
  let scoreA := if hasAPremiumAirline then binary64 (scoreA + 500) else scoreA
  let scoreB := if hasBPremiumAirline then binary64 (scoreB + 500) else scoreB
  let scoreA := binary64 (scoreA - binary64 (binary64 a.stops * 200))
  let scoreB := binary64 (scoreB - binary64 (binary64 b.stops * 200))
  let scoreA := binary64 (scoreA - binary64 (binary64 a.price.grandTotal / 10))
  let scoreB := binary64 (scoreB - binary64 (binary64 b.price.grandTotal / 10))
  let scoreA := binary64 (scoreA + binary64 (binary64 a.numberOfBookableSeats * 2))
  let scoreB := binary64 (scoreB + binary64 (binary64 b.numberOfBookableSeats * 2))
  let durationA := getDurationMinutes a
  let durationB := getDurationMinutes b
  let scoreA := binary64 (scoreA - binary64 (durationA * 0.5))
  let scoreB := binary64 (scoreB - binary64 (durationB * 0.5))
  binary64 (scoreB - scoreA)

/-- The function `prioritizeFlights(flights)` with the comparator evaluated in doubles. -/
def Double.prioritizeFlights (flights : List Flight) : List Flight :=
  arraySort Double.compareFlights flights

/-! ## flightController.js: searchFlights -/

/-- The value of a hexadecimal digit, `none` for any other character. -/
def hexDigit (c : Char) : Option ℕ :=
  if c.isDigit then some (c.toNat - 48)
  else if 97 ≤ c.toNat ∧ c.toNat ≤ 102 then some (c.toNat - 87)
  else if 65 ≤ c.toNat ∧ c.toNat ≤ 70 then some (c.toNat - 55)
  else none

/-- The unsigned integer at the head of the input as `parseInt` reads it without a radix:
hexadecimal after `0x` or `0X`, decimal otherwise; `none` is `NaN`. -/
def unsignedInt (cs : List Char) : Option ℕ :=
  if cs.head? = some '0' ∧ (cs.tail.head? = some 'x' ∨ cs.tail.head? = some 'X') then
    let ds := cs.tail.tail.takeWhile (fun c => (hexDigit c).isSome)
    if ds = [] then none
    else some (ds.foldl (fun n c => 16 * n + (hexDigit c).getD 0) 0)
  else
    let ds := cs.takeWhile Char.isDigit
    if ds = [] then none else some (digitsValue ds)

/-- The call `parseInt(s)` on a string; `none` is `NaN`. -/
def parseInt (s : String) : Option ℤ :=
  let cs := s.toList.dropWhile isWhiteSpace
  if cs.head? = some '-' then (unsignedInt cs.tail).map (fun n => -(n : ℤ))
  else if cs.head? = some '+' then (unsignedInt cs.tail).map (fun n => (n : ℤ))
  else (unsignedInt cs).map (fun n => (n : ℤ))

/-- The property `s.length`: the number of UTF-16 code units of the string. -/
def utf16Length (s : String) : ℕ :=
  (s.toList.map (fun c => if c.toNat < 65536 then 1 else 2)).sum

/-- Milliseconds per day. -/
def msPerDay : ℤ := 86400000

/-- Leap years of the proleptic Gregorian calendar. -/
def isLeapYear (y : ℤ) : Bool :=
  decide (y % 4 = 0) && (decide (y % 100 ≠ 0) || decide (y % 400 = 0))

/-- The number of days of month `m` (1 to 12) of year `y`. -/
def daysInMonth (y m : ℤ) : ℤ :=
  if m = 2 then (if isLeapYear y then 29 else 28)
  else if m = 4 ∨ m = 6 ∨ m = 9 ∨ m = 11 then 30
  else 31

/-- The day number (days since 1970-01-01) of the calendar date `y-m-d`. -/
def dayNumber (y m d : ℤ) : ℤ :=
  let y1 := if m ≤ 2 then y - 1 else y
  let era := y1 / 400
  let yoe := y1 - era * 400
  let mp := if m > 2 then m - 3 else m + 9
  let doy := (153 * mp + 2) / 5 + d - 1
  let doe := yoe * 365 + yoe / 4 - yoe / 100 + doy
  era * 146097 + doe - 719468

/-- The calendar date written by a string of the date-only form `YYYY-MM-DD`, `none` when
the string has another form or names no calendar day. -/
def calendarDate (s : String) : Option (ℤ × ℤ × ℤ) :=
  match s.toList with
  | [y1, y2, y3, y4, s1, m1, m2, s2, d1, d2] =>
    if [y1, y2, y3, y4, m1, m2, d1, d2].all Char.isDigit ∧ s1 = '-' ∧ s2 = '-' then
      let y : ℤ := digitsValue [y1, y2, y3, y4]
      let m : ℤ := digitsValue [m1, m2]
      let d : ℤ := digitsValue [d1, d2]
      if 1 ≤ m ∧ m ≤ 12 ∧ 1 ≤ d ∧ d ≤ daysInMonth y m then some (y, m, d) else none
    else none
  | _ => none

/-- The object `searchParams` handed to the provider; `adults` is the result of `parseInt`
(`none` is `NaN`). -/
structure SearchParams where
  origin : String
  destination : String
  departureDate : String
  returnDate : Option String
  adults : Option ℤ
  travelClass : String
  max : ℕ
  deriving DecidableEq

/-- What one request sees of its environment. -/
structure Runtime where
  /-- The current instant `new Date()`, in milliseconds since the epoch. -/
  now : ℤ
  /-- Local time minus UTC on the server, in milliseconds. -/
  timezoneOffset : ℤ
  /-- The time value the `Date` constructor gives a string that is not a date-only
  `YYYY-MM-DD` form (formats with a time, legacy formats); `none` is an invalid date. -/
  otherDateFormats : String → Option ℤ
  /-- The method `String.prototype.toUpperCase`. -/
  toUpperCase : String → String
  /-- The call `amadeusService.searchFlights(searchParams)`: it raises, or returns a body
  whose `data` may be absent. -/
  provider : SearchParams → Except String (Option (List (Option RawOffer)))

/-- The call `new Date(s).getTime()`; `none` is `NaN`.  A date-only form is midnight UTC
of that calendar day. -/
def dateTime (rt : Runtime) (s : String) : Option ℤ :=
  match calendarDate s with
  | some (y, m, d) => some (dayNumber y m d * msPerDay)
  | none => rt.otherDateFormats s

/-- The value of `today` after `today.setHours(0, 0, 0, 0)`: the instant of the last local
midnight. -/
def startOfToday (rt : Runtime) : ℤ :=
  (rt.now + rt.timezoneOffset) / msPerDay * msPerDay - rt.timezoneOffset

/-- The query string of a search request. -/
structure Query where
  origin : Option String
  destination : Option String
  departureDate : Option String
  returnDate : Option String
  adults : Option String
  travelClass : Option String
  deriving DecidableEq

/-- What the handler sends: a 400 with a message, a 200 with the result, or the error
passed to `next`. -/
inductive Response where
  | badRequest (message : String)
  | success (results : ℕ) (totalFound : ℕ) (flights : List Flight)
  | failure (error : String)
  deriving DecidableEq

/-- The response of the handler together with the provider calls it made. -/
structure Outcome where
  response : Response
  providerCalls : List SearchParams
  deriving DecidableEq

/-- The message of the missing-parameter rejection. -/
def requiredMessage : String := "Origin, destination, and departure date are required"

/-- The message of the invalid-airport-code rejection. -/
def invalidAirportCodeMessage : String :=
  "Invalid airport codes. Please use 3-letter IATA codes (e.g., JFK, LAX)"

/-- The message of the invalid-date-format rejection. -/
def invalidDateFormatMessage : String := "Invalid departure date format. Use YYYY-MM-DD"

/-- The message of the past-departure rejection. -/
def pastDepartureMessage : String := "Departure date cannot be in the past"

/-- The handler `searchFlights(req, res, next)`. -/
def searchFlights (rt : Runtime) (query : Query) : Outcome :=
  let adults : Option ℤ := match query.adults with
    | none => some 1
    | some a => parseInt a
  let travelClass := query.travelClass.getD "ECONOMY"
  match query.origin, query.destination, query.departureDate with
  | some origin, some destination, some departureDate =>
    if origin = "" ∨ destination = "" ∨ departureDate = "" then
      ⟨.badRequest requiredMessage, []⟩
    else if utf16Length origin ≠ 3 ∨ utf16Length destination ≠ 3 then
      ⟨.badRequest invalidAirportCodeMessage, []⟩
    else
      match dateTime rt departureDate with
      | none => ⟨.badRequest invalidDateFormatMessage, []⟩
      | some depDate =>
        let today := startOfToday rt
        if depDate < today then ⟨.badRequest pastDepartureMessage, []⟩
        else
          let searchParams : SearchParams :=
            { origin := rt.toUpperCase origin, destination := rt.toUpperCase destination,
              departureDate := departureDate, returnDate := query.returnDate,
              adults := adults, travelClass := travelClass, max := 250 }
          match rt.provider searchParams with
          | .error e => ⟨.failure e, [searchParams]⟩
          | .ok data =>
            let flights := processFlightOffers (data.getD []) (rt.toUpperCase origin)
              (rt.toUpperCase destination) depDate
            let prioritizedFlights := prioritizeFlights flights
            let topFlights := prioritizedFlights.take 20
            ⟨.success topFlights.length flights.length topFlights, [searchParams]⟩
  | _, _, _ => ⟨.badRequest requiredMessage, []⟩

/-! ## Exception-free reading of the normaliser

The `try` block raises exactly when it meets a `null` where it reads a property: a `null`
offer, itinerary or segment, or a `null` entry in the first traveler's fare details.  The
definitions below describe the flight built in the other case by plain list functions. -/

/-- An itinerary that is not `null` and has no `null` segment. -/
def itineraryOk (itinerary : Option RawItinerary) : Bool :=
  match itinerary with
  | none => false
  | some it => (it.segments.getD []).all Option.isSome

/-- An offer on which the `try` block meets no `null`. -/
def RawOffer.wellFormed (offer : RawOffer) : Bool :=
  (offer.itineraries.getD []).all itineraryOk &&
    ((firstFareDetails (offer.travelerPricings.getD [])).getD []).all Option.isSome

/-- The segments of an itinerary, none when it is `null` or has no `segments`. -/
def segmentsOf (itinerary : Option RawItinerary) : List (Option RawSegment) :=
  (itinerary.bind (fun it => it.segments)).getD []

/-- The technical stops of a segment: its `numberOfStops`, 0 when missing. -/
def technicalStops (segment : Option RawSegment) : ℚ :=
  (segment.bind (fun s => s.numberOfStops)).getD 0

/-- The stops one itinerary contributes: `max(0, segments - 1)` plus the technical stops
of its segments. -/
def itineraryStopCount (itinerary : Option RawItinerary) : ℚ :=
  max 0 (((segmentsOf itinerary).length : ℚ) - 1) + ((segmentsOf itinerary).map technicalStops).sum

/-- The stops of an offer: the sum of the contributions of its itineraries. -/
def offerStops (offer : RawOffer) : ℚ :=
  ((offer.itineraries.getD []).map itineraryStopCount).sum

/-- The effect of one segment on the airline state when nothing raises. -/
def pushAirline (st : List String × List Airline) (segment : Option RawSegment) :
    List String × List Airline :=
  match segment.bind (fun s => s.carrierCode) with
  | none => st
  | some code =>
    if code ≠ "" ∧ code ∉ st.1 then
      (st.1 ++ [code], st.2 ++ [{ code := code, name := getAirlineName (some code) }])
    else st

/-- The airline state after walking every segment of every itinerary. -/
def offerAirlines (itineraries : List (Option RawItinerary)) : List String × List Airline :=
  itineraries.foldl (fun st itinerary => (segmentsOf itinerary).foldl pushAirline st) ([], [])

/-- The weight one fare detail adds to `totalEmissions`: the weight of the first entry of
its `co2Emissions`, 0 when there is none. -/
def reportedWeight (fareDetails : Option RawFareDetails) : ℚ :=
  numOr (((fareDetails.bind (fun fd => fd.co2Emissions)).bind
    (fun co2 => co2.head?.join)).bind (fun c => c.weight)) 0

/-- The total the provider reports for the first traveler of an offer. -/
def providerTotal (offer : RawOffer) : ℚ :=
  (((firstFareDetails (offer.travelerPricings.getD [])).getD []).map reportedWeight).sum

/-- The cabin used for the estimate: the first traveler's first fare-detail cabin, or
ECONOMY when absent. -/
def offerCabin (offer : RawOffer) : String :=
  (firstCabin (offer.travelerPricings.getD [])).getD "ECONOMY"

/-- The estimate for an offer: one direction from the distance table, the cabin and the
stops, times the number of itineraries. -/
def estimatedWeight (origin destination : String) (offer : RawOffer) : Num :=
  (estimateEmissions (estimateFlightDistance origin destination).toNum
    (some (offerCabin offer)) (offerStops offer)).mul
    (.val ((offer.itineraries.getD []).length : ℚ))

/-- The `carbonEmissions` object when nothing raises. -/
def offerEmissions (origin destination : String) (offer : RawOffer) : CarbonEmissions :=
  { weight := if 0 < providerTotal offer then .val (providerTotal offer)
      else estimatedWeight origin destination offer,
    weightUnit := "KG",
    cabin := strOr (firstCabin (offer.travelerPricings.getD [])) "ECONOMY" }

/-- The normalised segment when the raw segment is not `null`. -/
def normalSegment (segment : Option RawSegment) : Segment :=
  { departure := mapEndpoint (segment.bind (fun s => s.departure)),
    arrival := mapEndpoint (segment.bind (fun s => s.arrival)),
    carrierCode := segment.bind (fun s => s.carrierCode),
    carrierName := getAirlineName (segment.bind (fun s => s.carrierCode)),
    flightNumber := segment.bind (fun s => s.number),
    aircraft := segment.bind (fun s => s.aircraft),
    duration := segment.bind (fun s => s.duration),
    numberOfStops := technicalStops segment }

/-- The normalised itinerary when nothing raises. -/
def normalItinerary (itinerary : Option RawItinerary) : Itinerary :=
  { duration := itinerary.bind (fun it => it.duration),
    segments := (itinerary.bind (fun it => it.segments)).map (fun l => l.map normalSegment) }

/-- The flight built from a well-formed offer. -/
def normalFlight (offer : RawOffer) (origin destination : String) (departureDate : ℤ) :
    Flight :=
  { flightOfferId := offer.id, origin := origin, destination := destination,
    departureDate := departureDate,
    itineraries := (offer.itineraries.getD []).map normalItinerary,
    price :=
      { currency := strOr (offer.price.bind (fun p => p.currency)) "USD",
        total := numOr (parseFloat (offer.price.bind (fun p => p.total))) 0,
        base := numOr (parseFloat (offer.price.bind (fun p => p.base))) 0,
        grandTotal := numOr (parseFloat (offer.price.bind (fun p => p.grandTotal)))
          (numOr (parseFloat (offer.price.bind (fun p => p.total))) 0) },
    travelClass := strOr (firstCabin (offer.travelerPricings.getD [])) "ECONOMY",
    stops := offerStops offer,
    airlines := (offerAirlines (offer.itineraries.getD [])).2,
    carbonEmissions := offerEmissions origin destination offer,
    validatingAirlineCodes := offer.validatingAirlineCodes.getD [],
    numberOfBookableSeats := numOr offer.numberOfBookableSeats 0 }

/-- The flights an offer contributes to the batch: one on a well-formed offer, none else. -/
def contribution (origin destination : String) (departureDate : ℤ)
    (offer : Option RawOffer) : List Flight :=
  match offer with
  | none => []
  | some o => if o.wellFormed then [normalFlight o origin destination departureDate] else []

/-! ## Sample inputs -/

/-- A segment flown by AA with no technical stop recorded. -/
def plainSegment : RawSegment :=
  { departure := none, arrival := none, carrierCode := some "AA", number := none,
    aircraft := none, duration := none, numberOfStops := none }

/-- A segment flown by AA with one technical stop. -/
def technicalStopSegment : RawSegment :=
  { departure := none, arrival := none, carrierCode := some "AA", number := none,
    aircraft := none, duration := none, numberOfStops := some 1 }

/-- An ECONOMY fare detail without emissions data. -/
def economyFare : RawFareDetails := { cabin := some "ECONOMY", co2Emissions := none }

/-- A fare detail reporting the given CO2 weight. -/
def fareWithWeight (w : ℚ) : RawFareDetails :=
  { cabin := some "ECONOMY", co2Emissions := some [some { weight := some w }] }

/-- An offer with the given itineraries and first-traveler fare details, nothing else. -/
def offerOf (itineraries : List (Option RawItinerary)) (fares : List (Option RawFareDetails)) :
    RawOffer :=
  { id := some "1", itineraries := some itineraries, price := none,
    travelerPricings := some [some { fareDetailsBySegment := some fares }],
    validatingAirlineCodes := none, numberOfBookableSeats := none }

/-- Scenario A: one itinerary of one segment, ECONOMY, no emissions data. -/
def scenarioA : RawOffer :=
  offerOf [some { duration := none, segments := some [some plainSegment] }] [some economyFare]

/-- Scenario B: one itinerary of two segments, the second with one technical stop. -/
def scenarioB : RawOffer :=
  offerOf [some { duration := none,
                  segments := some [some plainSegment, some technicalStopSegment] }]
    [some economyFare]

/-- Scenario C: a round trip of two one-segment itineraries, ECONOMY, no emissions data. -/
def scenarioC : RawOffer :=
  offerOf [some { duration := none, segments := some [some plainSegment] },
           some { duration := none, segments := some [some plainSegment] }]
    [some economyFare]

/-- An offer whose fare details report the weights 5 and 7. -/
def reportedOffer : RawOffer :=
  offerOf [some { duration := none, segments := some [some plainSegment] }]
    [some (fareWithWeight 5), some (fareWithWeight 7)]

/-- The emission factor of a cabin as the specification tabulates it: the ECONOMY factor
for an unknown or missing cabin. -/
def cabinFactor (cabin : Option String) : ℚ :=
  if cabin = some "ECONOMY" then 0.09
  else if cabin = some "PREMIUM_ECONOMY" then 0.13
  else if cabin = some "BUSINESS" then 0.20
  else if cabin = some "FIRST" then 0.27
  else 0.09

/-- The composite score of a flight as the specification words it. -/
def compositeScore (f : Flight) : ℚ :=
  (if f.stops = 0 then 1000 else 0) +
    (if ∃ airline ∈ f.airlines, airline.code ∈ premiumAirlines then 500 else 0) -
    200 * f.stops - f.price.grandTotal / 10 + 2 * f.numberOfBookableSeats -
    0.5 * getDurationMinutes f

/-- A sample upper-casing of ASCII letters. -/
def asciiUpper (s : String) : String := String.mk (s.toList.map Char.toUpper)

/-- A sample server: UTC clock at noon of 2025-06-15, no other date formats understood,
a provider that answers every search with scenario A. -/
def sampleRuntime : Runtime :=
  { now := 20254 * 86400000 + 43200000, timezoneOffset := 0,
    otherDateFormats := fun _ => none, toUpperCase := asciiUpper,
    provider := fun _ => .ok (some [some scenarioA]) }

/-- The same server five hours west of UTC, at 12:00 UTC (07:00 local) of 2025-06-15. -/
def westRuntime : Runtime :=
  { now := 20254 * 86400000 + 43200000, timezoneOffset := -18000000,
    otherDateFormats := fun _ => none, toUpperCase := asciiUpper,
    provider := fun _ => .ok (some [some scenarioA]) }

/-- A request with the given origin, destination and departure date and nothing else. -/
def queryOf (origin destination departureDate : Option String) : Query :=
  { origin := origin, destination := destination, departureDate := departureDate,
    returnDate := none, adults := none, travelClass := none }

/-- The `searchParams` built for a request that passed validation. -/
def paramsOf (rt : Runtime) (query : Query) (origin destination departureDate : String) :
    SearchParams :=
  { origin := rt.toUpperCase origin, destination := rt.toUpperCase destination,
    departureDate := departureDate, returnDate := query.returnDate,
    adults := (match query.adults with
      | none => some 1
      | some a => parseInt a),
    travelClass := query.travelClass.getD "ECONOMY", max := 250 }

/-! ## Sample inputs of the batch and defaulting properties -/

/-- An offer whose only itinerary has an empty `segments` array. -/
def emptySegmentsOffer : RawOffer :=
  offerOf [some { duration := some "PT2H", segments := some [] }] [some economyFare]

/-- Scenario A with a price that gives `total` only. -/
def totalOnlyOffer : RawOffer :=
  { scenarioA with
    price := some { currency := none, total := some "100", base := none, grandTotal := none } }

/-- A segment from JFK to LAX flown by AA. -/
def jfkLaxSegment : RawSegment :=
  { departure := some { iataCode := some "JFK", terminal := none, atTime := none },
    arrival := some { iataCode := some "LAX", terminal := none, atTime := none },
    carrierCode := some "AA", number := none, aircraft := none, duration := none,
    numberOfStops := none }

/-- One itinerary of one segment from JFK to LAX, ECONOMY, no emissions data. -/
def jfkLaxOffer : RawOffer :=
  offerOf [some { duration := none, segments := some [some jfkLaxSegment] }] [some economyFare]

/-- A flight with the given stops, one airline, grand total, bookable seats and duration of
its only itinerary. -/
def flightOf (stops : ℚ) (airline : String) (grandTotal seats : ℚ)
    (duration : Option String) : Flight :=
  { flightOfferId := none, origin := "JFK", destination := "LAX", departureDate := 0,
    itineraries := [{ duration := duration, segments := none }],
    price := { currency := "USD", total := grandTotal, base := 0, grandTotal := grandTotal },
    travelClass := "ECONOMY", stops := stops,
    airlines := [{ code := airline, name := getAirlineName (some airline) }],
    carbonEmissions := { weight := .val 0, weightUnit := "KG", cabin := "ECONOMY" },
    validatingAirlineCodes := [], numberOfBookableSeats := seats }

/-- Flight A of scenario D: direct, not premium (WN), 500, PT5H. -/
def flightA : Flight := flightOf 0 "WN" 500 0 (some "PT5H")

/-- Flight B of scenario D: one stop, premium (BA), 300, PT3H20M. -/
def flightB : Flight := flightOf 1 "BA" 300 0 (some "PT3H20M")

/-- Flight X of the tie: direct, not premium (WN), 123.39, PT120M. -/
def flightX : Flight := flightOf 0 "WN" 123.39 0 (some "PT120M")

/-- Flight Y of the tie: direct, not premium (WN), 128.39, PT119M. -/
def flightY : Flight := flightOf 0 "WN" 128.39 0 (some "PT119M")

/-- The carrier code a segment carries, none when the field is missing or empty. -/
def carrierOf (segment : Option RawSegment) : Option String :=
  match segment.bind (fun s => s.carrierCode) with
  | none => none
  | some code => if code = "" then none else some code

/-- The carrier codes of the segments of an offer, walking the itineraries in order and
the segments of each in order, repetitions included. -/
def carrierCodes (offer : RawOffer) : List String :=
  ((offer.itineraries.getD []).flatMap segmentsOf).filterMap carrierOf

/-- The effect on the airline state of a segment that carries the code `code`. -/
def pushCode (st : List String × List Airline) (code : String) : List String × List Airline :=
  if code ∈ st.1 then st
  else (st.1 ++ [code], st.2 ++ [{ code := code, name := getAirlineName (some code) }])

/-- A segment flown by the given carrier. -/
def segmentBy (code : Option String) : RawSegment :=
  { departure := none, arrival := none, carrierCode := code, number := none,
    aircraft := none, duration := none, numberOfStops := none }

/-- A round trip flown by AA and BA out, and by AA, a segment with an empty code and DL
back. -/
def multiCarrierOffer : RawOffer :=
  offerOf
    [some { duration := none,
            segments := some [some (segmentBy (some "AA")), some (segmentBy (some "BA"))] },
     some { duration := none,
            segments := some [some (segmentBy (some "AA")), some (segmentBy (some "")),
              some (segmentBy (some "DL"))] }]
    [some economyFare]

/-- What holds of the airline state after the codes `seen` have been walked. -/
def AirlineState (seen : List String) (st : List String × List Airline) : Prop :=
  st.2.map (fun a => a.code) = st.1 ∧
    (∀ a ∈ st.2, a.name = getAirlineName (some a.code)) ∧
    st.1.Nodup ∧ (∀ c, c ∈ st.1 ↔ c ∈ seen) ∧
    st.1.Pairwise (fun a b => seen.indexOf a < seen.indexOf b)
/-- An offer like scenario A whose fare detail names the cabin `constructor`. -/
def inheritedCabinOffer : RawOffer :=
  offerOf [some { duration := none, segments := some [some plainSegment] }]
    [some { cabin := some "constructor", co2Emissions := none }]

/-- The comparison `x > 0` on a JavaScript number; it is false for `NaN`. -/
def Num.isPositive : Num → Prop
  | .val q => 0 < q
  | .NaN => False

/-! ## Sample inputs of the round-trip and invariant properties -/

/-- A one-way offer of one itinerary with two segments (one stop), ECONOMY, no emissions
data. -/
def oneStopOneWay : RawOffer :=
  offerOf [some { duration := none, segments := some [some plainSegment, some plainSegment] }]
    [some economyFare]

/-- The round trip whose return itinerary is a copy of the outbound of `oneStopOneWay`. -/
def oneStopRoundTrip : RawOffer :=
  offerOf [some { duration := none, segments := some [some plainSegment, some plainSegment] },
           some { duration := none, segments := some [some plainSegment, some plainSegment] }]
    [some economyFare]

/-- An offer without itineraries whose price has the total `-5`. -/
def negativePriceOffer : RawOffer :=
  { id := some "1", itineraries := none,
    price := some { currency := none, total := some "-5", base := none, grandTotal := none },
    travelerPricings := none, validatingAirlineCodes := none, numberOfBookableSeats := none }

/-! ## models/Flight.js: eco insights -/

/-- The hook `flightSchema.pre('save', ...)` on the document `doc`: when the emissions
weight is truthy it assigns `ecoInsights`, otherwise it leaves the document as it is. -/
def preSave (doc : Flight) : Flight :=
  match doc.carbonEmissions.weight with
  | .NaN => doc
  | .val co2Kg =>
    if co2Kg = 0 then doc
    else
      { doc with
        ecoInsights := some
          { treesNeeded := ⌈co2Kg / 21⌉,
            carKmEquivalent := ⌊co2Kg / 0.12 + 1 / 2⌋,
            homeEnergyDays := ((⌊co2Kg / 30 * 10 + 1 / 2⌋ : ℤ) : ℚ) / 10 } }

/-- The five tabulated routes and their distances. -/
def tabulatedRoutes : List ((String × String) × ℚ) :=
  [(("JFK", "LAX"), 3983), (("JFK", "LHR"), 5541), (("LAX", "SFO"), 543),
   (("LAS", "DFW"), 1789), (("ORD", "LAX"), 2799)]

/-- The distance of a route as the specification words it: the tabulated distance when
the pair is a tabulated route in either direction, 1500 otherwise. -/
def routeDistance (origin destination : String) : ℚ :=
  match tabulatedRoutes.find?
      (fun r => decide (r.1 = (origin, destination) ∨ r.1 = (destination, origin))) with
  | some r => r.2
  | none => 1500

/-! ## client/src/pages/FlightResults.jsx -/

/-- The object returned by `calculateLayover`; a `none` number is `NaN`. -/
structure Layover where
  hours : Option ℤ
  minutes : Option ℤ
  airport : Option String
  deriving DecidableEq

/-- The helper `calculateLayover(segment1, segment2)`.  The segments are those of a flight
as the server sent it; `dateOf x` is the time value of `new Date(x)` in milliseconds, `none`
for an invalid date. -/
def calculateLayover (dateOf : Option String → Option ℤ) (segment1 segment2 : Segment) :
    Layover :=
  let arrival := dateOf segment1.arrival.atTime
  let departure := dateOf segment2.departure.atTime
  match arrival, departure with
  | some a, some d =>
    let diffMs : ℤ := d - a
    { hours := some ⌊(diffMs : ℚ) / (1000 * 60 * 60)⌋,
      minutes := some ⌊((Int.tmod diffMs (1000 * 60 * 60) : ℤ) : ℚ) / (1000 * 60)⌋,
      airport := segment1.arrival.iataCode }
  | _, _ => { hours := none, minutes := none, airport := segment1.arrival.iataCode }

/-- A normalised segment with the given arrival airport, arrival time and departure time. -/
def segmentAt (airport : String) (departureAt arrivalAt : String) : Segment :=
  { departure := { iataCode := none, terminal := none, atTime := some departureAt },
    arrival := { iataCode := some airport, terminal := none, atTime := some arrivalAt },
    carrierCode := none, carrierName := .undefined, flightNumber := none, aircraft := none,
    duration := none, numberOfStops := 0 }

/-- A sample `Date` constructor: the one of `sampleRuntime`. -/
def sampleDateOf (x : Option String) : Option ℤ := x.bind (dateTime sampleRuntime)

/-- The call `s.replace(pattern, '')` with a string pattern: the first occurrence of the
pattern is removed. -/
def removeFirst (pattern : List Char) : List Char → List Char
  | [] => []
  | c :: cs =>
    if pattern.isPrefixOf (c :: cs) then (c :: cs).drop pattern.length
    else c :: removeFirst pattern cs

/-- The expression `s.split(separator)[0]`: the part before the first separator. -/
def firstPiece (separator : Char) (cs : List Char) : List Char :=
  cs.takeWhile (fun c => c != separator)

/-- The expression `s.split(separator)[1]`: the part between the first separator and the
next one, `none` (`undefined`) when the separator does not occur. -/
def secondPiece (separator : Char) (cs : List Char) : Option (List Char) :=
  match cs.dropWhile (fun c => c != separator) with
  | [] => none
  | _ :: rest => some (rest.takeWhile (fun c => c != separator))

/-- The `duration` of a displayed flight,
`parseInt(d.replace('PT', '').replace('H', '')) * 60 + parseInt(d.split('M')[0].split('H')[1] || 0)`
for the duration string `d` of the outbound itinerary; `none` is `NaN`. -/
def displayDuration (duration : String) : Option ℤ :=
  let hours := parseInt (String.mk (removeFirst ['H'] (removeFirst ['P', 'T'] duration.toList)))
  let piece := secondPiece 'H' (firstPiece 'M' duration.toList)
  let minutes : Option ℤ :=
    match piece with
    | none => some 0
    | some p => if p = [] then some 0 else parseInt (String.mk p)
  match hours, minutes with
  | some h, some m => some (h * 60 + m)
  | _, _ => none

/-- An element of `flights` on the results page with the fields its sort reads: `stops` is
`flight.stops`, `price` is `Math.round(flight.price.total)`, `duration` is the value of
`displayDuration` (`none` is `NaN`) and `co2` is `Math.round(flight.carbonEmissions.weight)`.
The texts, segments and return flight the page also builds play no part in the sort. -/
structure DisplayedFlight where
  id : Option String
  stops : ℚ
  price : ℤ
  duration : Option ℤ
  co2 : ℤ
  deriving DecidableEq

/-- The comparator of `sortedFlights` for the sort choice `sortBy`; `NaN` arises from
`a.duration - b.duration` when a duration is `NaN`. -/
def compareDisplayed (sortBy : String) (a b : DisplayedFlight) : Num :=
  let stopsDiff := a.stops - b.stops
  if stopsDiff ≠ 0 then .val stopsDiff
  else if sortBy = "price" then .val ((a.price - b.price : ℤ) : ℚ)
  else if sortBy = "duration" then
    (match a.duration, b.duration with
     | some x, some y => .val ((x - y : ℤ) : ℚ)
     | _, _ => .NaN)
  else if sortBy = "emissions" then .val ((a.co2 - b.co2 : ℤ) : ℚ)
  else .val 0

/-- The value `Array.prototype.sort` takes for the result of a comparator: `NaN` counts
as 0. -/
def Num.orZero : Num → ℚ
  | .val q => q
  | .NaN => 0

/-- The list `sortedFlights`, that is `[...flights].sort(comparator)`. -/
def sortedFlights (sortBy : String) (flights : List DisplayedFlight) : List DisplayedFlight :=
  arraySort (fun a b => (compareDisplayed sortBy a b).orZero) flights

/-- The key the specification names for a sort choice, read as a number where it is one. -/
def sortKey (sortBy : String) (f : DisplayedFlight) : ℚ :=
  if sortBy = "price" then f.price
  else if sortBy = "duration" then ((f.duration.getD 0 : ℤ) : ℚ)
  else if sortBy = "emissions" then f.co2
  else 0

/-- A displayed flight without stops, of price 100 and 50 kg, with the duration the page
computes from the given token. -/
def displayedWith (id : String) (token : String) : DisplayedFlight :=
  { id := some id, stops := 0, price := 100, duration := displayDuration token, co2 := 50 }

/-- The comparison `x <= y` of two numbers of which either may be `NaN` (`none`): false as
soon as one of them is `NaN`. -/
def numberLe : Option ℤ → Option ℤ → Prop
  | some x, some y => x ≤ y
  | _, _ => False

/-! # Theorems -/

/-! ## Rounding of doubles -/

theorem roundHalfEven_intCast (z : ℤ) : roundHalfEven (z : ℚ) = z := by
  simp [roundHalfEven]

theorem roundHalfEven_nonpos (x : ℚ) (h : x ≤ 0) : roundHalfEven x ≤ 0 := by
  have hf : ⌊x⌋ ≤ 0 := Int.floor_nonpos h
  have hlt : ¬ x - ⌊x⌋ < 1 / 2 → ⌊x⌋ + 1 ≤ 0 := by
    intro hx
    by_contra hc
    have h0 : ⌊x⌋ = 0 := by omega
    rw [h0] at hx
    norm_num at hx
    linarith
  unfold roundHalfEven
  split_ifs with h1 h2 h3
  · exact hf
  · exact hlt h1
  · exact hf
  · exact hlt h1

theorem roundHalfEven_pos (x : ℚ) (h : 1 ≤ x) : 1 ≤ roundHalfEven x := by
  have hf : 1 ≤ ⌊x⌋ := Int.le_floor.mpr (by exact_mod_cast h)
  unfold roundHalfEven
  split_ifs <;> omega

theorem roundHalfEven_of_near (x : ℚ) (n : ℤ) (h : |x - n| < 1 / 2) : roundHalfEven x = n := by
  rw [abs_lt] at h
  by_cases hx : (n : ℚ) ≤ x
  · have hf : ⌊x⌋ = n := by
      rw [Int.floor_eq_iff]
      constructor
      · exact hx
      · linarith
    unfold roundHalfEven
    rw [hf, if_pos (by linarith)]
  · have hf : ⌊x⌋ = n - 1 := by
      rw [Int.floor_eq_iff]
      push_cast
      constructor <;> linarith
    unfold roundHalfEven
    rw [hf]
    push_cast
    rw [if_neg (by linarith), if_pos (by linarith)]
    ring

theorem roundHalfEven_tie (x : ℚ) (n : ℤ) (hx : x = n + 1 / 2) (hn : n % 2 = 0) :
    roundHalfEven x = n := by
  have hf : ⌊x⌋ = n := by
    rw [Int.floor_eq_iff]
    constructor <;> linarith
  unfold roundHalfEven
  rw [hf, if_neg (by linarith), if_neg (by linarith), if_pos hn]

theorem roundHalfEven_tie_below (x : ℚ) (n : ℤ) (hx : x = n - 1 / 2) (hn : n % 2 = 0) :
    roundHalfEven x = n := by
  have hf : ⌊x⌋ = n - 1 := by
    rw [Int.floor_eq_iff]
    push_cast
    constructor <;> linarith
  have hodd : ¬ (n - 1) % 2 = 0 := by omega
  unfold roundHalfEven
  rw [hf]
  push_cast
  rw [if_neg (by linarith), if_neg (by linarith), if_neg hodd]
  ring

theorem log_two_eq (x : ℚ) (e : ℤ) (hlo : 2 ^ e ≤ |x|) (hhi : |x| < 2 ^ (e + 1)) :
    Int.log 2 |x| = e := by
  have hpos : 0 < |x| := lt_of_lt_of_le (by positivity) hlo
  apply le_antisymm
  · have h := (Int.lt_zpow_iff_log_lt (R := ℚ) (b := 2) (by norm_num) hpos (x := e + 1)).mp
      (by exact_mod_cast hhi)
    omega
  · exact (Int.zpow_le_iff_le_log (R := ℚ) (b := 2) (by norm_num) hpos (x := e)).mp
      (by exact_mod_cast hlo)

/-- Evaluation of `binary64` at a value of known binary exponent in the normal range. -/
theorem binary64_eval (x : ℚ) (e n : ℤ) (he : -1022 ≤ e) (hlo : 2 ^ e ≤ |x|)
    (hhi : |x| < 2 ^ (e + 1)) (hn : roundHalfEven (x / 2 ^ (e - 52)) = n) :
    binary64 x = n * 2 ^ (e - 52) := by
  have hs : spacingExponent x = e - 52 := by
    unfold spacingExponent
    rw [log_two_eq x e hlo hhi]
    exact max_eq_left (by omega)
  unfold binary64
  rw [hs, hn]

theorem binary64_zero : binary64 0 = 0 := by
  simp [binary64, roundHalfEven]

/-- An integer below `2^53` in absolute value is a binary64 value. -/
theorem binary64_intCast (z : ℤ) (h : |z| < 2 ^ 53) : binary64 (z : ℚ) = z := by
  by_cases hz : z = 0
  · subst hz
    simpa using binary64_zero
  have hpos : (0 : ℚ) < |(z : ℚ)| := abs_pos.mpr (by exact_mod_cast hz)
  have h1 : (1 : ℚ) ≤ |(z : ℚ)| := by
    have : (1 : ℤ) ≤ |z| := Int.one_le_abs hz
    exact_mod_cast this
  have hlog0 : 0 ≤ Int.log 2 |(z : ℚ)| :=
    (Int.zpow_le_iff_le_log (R := ℚ) (b := 2) (by norm_num) hpos (x := 0)).mp (by simpa using h1)
  have hlog53 : Int.log 2 |(z : ℚ)| < 53 :=
    (Int.lt_zpow_iff_log_lt (R := ℚ) (b := 2) (by norm_num) hpos (x := 53)).mp
      (by
        have h2 : ((|z| : ℤ) : ℚ) < 2 ^ (53 : ℕ) := by exact_mod_cast h
        rw [Int.cast_abs] at h2
        rw [show ((53 : ℤ)) = ((53 : ℕ) : ℤ) from rfl, zpow_natCast]
        exact_mod_cast h2)
  obtain ⟨k, hk⟩ : ∃ k : ℕ, (k : ℤ) = 52 - Int.log 2 |(z : ℚ)| :=
    ⟨(52 - Int.log 2 |(z : ℚ)|).toNat, Int.toNat_of_nonneg (by omega)⟩
  have hs : spacingExponent (z : ℚ) = -(k : ℤ) := by
    unfold spacingExponent
    rw [max_eq_left (by omega)]
    omega
  have hdiv : (z : ℚ) / 2 ^ (-(k : ℤ)) = ((z * 2 ^ k : ℤ) : ℚ) := by
    rw [zpow_neg, zpow_natCast]
    push_cast
    field_simp
  unfold binary64
  rw [hs, hdiv, roundHalfEven_intCast, zpow_neg, zpow_natCast]
  push_cast
  field_simp

theorem binary64_natCast (n : ℕ) (h : n < 2 ^ 53) : binary64 (n : ℚ) = n := by
  have := binary64_intCast (n : ℤ) (by
    rw [abs_of_nonneg (by positivity)]
    exact_mod_cast h)
  simpa using this

/-- Every value of `binary64` is a multiple of `2^-1074`. -/
theorem binary64_grid (x : ℚ) : ∃ k : ℤ, binary64 x = k * 2 ^ (-1074 : ℤ) := by
  have hu : -1074 ≤ spacingExponent x := le_max_right _ _
  obtain ⟨j, hj⟩ : ∃ j : ℕ, (j : ℤ) = spacingExponent x + 1074 :=
    ⟨(spacingExponent x + 1074).toNat, Int.toNat_of_nonneg (by omega)⟩
  refine ⟨roundHalfEven (x / 2 ^ spacingExponent x) * 2 ^ j, ?_⟩
  have hsplit : (2 : ℚ) ^ spacingExponent x = 2 ^ (j : ℤ) * 2 ^ (-1074 : ℤ) := by
    rw [← zpow_add₀ (by norm_num : (2 : ℚ) ≠ 0)]
    congr 1
    omega
  unfold binary64
  rw [hsplit, zpow_natCast]
  push_cast
  ring

/-- The sign of a rounded difference of binary64 values is the sign of the difference:
the spacing `2^-1074` of the smallest values keeps a non-zero difference from rounding
to zero. -/
theorem binary64_nonpos_iff (d : ℚ) (hd : ∃ k : ℤ, d = k * 2 ^ (-1074 : ℤ)) :
    binary64 d ≤ 0 ↔ d ≤ 0 := by
  have hpow : ∀ u : ℤ, (0 : ℚ) < 2 ^ u := fun u => by positivity
  constructor
  · intro h
    by_contra hpos
    push_neg at hpos
    obtain ⟨k, hk⟩ := hd
    have hk1 : (1 : ℤ) ≤ k := by
      by_contra hc
      have hk0 : (k : ℚ) ≤ 0 := by exact_mod_cast (by omega : k ≤ 0)
      have : d ≤ 0 := by
        rw [hk]
        exact mul_nonpos_of_nonpos_of_nonneg hk0 (le_of_lt (hpow _))
      linarith
    have hmin : (2 : ℚ) ^ (-1074 : ℤ) ≤ d := by
      rw [hk]
      have : (1 : ℚ) ≤ k := by exact_mod_cast hk1
      nlinarith [hpow (-1074)]
    have hlog : (2 : ℚ) ^ (Int.log 2 |d| - 52) ≤ d := by
      have h1 : (2 : ℚ) ^ (Int.log 2 |d| - 52) ≤ 2 ^ Int.log 2 |d| :=
        zpow_le_zpow_right₀ (by norm_num) (by omega)
      have h2 : ((2 : ℕ) : ℚ) ^ Int.log 2 |d| ≤ |d| :=
        Int.zpow_log_le_self (by norm_num) (abs_pos.mpr (ne_of_gt hpos))
      have h3 : (2 : ℚ) ^ Int.log 2 |d| ≤ |d| := by exact_mod_cast h2
      exact le_trans h1 (le_trans h3 (le_of_eq (abs_of_pos hpos)))
    have hsp : (2 : ℚ) ^ spacingExponent d ≤ d := by
      unfold spacingExponent
      rcases max_cases (Int.log 2 |d| - 52) (-1074) with ⟨hm, _⟩ | ⟨hm, _⟩
      · rw [hm]; exact hlog
      · rw [hm]; exact hmin
    have hq : 1 ≤ d / 2 ^ spacingExponent d := by
      rw [le_div_iff₀ (hpow _)]
      simpa using hsp
    have hr := roundHalfEven_pos _ hq
    have : 0 < binary64 d := by
      unfold binary64
      have : (1 : ℚ) ≤ roundHalfEven (d / 2 ^ spacingExponent d) := by exact_mod_cast hr
      have := hpow (spacingExponent d)
      positivity
    linarith
  · intro h
    have hq : d / 2 ^ spacingExponent d ≤ 0 := div_nonpos_of_nonpos_of_nonneg h (le_of_lt (hpow _))
    have hr := roundHalfEven_nonpos _ hq
    unfold binary64
    have : (roundHalfEven (d / 2 ^ spacingExponent d) : ℚ) ≤ 0 := by exact_mod_cast hr
    exact mul_nonpos_of_nonpos_of_nonneg this (le_of_lt (hpow _))

theorem binary64_sub_nonpos_iff (x y : ℚ) :
    binary64 (binary64 x - binary64 y) ≤ 0 ↔ binary64 x ≤ binary64 y := by
  obtain ⟨k, hk⟩ := binary64_grid x
  obtain ⟨j, hj⟩ := binary64_grid y
  rw [binary64_nonpos_iff _ ⟨k - j, by rw [hk, hj]; push_cast; ring⟩]
  exact sub_nonpos

theorem parseGroup_of_value (g : Option (List Char)) (n : ℕ)
    (hv : (g.map digitsValue).getD 0 = n) (hn : n < 2 ^ 53) : parseGroup g = n := by
  cases g with
  | none =>
    have h0 : n = 0 := by simpa using hv.symm
    simp [parseGroup, h0]
  | some ds =>
    have h1 : digitsValue ds = n := by simpa using hv
    simp only [parseGroup, h1]
    exact binary64_natCast n hn

/-- Below `2^53` the sum `hours * 60 + minutes` is exact in doubles. -/
theorem minutes_exact (h m : ℕ) (hb : h * 60 + m < 2 ^ 53) :
    binary64 (binary64 ((h : ℚ) * 60) + m) = ((h * 60 + m : ℕ) : ℚ) := by
  have h1 : binary64 ((h : ℚ) * 60) = ((h * 60 : ℕ) : ℚ) := by
    have h2 := binary64_natCast (h * 60) (by omega)
    push_cast at h2 ⊢
    exact h2
  have h3 := binary64_natCast (h * 60 + m) hb
  rw [h1]
  push_cast at h3 ⊢
  exact h3

/-! ## Folds that raise on a bad element -/

theorem foldlM_all {α β : Type} (p : α → Bool) (step : β → α → β)
    (f : β → α → Except String β)
    (hok : ∀ b a, p a = true → f b a = .ok (step b a))
    (herr : ∀ b a, p a = false → f b a = .error typeError) :
    ∀ (l : List α) (b : β),
      l.foldlM f b = if l.all p then .ok (l.foldl step b) else .error typeError := by
  intro l
  induction l with
  | nil => intro b; simp [pure, Except.pure]
  | cons a rest ih =>
    intro b
    cases hp : p a with
    | true => simp [List.foldlM_cons, hok b a hp, bind, Except.bind, ih, hp]
    | false => simp [List.foldlM_cons, herr b a hp, bind, Except.bind, hp]

theorem mapM_all {α β : Type} (p : α → Bool) (g : α → β) (f : α → Except String β)
    (hok : ∀ a, p a = true → f a = .ok (g a))
    (herr : ∀ a, p a = false → f a = .error typeError) :
    ∀ (l : List α),
      l.mapM f = if l.all p then .ok (l.map g) else .error typeError := by
  intro l
  induction l with
  | nil => rw [List.mapM_nil]; rfl
  | cons a rest ih =>
    rw [List.mapM_cons, ih]
    cases hp : p a with
    | true =>
      rw [hok a hp]
      by_cases hr : rest.all p
      · simp [hp, hr, bind, Except.bind, pure, Except.pure]
      · simp [hp, hr, bind, Except.bind]
    | false =>
      rw [herr a hp]
      simp [hp, bind, Except.bind]

theorem foldl_add_sum {α : Type} (g : α → ℚ) (l : List α) (b : ℚ) :
    l.foldl (fun acc a => acc + g a) b = b + (l.map g).sum := by
  induction l generalizing b with
  | nil => simp
  | cons a rest ih => simp [ih, add_assoc]

theorem sum_map_nonpos {α : Type} (g : α → ℚ) (l : List α) (h : ∀ a ∈ l, g a ≤ 0) :
    (l.map g).sum ≤ 0 := by
  induction l with
  | nil => simp
  | cons a rest ih =>
    have h1 : g a ≤ 0 := h a (List.mem_cons_self a rest)
    have h2 : (rest.map g).sum ≤ 0 := ih (fun x hx => h x (List.mem_cons_of_mem a hx))
    simp only [List.map_cons, List.sum_cons]
    linarith

theorem numOr_zero (x : Option ℚ) : numOr x 0 = x.getD 0 := by
  cases x with
  | none => rfl
  | some q => by_cases h : q = 0 <;> simp [numOr, h]

/-! ## The normaliser raises exactly on a null -/

theorem segmentStops_eq (segments : List (Option RawSegment)) :
    segmentStops segments =
      if segments.all Option.isSome then .ok ((segments.map technicalStops).sum)
      else .error typeError := by
  unfold segmentStops
  rw [foldlM_all Option.isSome (fun acc s => acc + technicalStops s)]
  · simp [foldl_add_sum]
  · intro b a ha
    cases a with
    | none => simp at ha
    | some s => simp [technicalStops, numOr_zero]
  · intro b a ha
    cases a with
    | none => rfl
    | some s => simp at ha

theorem countStops_eq (itineraries : List (Option RawItinerary)) :
    countStops itineraries =
      if itineraries.all itineraryOk then .ok ((itineraries.map itineraryStopCount).sum)
      else .error typeError := by
  unfold countStops
  rw [foldlM_all itineraryOk (fun acc it => acc + itineraryStopCount it)]
  · simp [foldl_add_sum]
  · intro b a ha
    cases a with
    | none => simp [itineraryOk] at ha
    | some it =>
      simp only [itineraryOk] at ha
      simp [segmentStops_eq, ha, itineraryStopCount, segmentsOf]
  · intro b a ha
    cases a with
    | none => rfl
    | some it =>
      simp only [itineraryOk] at ha
      simp [segmentStops_eq, ha]

theorem addAirline_fold (segments : List (Option RawSegment))
    (st : List String × List Airline) :
    segments.foldlM addAirline st =
      if segments.all Option.isSome then .ok (segments.foldl pushAirline st)
      else .error typeError := by
  apply foldlM_all Option.isSome pushAirline addAirline
  · intro b a ha
    cases a with
    | none => simp at ha
    | some s =>
      simp only [addAirline, pushAirline, Option.bind]
      cases s.carrierCode with
      | none => rfl
      | some code => by_cases h : code ≠ "" ∧ code ∉ b.1 <;> simp [h]
  · intro b a ha
    cases a with
    | none => rfl
    | some s => simp at ha

theorem collectAirlines_eq (itineraries : List (Option RawItinerary)) :
    collectAirlines itineraries =
      if itineraries.all itineraryOk then .ok (offerAirlines itineraries)
      else .error typeError := by
  unfold collectAirlines offerAirlines
  apply foldlM_all itineraryOk
  · intro b a ha
    cases a with
    | none => simp [itineraryOk] at ha
    | some it =>
      simp only [itineraryOk] at ha
      cases hs : it.segments with
      | none => simp [segmentsOf, hs]
      | some segs =>
        rw [hs] at ha
        simp only [Option.getD_some] at ha
        simp [segmentsOf, hs, addAirline_fold, ha]
  · intro b a ha
    cases a with
    | none => rfl
    | some it =>
      simp only [itineraryOk] at ha
      cases hs : it.segments with
      | none => simp [hs] at ha
      | some segs =>
        rw [hs] at ha
        simp only [Option.getD_some] at ha
        simp only [hs, addAirline_fold, ha]
        simp

theorem providerEmissions_eq (segments : List (Option RawFareDetails)) :
    providerEmissions segments =
      if segments.all Option.isSome then .ok ((segments.map reportedWeight).sum)
      else .error typeError := by
  unfold providerEmissions
  rw [foldlM_all Option.isSome (fun acc s => acc + reportedWeight s)]
  · simp [foldl_add_sum]
  · intro b a ha
    cases a with
    | none => simp at ha
    | some s =>
      cases hc : s.co2Emissions with
      | none => simp [reportedWeight, hc, numOr]
      | some co2 => simp [reportedWeight, hc]
  · intro b a ha
    cases a with
    | none => rfl
    | some s => simp at ha

theorem estimateEmissions_empty_cabin (distance : Num) (stops : ℚ) :
    estimateEmissions distance (some "") stops =
      estimateEmissions distance (some "ECONOMY") stops := by
  have h1 : objectGet emissionFactors "" = .undefined := by
    simp [objectGet, emissionFactors, List.lookup, objectPrototypeKeys]
  have h2 : (objectGet emissionFactors "ECONOMY").truthyNum = true := by
    simp [objectGet, emissionFactors, List.lookup, Lookup.truthyNum]
    norm_num
  simp [estimateEmissions, propertyKey, h1, h2, Lookup.truthyNum]

theorem estimateEmissions_strOr (distance : Num) (cabin : Option String) (stops : ℚ) :
    estimateEmissions distance (some (strOr cabin "ECONOMY")) stops =
      estimateEmissions distance (some (cabin.getD "ECONOMY")) stops := by
  cases cabin with
  | none => rfl
  | some c =>
    by_cases h : c = ""
    · subst h
      simp [strOr, estimateEmissions_empty_cabin]
    · simp [strOr, h]

theorem resolveEmissions_eq (origin destination : String) (offer : RawOffer) :
    resolveEmissions origin destination (offer.travelerPricings.getD [])
        (offer.itineraries.getD []).length (offerStops offer) =
      if ((firstFareDetails (offer.travelerPricings.getD [])).getD []).all Option.isSome
      then .ok (offerEmissions origin destination offer)
      else .error typeError := by
  unfold resolveEmissions offerEmissions providerTotal estimatedWeight offerCabin
  cases hf : firstFareDetails (offer.travelerPricings.getD []) with
  | none => simp [estimateEmissions_strOr]
  | some fds =>
    by_cases hall : fds.all Option.isSome
    · by_cases hpos : 0 < (fds.map reportedWeight).sum
      · have hne : ¬ (fds.map reportedWeight).sum = 0 := ne_of_gt hpos
        simp [providerEmissions_eq, hall, hpos, hne]
      · simp [providerEmissions_eq, hall, hpos, estimateEmissions_strOr]
    · simp [providerEmissions_eq, hall]

theorem mapSegment_fold (segments : List (Option RawSegment)) :
    segments.mapM mapSegment =
      if segments.all Option.isSome then .ok (segments.map normalSegment)
      else .error typeError := by
  apply mapM_all Option.isSome normalSegment mapSegment
  · intro a ha
    cases a with
    | none => simp at ha
    | some s => simp [mapSegment, normalSegment, technicalStops, numOr_zero]
  · intro a ha
    cases a with
    | none => rfl
    | some s => simp at ha

theorem mapItinerary_fold (itineraries : List (Option RawItinerary)) :
    itineraries.mapM mapItinerary =
      if itineraries.all itineraryOk then .ok (itineraries.map normalItinerary)
      else .error typeError := by
  apply mapM_all itineraryOk normalItinerary mapItinerary
  · intro a ha
    cases a with
    | none => simp [itineraryOk] at ha
    | some it =>
      simp only [itineraryOk] at ha
      cases hs : it.segments with
      | none => simp [mapItinerary, normalItinerary, hs]
      | some segs =>
        rw [hs] at ha
        simp only [Option.getD_some] at ha
        simp only [mapItinerary, hs, mapSegment_fold, ha]
        simp [normalItinerary, hs]
  · intro a ha
    cases a with
    | none => rfl
    | some it =>
      simp only [itineraryOk] at ha
      cases hs : it.segments with
      | none => simp [hs] at ha
      | some segs =>
        rw [hs] at ha
        simp only [Option.getD_some] at ha
        simp only [mapItinerary, hs, mapSegment_fold, ha]
        simp

/-- The `try` block builds `normalFlight` on a well-formed offer and raises on any other. -/
theorem processOffer_eq (offer : RawOffer) (origin destination : String)
    (departureDate : ℤ) :
    processOffer (some offer) origin destination departureDate =
      if offer.wellFormed then .ok (normalFlight offer origin destination departureDate)
      else .error typeError := by
  have hstops : offerStops offer = ((offer.itineraries.getD []).map itineraryStopCount).sum :=
    rfl
  unfold processOffer
  simp only [countStops_eq, collectAirlines_eq, mapItinerary_fold, bind, Except.bind]
  by_cases h1 : (offer.itineraries.getD []).all itineraryOk
  · simp only [h1, if_true, ← hstops, resolveEmissions_eq]
    by_cases h2 : ((firstFareDetails (offer.travelerPricings.getD [])).getD []).all Option.isSome
    · simp only [h2, if_true, RawOffer.wellFormed, h1, Bool.and_self, pure, Except.pure]
      cases hp : offer.price <;> simp [normalFlight, hp]
    · simp [h2, RawOffer.wellFormed]
  · simp [h1, RawOffer.wellFormed]

theorem processOffer_null (origin destination : String) (departureDate : ℤ) :
    processOffer none origin destination departureDate = .error typeError := rfl

theorem processFlightOffers_fold (origin destination : String) (departureDate : ℤ)
    (offers : List (Option RawOffer)) (acc : List Flight) :
    offers.foldl (fun processedFlights offer =>
        match processOffer offer origin destination departureDate with
        | .ok flightData => processedFlights ++ [flightData]
        | .error _ => processedFlights) acc =
      acc ++ (offers.map (contribution origin destination departureDate)).flatten := by
  induction offers generalizing acc with
  | nil => simp
  | cons o rest ih =>
    rw [List.foldl_cons, ih]
    cases o with
    | none => simp [processOffer_null, contribution]
    | some offer =>
      by_cases h : offer.wellFormed <;> simp [processOffer_eq, contribution, h]

theorem processFlightOffers_eq (origin destination : String) (departureDate : ℤ)
    (offers : List (Option RawOffer)) :
    processFlightOffers offers origin destination departureDate =
      (offers.map (contribution origin destination departureDate)).flatten := by
  unfold processFlightOffers
  rw [processFlightOffers_fold]
  simp

theorem processFlightOffers_single (origin destination : String) (departureDate : ℤ)
    (offer : RawOffer) :
    processFlightOffers [some offer] origin destination departureDate =
      if offer.wellFormed then [normalFlight offer origin destination departureDate]
      else [] := by
  simp [processFlightOffers_eq, contribution]

/-! ## Emissions estimate -/

theorem objectGet_emissionFactors (key : String) (h : key ∉ objectPrototypeKeys) :
    objectGet emissionFactors key =
      if key = "ECONOMY" then .value 0.09
      else if key = "PREMIUM_ECONOMY" then .value 0.13
      else if key = "BUSINESS" then .value 0.20
      else if key = "FIRST" then .value 0.27
      else .undefined := by
  by_cases h1 : key = "ECONOMY"
  · subst h1; simp [objectGet, emissionFactors, List.lookup]
  by_cases h2 : key = "PREMIUM_ECONOMY"
  · subst h2; simp [objectGet, emissionFactors, List.lookup]
  by_cases h3 : key = "BUSINESS"
  · subst h3; simp [objectGet, emissionFactors, List.lookup]
  by_cases h4 : key = "FIRST"
  · subst h4; simp [objectGet, emissionFactors, List.lookup]
  have e1 : (key == "ECONOMY") = false := by simpa using h1
  have e2 : (key == "PREMIUM_ECONOMY") = false := by simpa using h2
  have e3 : (key == "BUSINESS") = false := by simpa using h3
  have e4 : (key == "FIRST") = false := by simpa using h4
  simp [objectGet, emissionFactors, List.lookup, e1, e2, e3, e4, h1, h2, h3, h4, h]

theorem estimateEmissions_of_factor (distance stops f : ℚ) (cabin : Option String)
    (hf : f ≠ 0) (hget : objectGet emissionFactors (propertyKey cabin) = .value f) :
    estimateEmissions (.val distance) cabin stops =
      .val (⌊distance * f * (1 + 0.20 * stops) + 1 / 2⌋ : ℤ) := by
  simp only [estimateEmissions, hget, Lookup.truthyNum, Lookup.toNum, Num.mul, Math.round]
  simp only [hf, ne_eq, not_false_eq_true, decide_True, if_true]
  congr 3
  ring

theorem estimateEmissions_of_undefined (distance stops : ℚ) (cabin : Option String)
    (hget : objectGet emissionFactors (propertyKey cabin) = .undefined) :
    estimateEmissions (.val distance) cabin stops =
      .val (⌊distance * 0.09 * (1 + 0.20 * stops) + 1 / 2⌋ : ℤ) := by
  have hE : objectGet emissionFactors "ECONOMY" = .value 0.09 := by
    simp [objectGet, emissionFactors, List.lookup]
  simp only [estimateEmissions, hget, hE, Lookup.truthyNum, Lookup.toNum, Num.mul, Math.round]
  simp only [Bool.false_eq_true, if_false]
  congr 3
  ring

/-- For a cabin that is not the name of a property inherited from `Object.prototype` the
estimate is `distance * factor * (1 + 0.20 * stops)` rounded to the nearest integer. -/
theorem estimateEmissions_formula (distance : ℚ) (cabin : Option String) (stops : ℚ)
    (h : propertyKey cabin ∉ objectPrototypeKeys) :
    estimateEmissions (.val distance) cabin stops =
      .val (⌊distance * cabinFactor cabin * (1 + 0.20 * stops) + 1 / 2⌋ : ℤ) := by
  have hget := objectGet_emissionFactors (propertyKey cabin) h
  cases cabin with
  | none =>
    have h0 : objectGet emissionFactors (propertyKey none) = .undefined := by
      rw [hget]; simp [propertyKey]
    rw [estimateEmissions_of_undefined _ _ _ h0]
    simp [cabinFactor]
  | some c =>
    simp only [propertyKey] at hget
    by_cases h1 : c = "ECONOMY"
    · rw [estimateEmissions_of_factor _ _ 0.09 _ (by norm_num) (by show objectGet emissionFactors c = _; rw [hget]; simp [h1])]
      simp [cabinFactor, h1]
    by_cases h2 : c = "PREMIUM_ECONOMY"
    · rw [estimateEmissions_of_factor _ _ 0.13 _ (by norm_num) (by show objectGet emissionFactors c = _; rw [hget]; simp [h2])]
      simp [cabinFactor, h2]
    by_cases h3 : c = "BUSINESS"
    · rw [estimateEmissions_of_factor _ _ 0.20 _ (by norm_num) (by show objectGet emissionFactors c = _; rw [hget]; simp [h3])]
      simp [cabinFactor, h3]
    by_cases h4 : c = "FIRST"
    · rw [estimateEmissions_of_factor _ _ 0.27 _ (by norm_num) (by show objectGet emissionFactors c = _; rw [hget]; simp [h4])]
      simp [cabinFactor, h4]
    rw [estimateEmissions_of_undefined _ _ _ (by show objectGet emissionFactors c = _; rw [hget]; simp [h1, h2, h3, h4])]
    simp [cabinFactor, h1, h2, h3, h4]

/-! ## Stops and emissions of the normalised flight -/

/-- C1: for every raw offer, the flight `processFlightOffers` builds from it has `stops`
equal to the sum over the itineraries of `max(0, segments - 1)` plus the `numberOfStops`
of the segments (a missing one counting 0); one flight is built whenever the offer holds
no `null` itinerary, segment or fare detail. -/
theorem processFlightOffers_stops (offer : RawOffer) (origin destination : String)
    (departureDate : ℤ) :
    (offer.wellFormed = true →
      ∃ f, processFlightOffers [some offer] origin destination departureDate = [f]) ∧
    (∀ f ∈ processFlightOffers [some offer] origin destination departureDate,
      f.stops = ((offer.itineraries.getD []).map (fun itinerary =>
        max 0 (((segmentsOf itinerary).length : ℚ) - 1) +
          ((segmentsOf itinerary).map (fun segment =>
            (segment.bind (fun s => s.numberOfStops)).getD 0)).sum)).sum) := by
  rw [processFlightOffers_single]
  constructor
  · intro h
    exact ⟨normalFlight offer origin destination departureDate, by rw [if_pos h]⟩
  · intro f hf
    by_cases h : offer.wellFormed
    · simp only [h, if_true, List.mem_singleton] at hf
      subst hf
      rfl
    · simp [h] at hf

/-- C1, the scenario of the claim: one itinerary of two segments whose second segment has
one technical stop gives `stops = 2`. -/
theorem processFlightOffers_stops_witness :
    (processFlightOffers [some scenarioB] "JFK" "BOS" 0).map (fun f => f.stops) = [2] := by
  obtain ⟨f, hf⟩ := (processFlightOffers_stops scenarioB "JFK" "BOS" 0).1 (by decide)
  have hs := (processFlightOffers_stops scenarioB "JFK" "BOS" 0).2 f (by simp [hf])
  rw [hf, List.map_cons, List.map_nil, hs]
  norm_num [scenarioB, offerOf, segmentsOf, plainSegment, technicalStopSegment]

/-- C2, the failing input: a cabin named like a property every object inherits is found
in `emissionFactors`, the factor is a function and the estimate is `NaN`, where the
ECONOMY factor gives 135. -/
theorem estimateEmissions_inherited_cabin :
    estimateEmissions (.val 1500) (some "constructor") 0 = .NaN ∧
      estimateEmissions (.val 1500) (some "ECONOMY") 0 = .val 135 := by
  constructor
  · simp [estimateEmissions, propertyKey, objectGet, emissionFactors, List.lookup,
      objectPrototypeKeys, Lookup.truthyNum, Lookup.toNum, Num.mul, Math.round]
  · rw [estimateEmissions_formula _ _ _ (by decide)]
    norm_num [cabinFactor]

/-- The two values quoted for the estimate: 135 without a stop and 189 with two. -/
theorem estimateEmissions_examples :
    estimateEmissions (.val 1500) (some "ECONOMY") 0 = .val 135 ∧
      estimateEmissions (.val 1500) (some "ECONOMY") 2 = .val 189 := by
  constructor
  · rw [estimateEmissions_formula _ _ _ (by decide)]
    norm_num [cabinFactor]
  · rw [estimateEmissions_formula _ _ _ (by decide)]
    norm_num [cabinFactor]

/-- C3: when no fare detail of the first traveler reports a positive weight, the flight's
emissions weight is the number of itineraries times the estimate for the distance of the
route, the first traveler's first cabin (ECONOMY when absent) and the total stops. -/
theorem processFlightOffers_estimated_weight (offer : RawOffer) (origin destination : String)
    (departureDate : ℤ)
    (hnone : ∀ fd ∈ (firstFareDetails (offer.travelerPricings.getD [])).getD [],
      reportedWeight fd ≤ 0) :
    (offer.wellFormed = true →
      ∃ f, processFlightOffers [some offer] origin destination departureDate = [f]) ∧
    (∀ f ∈ processFlightOffers [some offer] origin destination departureDate,
      f.carbonEmissions.weight =
        (estimateEmissions (estimateFlightDistance origin destination).toNum
          (some ((firstCabin (offer.travelerPricings.getD [])).getD "ECONOMY"))
          (offerStops offer)).mul (.val ((offer.itineraries.getD []).length : ℚ))) := by
  rw [processFlightOffers_single]
  constructor
  · intro h
    exact ⟨normalFlight offer origin destination departureDate, by rw [if_pos h]⟩
  · intro f hf
    by_cases h : offer.wellFormed
    · simp only [h, if_true, List.mem_singleton] at hf
      subst hf
      have hle : providerTotal offer ≤ 0 := by
        unfold providerTotal
        exact sum_map_nonpos _ _ hnone
      simp [normalFlight, offerEmissions, not_lt.mpr hle, estimatedWeight, offerCabin]
    · simp [h] at hf

/-- C3, the scenario of the claim: a round trip of two one-segment itineraries in ECONOMY
on a route with the 1500 km fallback weighs 2 * 135 = 270. -/
theorem processFlightOffers_estimated_weight_witness :
    (processFlightOffers [some scenarioC] "JFK" "BOS" 0).map
      (fun f => f.carbonEmissions.weight) = [.val 270] := by
  have hnone : ∀ fd ∈ (firstFareDetails (scenarioC.travelerPricings.getD [])).getD [],
      reportedWeight fd ≤ 0 := by
    simp [scenarioC, offerOf, firstFareDetails, reportedWeight, economyFare, numOr]
  obtain ⟨f, hf⟩ :=
    (processFlightOffers_estimated_weight scenarioC "JFK" "BOS" 0 hnone).1 (by decide)
  have hw := (processFlightOffers_estimated_weight scenarioC "JFK" "BOS" 0 hnone).2 f
    (by simp [hf])
  rw [hf, List.map_cons, List.map_nil, hw]
  have hd : estimateFlightDistance "JFK" "BOS" = .value 1500 := by
    simp [estimateFlightDistance, objectGet, distances, List.lookup, objectPrototypeKeys,
      Lookup.truthyNum]
  have hc : (firstCabin (scenarioC.travelerPricings.getD [])).getD "ECONOMY" = "ECONOMY" := by
    decide
  have hs : offerStops scenarioC = 0 := by
    norm_num [offerStops, itineraryStopCount, scenarioC, offerOf, segmentsOf, technicalStops,
      plainSegment]
  rw [hd, hc, hs, Lookup.toNum, estimateEmissions_formula _ _ _ (by decide)]
  norm_num [cabinFactor, Num.mul, scenarioC, offerOf]

theorem sum_map_pos {α : Type} (f : α → ℚ) (l : List α) (hnonneg : ∀ a ∈ l, 0 ≤ f a)
    (hpos : ∃ a ∈ l, 0 < f a) : 0 < (l.map f).sum := by
  induction l with
  | nil =>
    obtain ⟨a, ha, _⟩ := hpos
    simp at ha
  | cons x xs ih =>
    have hx : 0 ≤ f x := hnonneg x (List.mem_cons_self x xs)
    have hxs : 0 ≤ (xs.map f).sum :=
      List.sum_nonneg (by
        intro y hy
        obtain ⟨a, ha, rfl⟩ := List.mem_map.mp hy
        exact hnonneg a (List.mem_cons_of_mem x ha))
    rw [List.map_cons, List.sum_cons]
    obtain ⟨a, ha, hfa⟩ := hpos
    rcases List.mem_cons.mp ha with rfl | ha
    · linarith
    · have := ih (fun b hb => hnonneg b (List.mem_cons_of_mem x hb)) ⟨a, ha, hfa⟩
      linarith

/-- When the weights the first traveler's fare details report sum to a positive value, the
flight's emissions weight is that sum and the estimator plays no part. -/
theorem provider_weight_of_positive_total (offer : RawOffer) (origin destination : String)
    (departureDate : ℤ) (hpos : 0 < providerTotal offer) :
    (offer.wellFormed = true →
      ∃ f, processFlightOffers [some offer] origin destination departureDate = [f]) ∧
    (∀ f ∈ processFlightOffers [some offer] origin destination departureDate,
      f.carbonEmissions.weight = .val (providerTotal offer)) := by
  rw [processFlightOffers_single]
  constructor
  · intro h
    exact ⟨normalFlight offer origin destination departureDate, by rw [if_pos h]⟩
  · intro f hf
    by_cases h : offer.wellFormed
    · simp only [h, if_true, List.mem_singleton] at hf
      subst hf
      simp only [normalFlight, offerEmissions, hpos, if_true]
    · simp [h] at hf

/-- C4: when at least one fare detail of the first traveler reports a positive CO2 weight
(the first `co2Emissions` entry of each, a missing one counting 0), no reported weight
being negative, the flight's emissions weight is the sum of the reported weights, whatever
the route, the cabin and the stops: the estimator's value is not used. -/
theorem processFlightOffers_provider_weight (offer : RawOffer) (origin destination : String)
    (departureDate : ℤ)
    (hweights : ∀ fd ∈ (firstFareDetails (offer.travelerPricings.getD [])).getD [],
      0 ≤ reportedWeight fd)
    (hpos : ∃ fd ∈ (firstFareDetails (offer.travelerPricings.getD [])).getD [],
      0 < reportedWeight fd) :
    (offer.wellFormed = true →
      ∃ f, processFlightOffers [some offer] origin destination departureDate = [f]) ∧
    (∀ f ∈ processFlightOffers [some offer] origin destination departureDate,
      f.carbonEmissions.weight =
        .val (((firstFareDetails (offer.travelerPricings.getD [])).getD []).map
          reportedWeight).sum) :=
  provider_weight_of_positive_total offer origin destination departureDate
    (sum_map_pos reportedWeight _ hweights hpos)

/-- C4 on an offer whose fare details report 5 and 7: the weight is 12. -/
theorem processFlightOffers_provider_weight_witness :
    (processFlightOffers [some reportedOffer] "JFK" "BOS" 0).map
      (fun f => f.carbonEmissions.weight) = [.val 12] := by
  have hsum : (((firstFareDetails (reportedOffer.travelerPricings.getD [])).getD []).map
      reportedWeight).sum = 12 := by
    norm_num [reportedOffer, offerOf, firstFareDetails, reportedWeight, fareWithWeight, numOr]
  have hweights : ∀ fd ∈ (firstFareDetails (reportedOffer.travelerPricings.getD [])).getD [],
      0 ≤ reportedWeight fd := by
    intro fd hfd
    have hmem : fd = some (fareWithWeight 5) ∨ fd = some (fareWithWeight 7) := by
      simpa [reportedOffer, offerOf, firstFareDetails] using hfd
    rcases hmem with rfl | rfl <;> norm_num [reportedWeight, fareWithWeight, numOr]
  have hpos : ∃ fd ∈ (firstFareDetails (reportedOffer.travelerPricings.getD [])).getD [],
      0 < reportedWeight fd :=
    ⟨some (fareWithWeight 5), by simp [reportedOffer, offerOf, firstFareDetails],
      by norm_num [reportedWeight, fareWithWeight, numOr]⟩
  obtain ⟨f, hf⟩ :=
    (processFlightOffers_provider_weight reportedOffer "JFK" "BOS" 0 hweights hpos).1
      (by decide)
  have hw := (processFlightOffers_provider_weight reportedOffer "JFK" "BOS" 0 hweights hpos).2
    f (by simp [hf])
  rw [hf, List.map_cons, List.map_nil, hw, hsum]

/-! ## Ranking -/

theorem sortedInsert_perm {α : Type} (comparator : α → α → ℚ) (x : α) (l : List α) :
    (sortedInsert comparator x l).Perm (x :: l) := by
  induction l with
  | nil => exact List.Perm.refl _
  | cons y ys ih =>
    unfold sortedInsert
    by_cases h : comparator x y ≤ 0
    · rw [if_pos h]
    · rw [if_neg h]
      exact (List.Perm.cons y ih).trans (List.Perm.swap x y ys)

theorem arraySort_perm {α : Type} (comparator : α → α → ℚ) (l : List α) :
    (arraySort comparator l).Perm l := by
  induction l with
  | nil => exact List.Perm.refl _
  | cons x xs ih =>
    unfold arraySort
    exact (sortedInsert_perm comparator x _).trans (List.Perm.cons x ih)

theorem sortedInsert_descending {α : Type} (key : α → ℚ) (comparator : α → α → ℚ)
    (hcmp : ∀ x y, comparator x y = key y - key x) (x : α) (l : List α)
    (hl : l.Pairwise (fun a b => key b ≤ key a)) :
    (sortedInsert comparator x l).Pairwise (fun a b => key b ≤ key a) := by
  induction l with
  | nil => simp [sortedInsert]
  | cons y ys ih =>
    have hy : ∀ z ∈ ys, key z ≤ key y := (List.pairwise_cons.mp hl).1
    have hys : ys.Pairwise (fun a b => key b ≤ key a) := (List.pairwise_cons.mp hl).2
    unfold sortedInsert
    by_cases h : comparator x y ≤ 0
    · rw [if_pos h]
      have hxy : key y ≤ key x := by
        rw [hcmp] at h
        linarith
      refine List.pairwise_cons.mpr ⟨?_, hl⟩
      intro z hz
      rcases List.mem_cons.mp hz with rfl | hz
      · exact hxy
      · exact le_trans (hy z hz) hxy
    · rw [if_neg h]
      have hxy : key x ≤ key y := by
        rw [hcmp] at h
        linarith
      refine List.pairwise_cons.mpr ⟨?_, ih hys⟩
      intro z hz
      have hz2 : z ∈ x :: ys := (sortedInsert_perm comparator x ys).mem_iff.mp hz
      rcases List.mem_cons.mp hz2 with rfl | hz2
      · exact hxy
      · exact hy z hz2

theorem arraySort_descending {α : Type} (key : α → ℚ) (comparator : α → α → ℚ)
    (hcmp : ∀ x y, comparator x y = key y - key x) (l : List α) :
    (arraySort comparator l).Pairwise (fun a b => key b ≤ key a) := by
  induction l with
  | nil => simp [arraySort]
  | cons x xs ih =>
    unfold arraySort
    exact sortedInsert_descending key comparator hcmp x _ ih

theorem compareFlights_eq (a b : Flight) :
    compareFlights a b = compositeScore b - compositeScore a := by
  have hany : ∀ f : Flight,
      (f.airlines.any (fun airline => decide (airline.code ∈ premiumAirlines)) = true) ↔
        ∃ airline ∈ f.airlines, airline.code ∈ premiumAirlines := by
    intro f
    simp [List.any_eq_true]
  unfold compareFlights compositeScore
  by_cases ha0 : a.stops = 0 <;> by_cases hb0 : b.stops = 0 <;>
    by_cases hap : ∃ airline ∈ a.airlines, airline.code ∈ premiumAirlines <;>
    by_cases hbp : ∃ airline ∈ b.airlines, airline.code ∈ premiumAirlines <;>
    simp only [ha0, hb0, hap, hbp, (hany a).mpr, (hany a), (hany b), if_true, if_false] <;>
    ring

/-- C5: the comparator of `prioritizeFlights` returns `score(b) - score(a)` for the
composite score of the specification, and that score reads of the itineraries only the
duration of the first one: the segments of the first itinerary and every later itinerary
leave it unchanged. -/
theorem compareFlights_score_difference :
    (∀ a b : Flight, compareFlights a b = compositeScore b - compositeScore a) ∧
    (∀ (f : Flight) (duration : Option String) (segments others : Option (List Segment))
      (rest later : List Itinerary),
      compositeScore
          { f with itineraries := { duration := duration, segments := segments } :: rest } =
        compositeScore
          { f with itineraries := { duration := duration, segments := others } :: later }) := by
  refine ⟨compareFlights_eq, ?_⟩
  intro f duration segments others rest later
  simp [compositeScore, getDurationMinutes]

/-- C6: `prioritizeFlights` returns a permutation of its input in which the composite
score never increases from an element to a later one. -/
theorem prioritizeFlights_sorted_perm (flights : List Flight) :
    (prioritizeFlights flights).Perm flights ∧
      (prioritizeFlights flights).Pairwise
        (fun earlier later => compositeScore later ≤ compositeScore earlier) :=
  ⟨arraySort_perm compareFlights flights,
    arraySort_descending compositeScore compareFlights compareFlights_eq flights⟩

/-! ## Search handler -/

/-- What the handler does with a request that passes its four checks. -/
theorem searchFlights_of_valid (rt : Runtime) (query : Query)
    (origin destination departureDate : String) (depDate : ℤ)
    (ho : query.origin = some origin) (hd : query.destination = some destination)
    (hdd : query.departureDate = some departureDate)
    (hpresent : origin ≠ "" ∧ destination ≠ "" ∧ departureDate ≠ "")
    (hcodes : utf16Length origin = 3 ∧ utf16Length destination = 3)
    (hdate : dateTime rt departureDate = some depDate)
    (hnotpast : ¬ depDate < startOfToday rt) :
    searchFlights rt query =
      match rt.provider (paramsOf rt query origin destination departureDate) with
      | .error e => ⟨.failure e, [paramsOf rt query origin destination departureDate]⟩
      | .ok data =>
        ⟨.success
            ((prioritizeFlights (processFlightOffers (data.getD []) (rt.toUpperCase origin)
              (rt.toUpperCase destination) depDate)).take 20).length
            (processFlightOffers (data.getD []) (rt.toUpperCase origin)
              (rt.toUpperCase destination) depDate).length
            ((prioritizeFlights (processFlightOffers (data.getD []) (rt.toUpperCase origin)
              (rt.toUpperCase destination) depDate)).take 20),
          [paramsOf rt query origin destination departureDate]⟩ := by
  obtain ⟨h1, h2, h3⟩ := hpresent
  obtain ⟨h4, h5⟩ := hcodes
  simp only [searchFlights, ho, hd, hdd, h1, h2, h3, h4, h5, hdate, hnotpast, paramsOf,
    or_self, if_false, ne_eq, not_true_eq_false]

theorem prioritizeFlights_length (flights : List Flight) :
    (prioritizeFlights flights).length = flights.length :=
  (arraySort_perm compareFlights flights).length_eq

/-- C7: for a request that passes validation and a provider that answers, the flights
returned are the first 20 of the ranked list of normalised flights, `results` is
`min(20, totalFound)` and `totalFound` is the number of normalised flights. -/
theorem searchFlights_top20 (rt : Runtime) (query : Query)
    (origin destination departureDate : String) (depDate : ℤ)
    (data : Option (List (Option RawOffer)))
    (ho : query.origin = some origin) (hd : query.destination = some destination)
    (hdd : query.departureDate = some departureDate)
    (hpresent : origin ≠ "" ∧ destination ≠ "" ∧ departureDate ≠ "")
    (hcodes : utf16Length origin = 3 ∧ utf16Length destination = 3)
    (hdate : dateTime rt departureDate = some depDate)
    (hnotpast : ¬ depDate < startOfToday rt)
    (hprovider : ∀ params, rt.provider params = .ok data) :
    (searchFlights rt query).response =
      .success
        (min 20 (processFlightOffers (data.getD []) (rt.toUpperCase origin)
          (rt.toUpperCase destination) depDate).length)
        (processFlightOffers (data.getD []) (rt.toUpperCase origin)
          (rt.toUpperCase destination) depDate).length
        ((prioritizeFlights (processFlightOffers (data.getD []) (rt.toUpperCase origin)
          (rt.toUpperCase destination) depDate)).take 20) := by
  rw [searchFlights_of_valid rt query origin destination departureDate depDate ho hd hdd
    hpresent hcodes hdate hnotpast, hprovider]
  simp only [List.length_take, prioritizeFlights_length]

theorem sampleRuntime_date :
    dateTime sampleRuntime "2030-01-01" = some (21915 * 86400000) := by
  decide

theorem sampleRuntime_today : startOfToday sampleRuntime = 20254 * 86400000 := by
  decide

/-- C7 on the sample server: a search from JFK to BOS for 2030-01-01 returns the one
normalised flight, `results = 1` and `totalFound = 1`. -/
theorem searchFlights_top20_witness :
    (searchFlights sampleRuntime
        (queryOf (some "JFK") (some "BOS") (some "2030-01-01"))).response =
      .success 1 1
        ((prioritizeFlights (processFlightOffers [some scenarioA] "JFK" "BOS"
          (21915 * 86400000))).take 20) := by
  have h := searchFlights_top20 sampleRuntime
    (queryOf (some "JFK") (some "BOS") (some "2030-01-01")) "JFK" "BOS" "2030-01-01"
    (21915 * 86400000) (some [some scenarioA]) rfl rfl rfl (by decide) (by decide)
    sampleRuntime_date (by rw [sampleRuntime_today]; decide) (fun _ => rfl)
  have hu : sampleRuntime.toUpperCase "JFK" = "JFK" ∧ sampleRuntime.toUpperCase "BOS" = "BOS" := by
    decide
  have hlen : (processFlightOffers [some scenarioA] "JFK" "BOS" (21915 * 86400000)).length
      = 1 := by
    rw [processFlightOffers_single, if_pos (by decide)]
    rfl
  rw [h]
  simp only [Option.getD_some, hu.1, hu.2, hlen]
  rfl

/-- C8, the failing input: the origin `123` has three characters, none of them a letter;
the handler does not reject it, calls the provider with it and answers with a result. -/
theorem searchFlights_digit_origin :
    searchFlights sampleRuntime (queryOf (some "123") (some "LAX") (some "2030-01-01")) =
      ⟨.success 1 1
          ((prioritizeFlights (processFlightOffers [some scenarioA] "123" "LAX"
            (21915 * 86400000))).take 20),
        [{ origin := "123", destination := "LAX", departureDate := "2030-01-01",
           returnDate := none, adults := some 1, travelClass := "ECONOMY", max := 250 }]⟩ := by
  have h := searchFlights_of_valid sampleRuntime
    (queryOf (some "123") (some "LAX") (some "2030-01-01")) "123" "LAX" "2030-01-01"
    (21915 * 86400000) rfl rfl rfl (by decide) (by decide)
    sampleRuntime_date (by rw [sampleRuntime_today]; decide)
  have hu : sampleRuntime.toUpperCase "123" = "123" ∧ sampleRuntime.toUpperCase "LAX" = "LAX" := by
    decide
  have hp : paramsOf sampleRuntime (queryOf (some "123") (some "LAX") (some "2030-01-01"))
      "123" "LAX" "2030-01-01" =
      { origin := "123", destination := "LAX", departureDate := "2030-01-01",
        returnDate := none, adults := some 1, travelClass := "ECONOMY", max := 250 } := by
    decide
  have hlen : (processFlightOffers [some scenarioA] "123" "LAX" (21915 * 86400000)).length
      = 1 := by
    rw [processFlightOffers_single, if_pos (by decide)]
    rfl
  rw [h, hp]
  show Outcome.mk _ _ = _
  simp only [sampleRuntime, Option.getD_some, List.length_take, prioritizeFlights_length]
  rw [show asciiUpper "123" = "123" from hu.1, show asciiUpper "LAX" = "LAX" from hu.2, hlen]
  rfl

/-- C9 as stated fails: a request without origin is answered with the missing-parameter
error, which is not the invalid-airport-code error. -/
theorem searchFlights_missing_origin_counterexample :
    searchFlights sampleRuntime (queryOf none (some "LAX") (some "2030-01-01")) =
        ⟨.badRequest requiredMessage, []⟩ ∧
      searchFlights sampleRuntime (queryOf (some "JFKX") (some "LAX") none) =
        ⟨.badRequest requiredMessage, []⟩ ∧
      requiredMessage ≠ invalidAirportCodeMessage := by
  refine ⟨rfl, rfl, by decide⟩

/-- C9, amended: the handler checks, in this order, that origin, destination and departure
date are present, that both codes have three characters, that the date parses and that it
is not past, each with its own message and before any provider call.  A request with all
three present and a code of another length gets the invalid-airport-code error whatever
the date is; one with two three-character codes and an unparsable date gets the
invalid-date-format error. -/
theorem searchFlights_validation_order (rt : Runtime) (query : Query) :
    (((∀ s, query.origin = some s → s = "") ∨ (∀ s, query.destination = some s → s = "") ∨
        (∀ s, query.departureDate = some s → s = "")) →
      searchFlights rt query = ⟨.badRequest requiredMessage, []⟩) ∧
    (∀ origin destination departureDate : String,
      query.origin = some origin → query.destination = some destination →
      query.departureDate = some departureDate →
      origin ≠ "" → destination ≠ "" → departureDate ≠ "" →
      ((utf16Length origin ≠ 3 ∨ utf16Length destination ≠ 3) →
        searchFlights rt query = ⟨.badRequest invalidAirportCodeMessage, []⟩) ∧
      (utf16Length origin = 3 → utf16Length destination = 3 →
        dateTime rt departureDate = none →
        searchFlights rt query = ⟨.badRequest invalidDateFormatMessage, []⟩) ∧
      (∀ depDate, utf16Length origin = 3 → utf16Length destination = 3 →
        dateTime rt departureDate = some depDate → depDate < startOfToday rt →
        searchFlights rt query = ⟨.badRequest pastDepartureMessage, []⟩)) ∧
    [requiredMessage, invalidAirportCodeMessage, invalidDateFormatMessage,
      pastDepartureMessage].Nodup := by
  refine ⟨?_, ?_, by decide⟩
  · intro h
    unfold searchFlights
    cases ho : query.origin with
    | none => simp
    | some o =>
      cases hd : query.destination with
      | none => simp
      | some d =>
        cases hdd : query.departureDate with
        | none => simp
        | some t =>
          have h2 : o = "" ∨ d = "" ∨ t = "" := by
            rcases h with h | h | h
            · exact Or.inl (h o ho)
            · exact Or.inr (Or.inl (h d hd))
            · exact Or.inr (Or.inr (h t hdd))
          simp only [h2, if_true]
  · intro o d t ho hd hdd h1 h2 h3
    refine ⟨?_, ?_, ?_⟩
    · intro hlen
      simp only [searchFlights, ho, hd, hdd, h1, h2, h3, or_self, if_false, ne_eq, hlen,
        if_true]
    · intro h4 h5 hdate
      simp only [searchFlights, ho, hd, hdd, h1, h2, h3, or_self, if_false, ne_eq, h4, h5,
        not_true_eq_false, hdate]
    · intro depDate h4 h5 hdate hpast
      simp only [searchFlights, ho, hd, hdd, h1, h2, h3, or_self, if_false, ne_eq, h4, h5,
        not_true_eq_false, hdate, hpast, if_true]

/-- C9, amended, on the sample server: a four-letter origin is rejected as an invalid
airport code although the date is unparsable too, and with two three-letter codes the
unparsable date is rejected as an invalid date format. -/
theorem searchFlights_validation_order_witness :
    searchFlights sampleRuntime (queryOf (some "JFKX") (some "LAX") (some "someday")) =
        ⟨.badRequest invalidAirportCodeMessage, []⟩ ∧
      searchFlights sampleRuntime (queryOf (some "JFK") (some "LAX") (some "someday")) =
        ⟨.badRequest invalidDateFormatMessage, []⟩ := by
  constructor
  · exact ((searchFlights_validation_order sampleRuntime
      (queryOf (some "JFKX") (some "LAX") (some "someday"))).2.1 "JFKX" "LAX" "someday"
      rfl rfl rfl (by decide) (by decide) (by decide)).1 (Or.inl (by decide))
  · exact ((searchFlights_validation_order sampleRuntime
      (queryOf (some "JFK") (some "LAX") (some "someday"))).2.1 "JFK" "LAX" "someday"
      rfl rfl rfl (by decide) (by decide) (by decide)).2.1 (by decide) (by decide)
      (by decide)

/-- On a server whose local time is not behind UTC (and less than a day ahead), the
past-date check of a `YYYY-MM-DD` departure is a comparison of calendar days. -/
theorem past_check_east_of_utc (rt : Runtime) (departure : ℤ)
    (h0 : 0 ≤ rt.timezoneOffset) (h1 : rt.timezoneOffset < msPerDay) :
    departure * msPerDay < startOfToday rt ↔
      departure < (rt.now + rt.timezoneOffset) / msPerDay := by
  unfold startOfToday
  unfold msPerDay at *
  generalize (rt.now + rt.timezoneOffset) / 86400000 = today
  constructor <;> intro h <;> omega

/-- C10, the failing input: on a server five hours west of UTC, at 12:00 UTC (07:00 local
time) of 2025-06-15, a departure dated 2025-06-15, which is today both in local time and
in UTC, is rejected as past. -/
theorem searchFlights_today_rejected_west_of_utc :
    searchFlights westRuntime (queryOf (some "JFK") (some "LAX") (some "2025-06-15")) =
        ⟨.badRequest pastDepartureMessage, []⟩ ∧
      calendarDate "2025-06-15" = some (2025, 6, 15) ∧
      (westRuntime.now + westRuntime.timezoneOffset) / msPerDay = dayNumber 2025 6 15 ∧
      westRuntime.now / msPerDay = dayNumber 2025 6 15 := by
  refine ⟨?_, by decide, by decide, by decide⟩
  have hdate : dateTime westRuntime "2025-06-15" = some (20254 * 86400000) := by decide
  have htoday : startOfToday westRuntime = 20254 * 86400000 + 18000000 := by decide
  simp only [searchFlights, queryOf, hdate, htoday]
  decide

/-! ## Batch behaviour of the normaliser -/

theorem contribution_length (origin destination : String) (departureDate : ℤ)
    (offer : Option RawOffer) :
    (contribution origin destination departureDate offer).length ≤ 1 := by
  cases offer with
  | none => simp [contribution]
  | some o => by_cases h : o.wellFormed <;> simp [contribution, h]

theorem flatten_length_le {α β : Type} (g : α → List β) (h : ∀ a, (g a).length ≤ 1)
    (l : List α) : ((l.map g).flatten).length ≤ l.length := by
  induction l with
  | nil => simp
  | cons a rest ih =>
    simp only [List.map_cons, List.flatten_cons, List.length_append, List.length_cons]
    have := h a
    omega

theorem processFlightOffers_one (origin destination : String) (departureDate : ℤ)
    (offer : Option RawOffer) :
    processFlightOffers [offer] origin destination departureDate =
      contribution origin destination departureDate offer := by
  simp [processFlightOffers_eq]

theorem contribution_eq_match (origin destination : String) (departureDate : ℤ)
    (offer : Option RawOffer) :
    contribution origin destination departureDate offer =
      match processOffer offer origin destination departureDate with
      | .ok flightData => [flightData]
      | .error _ => [] := by
  cases offer with
  | none => simp [contribution, processOffer_null]
  | some o => by_cases h : o.wellFormed <;> simp [contribution, processOffer_eq, h]

/-- C15: `processFlightOffers` handles each offer on its own: the result on `xs ++ ys` is
the result on `xs` followed by the result on `ys`; one offer alone gives the flight its
`try` block builds, or nothing when the block raises; a batch gives the results of its
offers alone, in input order; the output is never longer than the input. -/
theorem processFlightOffers_independent (origin destination : String) (departureDate : ℤ) :
    (∀ xs ys : List (Option RawOffer),
      processFlightOffers (xs ++ ys) origin destination departureDate =
        processFlightOffers xs origin destination departureDate ++
          processFlightOffers ys origin destination departureDate) ∧
    (∀ offer : Option RawOffer,
      processFlightOffers [offer] origin destination departureDate =
        match processOffer offer origin destination departureDate with
        | .ok flightData => [flightData]
        | .error _ => []) ∧
    (∀ offers : List (Option RawOffer),
      processFlightOffers offers origin destination departureDate =
        (offers.map (fun offer =>
          processFlightOffers [offer] origin destination departureDate)).flatten) ∧
    (∀ offers : List (Option RawOffer),
      (processFlightOffers offers origin destination departureDate).length ≤ offers.length) := by
  refine ⟨?_, ?_, ?_, ?_⟩
  · intro xs ys
    simp [processFlightOffers_eq]
  · intro offer
    rw [processFlightOffers_one, contribution_eq_match]
  · intro offers
    rw [processFlightOffers_eq]
    congr 1
    apply List.map_congr_left
    intro offer _
    rw [processFlightOffers_one]
  · intro offers
    rw [processFlightOffers_eq]
    exact flatten_length_le _ (contribution_length origin destination departureDate) offers

/-- C14 as stated fails: the offer whose only itinerary has an empty `segments` array is
not dropped; it yields one flight, whose itinerary has an empty list of segments. -/
theorem processFlightOffers_empty_segments_counterexample :
    (emptySegmentsOffer.itineraries.getD []).map (fun it => it.bind (fun i => i.segments)) =
        [some []] ∧
      (processFlightOffers [some emptySegmentsOffer] "JFK" "BOS" 0).length = 1 ∧
      (processFlightOffers [some emptySegmentsOffer] "JFK" "BOS" 0).map
        (fun f => f.itineraries.map (fun it => it.segments)) = [[some []]] := by
  rw [processFlightOffers_single, if_pos (by decide)]
  refine ⟨by decide, rfl, by decide⟩

/-- C14, amended: an offer whose processing raises (a `null` offer, or one holding a `null`
itinerary, segment or first-traveler fare detail) is dropped and leaves no trace in the
output or its length; an offer holding no `null` is kept even when one of its itineraries
has an empty `segments` array, and its flight carries that itinerary with no segments. -/
theorem processFlightOffers_drops_raising_offers (origin destination : String)
    (departureDate : ℤ) (xs ys : List (Option RawOffer)) :
    processFlightOffers (xs ++ none :: ys) origin destination departureDate =
        processFlightOffers (xs ++ ys) origin destination departureDate ∧
    (∀ offer : RawOffer, offer.wellFormed = false →
      processFlightOffers (xs ++ some offer :: ys) origin destination departureDate =
        processFlightOffers (xs ++ ys) origin destination departureDate) ∧
    (∀ (offer : RawOffer) (duration : Option String), offer.wellFormed = true →
      some { duration := duration, segments := some [] } ∈ offer.itineraries.getD [] →
      ∃ f, processFlightOffers (xs ++ some offer :: ys) origin destination departureDate =
          processFlightOffers xs origin destination departureDate ++
            f :: processFlightOffers ys origin destination departureDate ∧
        { duration := duration, segments := some [] } ∈ f.itineraries) := by
  refine ⟨?_, ?_, ?_⟩
  · simp [processFlightOffers_eq, contribution]
  · intro offer h
    simp [processFlightOffers_eq, contribution, h]
  · intro offer duration h hmem
    refine ⟨normalFlight offer origin destination departureDate, ?_, ?_⟩
    · simp [processFlightOffers_eq, contribution, h]
    · simp only [normalFlight, List.mem_map]
      exact ⟨_, hmem, rfl⟩

/-- C14, amended, on a batch of three: the `null` offer disappears and the offer with the
empty `segments` array stays. -/
theorem processFlightOffers_drops_raising_offers_witness :
    (processFlightOffers [some scenarioA, none, some emptySegmentsOffer] "JFK" "BOS" 0).length
      = 2 := by
  have h1 := (processFlightOffers_drops_raising_offers "JFK" "BOS" 0 [some scenarioA]
    [some emptySegmentsOffer]).1
  obtain ⟨f, hf, _⟩ := (processFlightOffers_drops_raising_offers "JFK" "BOS" 0
    [some scenarioA] []).2.2 emptySegmentsOffer (some "PT2H") (by decide) (by decide)
  simp only [List.singleton_append, List.cons_append, List.nil_append] at h1 hf
  rw [h1, hf, processFlightOffers_single, if_pos (by decide)]
  rfl

/-! ## Defaults and the scenario from JFK to LAX -/

theorem parseFloat_hundred : parseFloat (some "100") = some 100 := by
  simp [parseFloat, unsignedDecimal, isWhiteSpace, digitsValue, exponentPart]

/-- C16 as stated fails: the price of `totalOnlyOffer` has a `total` of 100 and no
`grandTotal`, and the flight's `grandTotal` is 100, not 0. -/
theorem processFlightOffers_grandTotal_counterexample :
    totalOnlyOffer.price.bind (fun p => p.grandTotal) = none ∧
      (processFlightOffers [some totalOnlyOffer] "JFK" "BOS" 0).map
        (fun f => f.price.grandTotal) = [100] := by
  refine ⟨rfl, ?_⟩
  rw [processFlightOffers_single, if_pos (by decide)]
  have h : totalOnlyOffer.price.bind (fun p => p.total) = some "100" := rfl
  have hg : totalOnlyOffer.price.bind (fun p => p.grandTotal) = none := rfl
  simp only [List.map_cons, List.map_nil, normalFlight, h, hg, parseFloat_hundred]
  simp [parseFloat, numOr]

/-- C16, amended: in the flight built from an offer, `price.base` is 0 when the offer's
price has no `base`; `price.grandTotal` is the flight's `price.total` when the offer's
price has no `grandTotal`, hence 0 when it has no `total` either; `travelClass` is
ECONOMY when no cabin is given; `numberOfBookableSeats` is 0 when absent. -/
theorem processFlightOffers_defaults (offer : RawOffer) (origin destination : String)
    (departureDate : ℤ) :
    (offer.wellFormed = true →
      ∃ f, processFlightOffers [some offer] origin destination departureDate = [f]) ∧
    (∀ f ∈ processFlightOffers [some offer] origin destination departureDate,
      (offer.price.bind (fun p => p.base) = none → f.price.base = 0) ∧
      (offer.price.bind (fun p => p.grandTotal) = none →
        f.price.grandTotal = f.price.total) ∧
      (offer.price.bind (fun p => p.grandTotal) = none →
        offer.price.bind (fun p => p.total) = none → f.price.grandTotal = 0) ∧
      (firstCabin (offer.travelerPricings.getD []) = none → f.travelClass = "ECONOMY") ∧
      (offer.numberOfBookableSeats = none → f.numberOfBookableSeats = 0)) := by
  rw [processFlightOffers_single]
  constructor
  · intro h
    exact ⟨normalFlight offer origin destination departureDate, by rw [if_pos h]⟩
  · intro f hf
    by_cases h : offer.wellFormed
    · simp only [h, if_true, List.mem_singleton] at hf
      subst hf
      refine ⟨?_, ?_, ?_, ?_, ?_⟩
      · intro hb
        simp [normalFlight, hb, parseFloat, numOr]
      · intro hg
        simp [normalFlight, hg, parseFloat, numOr]
      · intro hg ht
        simp [normalFlight, hg, ht, parseFloat, numOr]
      · intro hc
        simp [normalFlight, hc, strOr]
      · intro hs
        simp [normalFlight, hs, numOr]
    · simp [h] at hf

/-- C16, amended, on scenario A, which has no price, and on `totalOnlyOffer`: without a
price `base` and `grandTotal` are 0, with a `total` of 100 the `grandTotal` is 100. -/
theorem processFlightOffers_defaults_witness :
    (processFlightOffers [some scenarioA] "JFK" "BOS" 0).map
        (fun f => (f.price.base, f.price.grandTotal, f.numberOfBookableSeats)) = [(0, 0, 0)] ∧
      (processFlightOffers [some totalOnlyOffer] "JFK" "BOS" 0).map
        (fun f => f.price.grandTotal - f.price.total) = [0] := by
  obtain ⟨f, hf⟩ := (processFlightOffers_defaults scenarioA "JFK" "BOS" 0).1 (by decide)
  obtain ⟨h1, _, h3, _, h5⟩ := (processFlightOffers_defaults scenarioA "JFK" "BOS" 0).2 f
    (by simp [hf])
  obtain ⟨g, hg⟩ := (processFlightOffers_defaults totalOnlyOffer "JFK" "BOS" 0).1 (by decide)
  obtain ⟨_, h2, _⟩ := (processFlightOffers_defaults totalOnlyOffer "JFK" "BOS" 0).2 g
    (by simp [hg])
  constructor
  · rw [hf, List.map_cons, List.map_nil, h1 rfl, h3 rfl rfl, h5 rfl]
  · rw [hg, List.map_cons, List.map_nil, h2 rfl, sub_self]

theorem estimateFlightDistance_jfk_lax :
    estimateFlightDistance "JFK" "LAX" = .value 3983 := by
  simp [estimateFlightDistance, objectGet, distances, List.lookup, Lookup.truthyNum]

theorem estimateFlightDistance_jfk_bos :
    estimateFlightDistance "JFK" "BOS" = .value 1500 := by
  simp [estimateFlightDistance, objectGet, distances, List.lookup, objectPrototypeKeys,
    Lookup.truthyNum]

theorem jfkLaxOffer_flight (origin destination : String) :
    (processFlightOffers [some jfkLaxOffer] origin destination 0).map
        (fun f => (f.stops, f.carbonEmissions.weight)) =
      [(0, (estimateEmissions (estimateFlightDistance origin destination).toNum
        (some "ECONOMY") 0).mul (.val 1))] := by
  rw [processFlightOffers_single, if_pos (by decide)]
  have hc : offerCabin jfkLaxOffer = "ECONOMY" := by decide
  have hs : offerStops jfkLaxOffer = 0 := by
    norm_num [offerStops, itineraryStopCount, jfkLaxOffer, offerOf, segmentsOf,
      technicalStops, jfkLaxSegment]
  have ht : providerTotal jfkLaxOffer = 0 := by
    norm_num [providerTotal, jfkLaxOffer, offerOf, firstFareDetails, reportedWeight,
      economyFare, numOr]
  simp only [List.map_cons, List.map_nil, normalFlight, offerEmissions, ht, estimatedWeight,
    hc, hs, lt_irrefl, if_false]
  norm_num [jfkLaxOffer, offerOf]

/-- C18 as stated fails: for a search from JFK to LAX the one-segment ECONOMY offer without
emissions data does not weigh 135. -/
theorem processFlightOffers_jfk_lax_counterexample :
    (processFlightOffers [some jfkLaxOffer] "JFK" "LAX" 0).map
      (fun f => f.carbonEmissions.weight) ≠ [.val 135] := by
  have h := congrArg (List.map Prod.snd) (jfkLaxOffer_flight "JFK" "LAX")
  simp only [List.map_map, List.map_cons, List.map_nil] at h
  have h2 : (processFlightOffers [some jfkLaxOffer] "JFK" "LAX" 0).map
      (fun f => f.carbonEmissions.weight) = [.val 358] := by
    rw [show (fun f : Flight => f.carbonEmissions.weight) =
      Prod.snd ∘ (fun f : Flight => (f.stops, f.carbonEmissions.weight)) from rfl, h,
      estimateFlightDistance_jfk_lax, Lookup.toNum,
      estimateEmissions_formula _ _ _ (by decide)]
    norm_num [cabinFactor, Num.mul]
  rw [h2]
  intro hh
  have h3 : (358 : ℚ) = 135 := by
    injection hh with h4 _
    injection h4
  norm_num at h3

/-- C18, amended: for a search from JFK to LAX the offer yields `stops = 0` and the weight
`round(3983 * 0.09 * 1.0) = 358`, JFK to LAX being a tabulated route of 3983 km; on a route
outside the table, such as JFK to BOS, the 1500 km fallback gives 135. -/
theorem processFlightOffers_jfk_lax :
    (processFlightOffers [some jfkLaxOffer] "JFK" "LAX" 0).map
        (fun f => (f.stops, f.carbonEmissions.weight)) = [(0, .val 358)] ∧
      (processFlightOffers [some jfkLaxOffer] "JFK" "BOS" 0).map
        (fun f => (f.stops, f.carbonEmissions.weight)) = [(0, .val 135)] := by
  constructor
  · rw [jfkLaxOffer_flight, estimateFlightDistance_jfk_lax, Lookup.toNum,
      estimateEmissions_formula _ _ _ (by decide)]
    norm_num [cabinFactor, Num.mul]
  · rw [jfkLaxOffer_flight, estimateFlightDistance_jfk_bos, Lookup.toNum,
      estimateEmissions_formula _ _ _ (by decide)]
    norm_num [cabinFactor, Num.mul]

/-! ## Scenario D and the duration pattern -/

theorem getDurationMinutes_flightOf_match (stops : ℚ) (airline : String)
    (grandTotal seats : ℚ) (duration : String) (g : Option (List Char) × Option (List Char))
    (hne : duration ≠ "") (hm : durationMatch duration.toList = some g) :
    getDurationMinutes (flightOf stops airline grandTotal seats (some duration)) =
      binary64 (binary64 (parseGroup g.1 * 60) + parseGroup g.2) := by
  have hm2 : durationMatch duration.data = some g := hm
  simp [getDurationMinutes, flightOf, hne, hm2]

/-- Evaluation of `getDurationMinutes` on a sample flight whose duration matches with the
groups `g`, of values `h` and `m` (0 for a group that did not take part). -/
theorem getDurationMinutes_flightOf (stops : ℚ) (airline : String) (grandTotal seats : ℚ)
    (duration : String) (g : Option (List Char) × Option (List Char)) (h m : ℕ)
    (hne : duration ≠ "") (hm : durationMatch duration.toList = some g)
    (hh : (g.1.map digitsValue).getD 0 = h) (hmm : (g.2.map digitsValue).getD 0 = m)
    (hb : h * 60 + m < 2 ^ 53) :
    getDurationMinutes (flightOf stops airline grandTotal seats (some duration)) =
      ((h * 60 + m : ℕ) : ℚ) := by
  rw [getDurationMinutes_flightOf_match _ _ _ _ duration g hne hm,
    parseGroup_of_value g.1 h hh (by omega), parseGroup_of_value g.2 m hmm (by omega)]
  exact minutes_exact h m hb

theorem compositeScore_flightA : compositeScore flightA = 800 := by
  have hd : getDurationMinutes flightA = 300 := by
    rw [flightA, getDurationMinutes_flightOf _ _ _ _ "PT5H" (some ['5'], none) 5 0 (by decide)
      (by decide) (by decide) (by decide) (by norm_num)]
    norm_num
  have hp : ¬ ∃ airline ∈ flightA.airlines, airline.code ∈ premiumAirlines := by decide
  rw [compositeScore, hd, if_neg hp]
  norm_num [flightA, flightOf]

theorem compositeScore_flightB : compositeScore flightB = 170 := by
  have hd : getDurationMinutes flightB = 200 := by
    rw [flightB, getDurationMinutes_flightOf _ _ _ _ "PT3H20M" (some ['3'], some ['2', '0'])
      3 20 (by decide) (by decide) (by decide) (by decide) (by norm_num)]
    norm_num
  have hp : ∃ airline ∈ flightB.airlines, airline.code ∈ premiumAirlines := by decide
  rw [compositeScore, hd, if_pos hp]
  norm_num [flightB, flightOf]

/-- C19: flight A scores 800 and flight B scores 170, and `prioritizeFlights` returns A
before B whichever comes first in its input. -/
theorem prioritizeFlights_scenarioD :
    compositeScore flightA = 800 ∧ compositeScore flightB = 170 ∧
      prioritizeFlights [flightB, flightA] = [flightA, flightB] ∧
      prioritizeFlights [flightA, flightB] = [flightA, flightB] := by
  have hab : compareFlights flightA flightB = -630 := by
    rw [compareFlights_eq, compositeScore_flightA, compositeScore_flightB]; norm_num
  have hba : compareFlights flightB flightA = 630 := by
    rw [compareFlights_eq, compositeScore_flightA, compositeScore_flightB]; norm_num
  refine ⟨compositeScore_flightA, compositeScore_flightB, ?_, ?_⟩
  · simp only [prioritizeFlights, arraySort, sortedInsert, hba]
    norm_num
  · simp only [prioritizeFlights, arraySort, sortedInsert, hab]
    norm_num

/-- C20, the failing inputs: the pattern is not anchored and both of its groups are
optional, so it matches every string that contains `PT`; the durations `PTxyz` and `PT45S`
count as 0 minutes and `abcPT5H` as 300, none of them as 9999. -/
theorem getDurationMinutes_malformed :
    getDurationMinutes (flightOf 0 "WN" 500 0 (some "PTxyz")) = 0 ∧
      getDurationMinutes (flightOf 0 "WN" 500 0 (some "PT45S")) = 0 ∧
      getDurationMinutes (flightOf 0 "WN" 500 0 (some "abcPT5H")) = 300 := by
  refine ⟨?_, ?_, ?_⟩
  · rw [getDurationMinutes_flightOf _ _ _ _ "PTxyz" (none, none) 0 0 (by decide) (by decide)
      (by decide) (by decide) (by norm_num)]
    norm_num
  · rw [getDurationMinutes_flightOf _ _ _ _ "PT45S" (none, none) 0 0 (by decide) (by decide)
      (by decide) (by decide) (by norm_num)]
    norm_num
  · rw [getDurationMinutes_flightOf _ _ _ _ "abcPT5H" (some ['5'], none) 5 0 (by decide)
      (by decide) (by decide) (by decide) (by norm_num)]
    norm_num

theorem durationMatch_eq_none_iff (cs : List Char) :
    durationMatch cs = none ↔ ¬ ['P', 'T'] <:+: cs := by
  induction cs with
  | nil => simp [durationMatch]
  | cons c rest ih =>
    rw [List.infix_cons_iff, List.cons_prefix_cons]
    by_cases hc : c = 'P' ∧ rest.head? = some 'T'
    · have hpre : ['T'] <+: rest := by
        cases rest with
        | nil => simp at hc
        | cons r rs =>
          have hr : r = 'T' := by simpa using hc.2
          rw [hr, List.cons_prefix_cons]
          exact ⟨rfl, List.nil_prefix⟩
      simp [durationMatch, hc, hpre]
    · have hno : ¬ ('P' = c ∧ ['T'] <+: rest) := by
        rintro ⟨h1, h2⟩
        apply hc
        refine ⟨h1.symm, ?_⟩
        cases rest with
        | nil => simp at h2
        | cons r rs =>
          rw [List.cons_prefix_cons] at h2
          simp [h2.1.symm]
      simp only [durationMatch, hc, if_false, ih]
      tauto

/-- The part of C20 that holds: a flight without itinerary, with a missing or empty
duration, or with a duration in which `PT` occurs nowhere, counts as 9999 minutes. -/
theorem getDurationMinutes_missing (f : Flight) :
    (f.itineraries = [] → getDurationMinutes f = 9999) ∧
    (∀ it rest, f.itineraries = it :: rest → it.duration = none →
      getDurationMinutes f = 9999) ∧
    (∀ it rest, f.itineraries = it :: rest → it.duration = some "" →
      getDurationMinutes f = 9999) ∧
    (∀ it rest d, f.itineraries = it :: rest → it.duration = some d →
      ¬ ['P', 'T'] <:+: d.toList → getDurationMinutes f = 9999) := by
  refine ⟨?_, ?_, ?_, ?_⟩
  · intro h
    simp [getDurationMinutes, h]
  · intro it rest h hd
    simp [getDurationMinutes, h, hd]
  · intro it rest h hd
    simp [getDurationMinutes, h, hd]
  · intro it rest d h hd hP
    by_cases he : d = ""
    · simp [getDurationMinutes, h, hd, he]
    · have hm : durationMatch d.data = none := (durationMatch_eq_none_iff _).mpr hP
      simp [getDurationMinutes, h, hd, he, hm]

/-! ## Airline extraction -/

theorem foldl_flatMap_eq {α β γ : Type} (g : α → List β) (step : γ → β → γ) (l : List α)
    (acc : γ) :
    l.foldl (fun st a => (g a).foldl step st) acc = (l.flatMap g).foldl step acc := by
  induction l generalizing acc with
  | nil => rfl
  | cons a rest ih => simp [List.flatMap_cons, List.foldl_append, ih]

theorem pushAirline_eq (st : List String × List Airline) (segment : Option RawSegment) :
    pushAirline st segment =
      match carrierOf segment with
      | none => st
      | some code => pushCode st code := by
  unfold pushAirline carrierOf pushCode
  cases segment.bind (fun s => s.carrierCode) with
  | none => rfl
  | some code =>
    by_cases h1 : code = ""
    · simp [h1]
    · by_cases h2 : code ∈ st.1 <;> simp [h1, h2]

theorem foldl_pushAirline (segments : List (Option RawSegment))
    (st : List String × List Airline) :
    segments.foldl pushAirline st = (segments.filterMap carrierOf).foldl pushCode st := by
  induction segments generalizing st with
  | nil => rfl
  | cons s rest ih =>
    rw [List.foldl_cons, ih, pushAirline_eq]
    cases h : carrierOf s with
    | none => simp [List.filterMap_cons, h]
    | some code => simp [List.filterMap_cons, h]

theorem offerAirlines_eq (offer : RawOffer) :
    offerAirlines (offer.itineraries.getD []) =
      (carrierCodes offer).foldl pushCode ([], []) := by
  unfold offerAirlines carrierCodes
  rw [foldl_flatMap_eq, foldl_pushAirline]

theorem airlineState_nil : AirlineState [] ([], []) := by
  simp [AirlineState]

theorem airlineState_pushCode (seen : List String) (st : List String × List Airline)
    (code : String) (h : AirlineState seen st) :
    AirlineState (seen ++ [code]) (pushCode st code) := by
  obtain ⟨hmap, hname, hnodup, hmem, hord⟩ := h
  have hidx : ∀ a, a ∈ st.1 → (seen ++ [code]).indexOf a = seen.indexOf a := by
    intro a ha
    exact List.indexOf_append_of_mem ((hmem a).mp ha)
  have hord2 : st.1.Pairwise
      (fun a b => (seen ++ [code]).indexOf a < (seen ++ [code]).indexOf b) := by
    refine List.Pairwise.imp_of_mem ?_ hord
    intro a b ha hb hab
    rw [hidx a ha, hidx b hb]
    exact hab
  unfold pushCode
  by_cases hc : code ∈ st.1
  · rw [if_pos hc]
    refine ⟨hmap, hname, hnodup, ?_, hord2⟩
    intro c
    rw [hmem c, List.mem_append, List.mem_singleton]
    constructor
    · exact Or.inl
    · rintro (h1 | h1)
      · exact h1
      · rw [h1]; exact (hmem code).mp hc
  · rw [if_neg hc]
    have hcs : code ∉ seen := fun h1 => hc ((hmem code).mpr h1)
    refine ⟨?_, ?_, ?_, ?_, ?_⟩
    · simp [hmap]
    · intro a ha
      rcases List.mem_append.mp ha with h1 | h1
      · exact hname a h1
      · rw [List.mem_singleton.mp h1]
    · rw [List.nodup_append]
      refine ⟨hnodup, List.nodup_singleton code, ?_⟩
      intro a ha hb
      rw [List.mem_singleton.mp hb] at ha
      exact hc ha
    · intro c
      simp only [List.mem_append, List.mem_singleton, hmem c]
    · rw [List.pairwise_append]
      refine ⟨hord2, List.pairwise_singleton _ _, ?_⟩
      intro a ha b hb
      rw [List.mem_singleton.mp hb, hidx a ha, List.indexOf_append_of_not_mem hcs]
      have : seen.indexOf a < seen.length := List.indexOf_lt_length.mpr ((hmem a).mp ha)
      omega

theorem airlineState_foldl (codes : List String) :
    AirlineState codes (codes.foldl pushCode ([], [])) := by
  induction codes using List.reverseRecOn with
  | nil => exact airlineState_nil
  | append_singleton l a ih =>
    rw [List.foldl_append, List.foldl_cons, List.foldl_nil]
    exact airlineState_pushCode l _ a ih

/-- C12: the codes of the flight's `airlines` hold no duplicate, are exactly the carrier
codes the offer's segments carry (a missing or empty code is none), and stand in the order
in which those codes first occur when the itineraries are walked in order and the segments
of each in order. -/
theorem processFlightOffers_airlines (offer : RawOffer) (origin destination : String)
    (departureDate : ℤ) :
    (offer.wellFormed = true →
      ∃ f, processFlightOffers [some offer] origin destination departureDate = [f]) ∧
    (∀ f ∈ processFlightOffers [some offer] origin destination departureDate,
      (f.airlines.map (fun a => a.code)).Nodup ∧
      (∀ code, code ∈ f.airlines.map (fun a => a.code) ↔ code ∈ carrierCodes offer) ∧
      (f.airlines.map (fun a => a.code)).Pairwise
        (fun a b => (carrierCodes offer).indexOf a < (carrierCodes offer).indexOf b)) := by
  rw [processFlightOffers_single]
  constructor
  · intro h
    exact ⟨normalFlight offer origin destination departureDate, by rw [if_pos h]⟩
  · intro f hf
    by_cases h : offer.wellFormed
    · simp only [h, if_true, List.mem_singleton] at hf
      subst hf
      obtain ⟨hmap, _, hnodup, hmem, hord⟩ := airlineState_foldl (carrierCodes offer)
      rw [← offerAirlines_eq] at hmap hnodup hmem hord
      simp only [normalFlight, hmap]
      exact ⟨hnodup, hmem, hord⟩
    · simp [h] at hf

/-- C12 on a round trip flown by AA, BA, then AA, a segment without code and DL: the
airlines are AA, BA, DL, without duplicate. -/
theorem processFlightOffers_airlines_witness :
    carrierCodes multiCarrierOffer = ["AA", "BA", "AA", "DL"] ∧
      (processFlightOffers [some multiCarrierOffer] "JFK" "BOS" 0).map
        (fun f => f.airlines.map (fun a => a.code)) = [["AA", "BA", "DL"]] ∧
      (["AA", "BA", "DL"] : List String).Nodup := by
  obtain ⟨f, hf⟩ := (processFlightOffers_airlines multiCarrierOffer "JFK" "BOS" 0).1
    (by decide)
  obtain ⟨hnodup, _, _⟩ := (processFlightOffers_airlines multiCarrierOffer "JFK" "BOS" 0).2 f
    (by simp [hf])
  have h := hf
  rw [processFlightOffers_single, if_pos (by decide)] at h
  have hcodes : f.airlines.map (fun a => a.code) = ["AA", "BA", "DL"] := by
    rw [← List.singleton_inj.mp h]
    decide
  rw [hcodes] at hnodup
  refine ⟨by decide, ?_, hnodup⟩
  rw [hf, List.map_cons, List.map_nil, hcodes]

/-! ## Airline directory -/

theorem getAirlineName_listed :
    ∀ entry ∈ airlineNames, getAirlineName (some entry.1) = .value entry.2 := by
  decide

theorem getAirlineName_unlisted (code : String)
    (hlist : ∀ entry ∈ airlineNames, entry.1 ≠ code) (hproto : code ∉ objectPrototypeKeys) :
    getAirlineName (some code) = .value code := by
  have hl : airlineNames.lookup code = none := by
    rw [List.lookup_eq_none_iff]
    intro entry he
    simpa using (hlist entry he).symm
  simp [getAirlineName, objectGet, propertyKey, hl, hproto]

/-- C13, the failing input: `constructor` is not a listed carrier code, yet
`airlines[code]` finds the function every object inherits under that name and
`getAirlineName` returns it instead of the code. -/
theorem getAirlineName_inherited_name :
    (∀ entry ∈ airlineNames, entry.1 ≠ "constructor") ∧
      getAirlineName (some "constructor") = .inherited ∧
      getAirlineName (some "constructor") ≠ .value "constructor" := by
  decide

/-- The part of C13 that holds: a listed code gives its display name, an unlisted code
that names no inherited property gives the code itself, and in a normalised flight every
`airlines` entry and every segment's `carrierName` is `getAirlineName` of its code. -/
theorem getAirlineName_in_flight (offer : RawOffer) (origin destination : String)
    (departureDate : ℤ) :
    ∀ f ∈ processFlightOffers [some offer] origin destination departureDate,
      (∀ airline ∈ f.airlines, airline.name = getAirlineName (some airline.code)) ∧
      (∀ itinerary ∈ f.itineraries, ∀ segments, itinerary.segments = some segments →
        ∀ segment ∈ segments, segment.carrierName = getAirlineName segment.carrierCode) := by
  intro f hf
  rw [processFlightOffers_single] at hf
  by_cases h : offer.wellFormed
  · simp only [h, if_true, List.mem_singleton] at hf
    subst hf
    constructor
    · obtain ⟨_, hname, _⟩ := airlineState_foldl (carrierCodes offer)
      rw [← offerAirlines_eq] at hname
      exact hname
    · intro itinerary hit segments hsegs segment hseg
      simp only [normalFlight, List.mem_map] at hit
      obtain ⟨raw, _, rfl⟩ := hit
      simp only [normalItinerary, Option.map_eq_some'] at hsegs
      obtain ⟨rawSegments, _, rfl⟩ := hsegs
      obtain ⟨rawSegment, _, rfl⟩ := List.mem_map.mp hseg
      rfl
  · simp [h] at hf

/-! ## Sign of stops and emissions -/

theorem sum_map_nonneg {α : Type} (g : α → ℚ) (l : List α) (h : ∀ a ∈ l, 0 ≤ g a) :
    0 ≤ (l.map g).sum := by
  induction l with
  | nil => simp
  | cons a rest ih =>
    have h1 : 0 ≤ g a := h a (List.mem_cons_self a rest)
    have h2 : 0 ≤ (rest.map g).sum := ih (fun x hx => h x (List.mem_cons_of_mem a hx))
    simp only [List.map_cons, List.sum_cons]
    linarith

theorem offerStops_nonneg (offer : RawOffer)
    (hstops : ∀ itinerary ∈ offer.itineraries.getD [], ∀ segment ∈ segmentsOf itinerary,
      0 ≤ technicalStops segment) :
    0 ≤ offerStops offer := by
  unfold offerStops
  apply sum_map_nonneg
  intro itinerary hit
  unfold itineraryStopCount
  have h1 : 0 ≤ ((segmentsOf itinerary).map technicalStops).sum :=
    sum_map_nonneg _ _ (hstops itinerary hit)
  have h2 : (0 : ℚ) ≤ max 0 (((segmentsOf itinerary).length : ℚ) - 1) := le_max_left _ _
  linarith

theorem objectGet_distances (key : String) (h : key ∉ objectPrototypeKeys) :
    objectGet distances key =
      if key = "JFKLAX" then .value 3983
      else if key = "JFKLHR" then .value 5541
      else if key = "LAXSFO" then .value 543
      else if key = "LASDFW" then .value 1789
      else if key = "ORDLAX" then .value 2799
      else .undefined := by
  by_cases h1 : key = "JFKLAX"
  · subst h1; simp [objectGet, distances, List.lookup]
  by_cases h2 : key = "JFKLHR"
  · subst h2; simp [objectGet, distances, List.lookup]
  by_cases h3 : key = "LAXSFO"
  · subst h3; simp [objectGet, distances, List.lookup]
  by_cases h4 : key = "LASDFW"
  · subst h4; simp [objectGet, distances, List.lookup]
  by_cases h5 : key = "ORDLAX"
  · subst h5; simp [objectGet, distances, List.lookup]
  have e1 : (key == "JFKLAX") = false := by simpa using h1
  have e2 : (key == "JFKLHR") = false := by simpa using h2
  have e3 : (key == "LAXSFO") = false := by simpa using h3
  have e4 : (key == "LASDFW") = false := by simpa using h4
  have e5 : (key == "ORDLAX") = false := by simpa using h5
  simp [objectGet, distances, List.lookup, e1, e2, e3, e4, e5, h1, h2, h3, h4, h5, h]

theorem objectGet_distances_cases (key : String) (h : key ∉ objectPrototypeKeys) :
    objectGet distances key = .undefined ∨
      ∃ q : ℚ, objectGet distances key = .value q ∧ 543 ≤ q := by
  rw [objectGet_distances key h]
  split_ifs
  · exact Or.inr ⟨3983, rfl, by norm_num⟩
  · exact Or.inr ⟨5541, rfl, by norm_num⟩
  · exact Or.inr ⟨543, rfl, by norm_num⟩
  · exact Or.inr ⟨1789, rfl, by norm_num⟩
  · exact Or.inr ⟨2799, rfl, by norm_num⟩
  · exact Or.inl rfl

theorem estimateFlightDistance_ordinary (origin destination : String)
    (h1 : origin ++ destination ∉ objectPrototypeKeys)
    (h2 : destination ++ origin ∉ objectPrototypeKeys) :
    ∃ q : ℚ, estimateFlightDistance origin destination = .value q ∧ 543 ≤ q := by
  unfold estimateFlightDistance
  rcases objectGet_distances_cases _ h1 with hd | ⟨q, hq, hle⟩
  · rcases objectGet_distances_cases _ h2 with hr | ⟨q, hq, hle⟩
    · exact ⟨1500, by simp [hd, hr, Lookup.truthyNum], by norm_num⟩
    · have hne : q ≠ 0 := by intro h0; rw [h0] at hle; norm_num at hle
      exact ⟨q, by simp [hd, hq, Lookup.truthyNum, hne], hle⟩
  · have hne : q ≠ 0 := by intro h0; rw [h0] at hle; norm_num at hle
    exact ⟨q, by simp [hq, Lookup.truthyNum, hne], hle⟩

theorem cabinFactor_ge (cabin : Option String) : (9 / 100 : ℚ) ≤ cabinFactor cabin := by
  unfold cabinFactor
  split_ifs <;> norm_num

theorem estimate_floor_pos (q f s : ℚ) (hq : 543 ≤ q) (hf : 9 / 100 ≤ f) (hs : 0 ≤ s) :
    (0 : ℚ) < ((⌊q * f * (1 + 0.20 * s) + 1 / 2⌋ : ℤ) : ℚ) := by
  have h1 : (543 : ℚ) * (9 / 100) ≤ q * f := mul_le_mul hq hf (by norm_num) (by linarith)
  have h2 : (0 : ℚ) ≤ q * f := by linarith
  have h3 : (0 : ℚ) ≤ q * f * (0.20 * s) := mul_nonneg h2 (by linarith)
  have h4 : (1 : ℚ) ≤ q * f * (1 + 0.20 * s) + 1 / 2 := by
    have : q * f * (1 + 0.20 * s) = q * f + q * f * (0.20 * s) := by ring
    rw [this]
    norm_num at h1 ⊢
    linarith
  have h5 : 0 < ⌊q * f * (1 + 0.20 * s) + 1 / 2⌋ := Int.floor_pos.mpr h4
  exact_mod_cast h5

/-- The part of C11 that holds: when no technical-stop count is negative, some itinerary
has a segment, and neither the cabin nor the route key names a property inherited from
`Object.prototype`, the flight has `stops >= 0` and a positive emissions weight. -/
theorem processFlightOffers_positive (offer : RawOffer) (origin destination : String)
    (departureDate : ℤ)
    (hstops : ∀ itinerary ∈ offer.itineraries.getD [], ∀ segment ∈ segmentsOf itinerary,
      0 ≤ technicalStops segment)
    (hsegment : ∃ itinerary ∈ offer.itineraries.getD [], segmentsOf itinerary ≠ [])
    (hcabin : offerCabin offer ∉ objectPrototypeKeys)
    (hroute : origin ++ destination ∉ objectPrototypeKeys ∧
      destination ++ origin ∉ objectPrototypeKeys) :
    ∀ f ∈ processFlightOffers [some offer] origin destination departureDate,
      0 ≤ f.stops ∧ f.carbonEmissions.weight.isPositive := by
  intro f hf
  rw [processFlightOffers_single] at hf
  by_cases h : offer.wellFormed
  · simp only [h, if_true, List.mem_singleton] at hf
    subst hf
    have hs := offerStops_nonneg offer hstops
    refine ⟨hs, ?_⟩
    simp only [normalFlight, offerEmissions]
    by_cases hp : 0 < providerTotal offer
    · rw [if_pos hp]
      exact hp
    · rw [if_neg hp]
      obtain ⟨q, hq, hle⟩ := estimateFlightDistance_ordinary origin destination hroute.1 hroute.2
      obtain ⟨itinerary, hit, _⟩ := hsegment
      have hlen : (0 : ℚ) < ((offer.itineraries.getD []).length : ℚ) := by
        have : 0 < (offer.itineraries.getD []).length := List.length_pos_of_mem hit
        exact_mod_cast this
      have hfl := estimate_floor_pos q (cabinFactor (some (offerCabin offer))) (offerStops offer)
        hle (cabinFactor_ge _) hs
      have hkey : propertyKey (some (offerCabin offer)) ∉ objectPrototypeKeys := hcabin
      rw [estimatedWeight, hq, Lookup.toNum, estimateEmissions_formula _ _ _ hkey]
      exact mul_pos hfl hlen
  · simp [h] at hf

/-- C11, the failing input: the offer has one itinerary of one segment and no negative
technical-stop count, its fare detail names the cabin `constructor`, and the emissions
weight of its flight is `NaN`, which is not greater than 0. -/
theorem processFlightOffers_inherited_cabin_weight :
    (∀ itinerary ∈ inheritedCabinOffer.itineraries.getD [],
        ∀ segment ∈ segmentsOf itinerary, 0 ≤ technicalStops segment) ∧
      (∃ itinerary ∈ inheritedCabinOffer.itineraries.getD [], segmentsOf itinerary ≠ []) ∧
      (processFlightOffers [some inheritedCabinOffer] "JFK" "BOS" 0).map
        (fun f => f.carbonEmissions.weight) = [.NaN] ∧
      ¬ Num.isPositive .NaN := by
  refine ⟨?_, ?_, ?_, fun h => h⟩
  · simp [inheritedCabinOffer, offerOf, segmentsOf, technicalStops, plainSegment]
  · simp [inheritedCabinOffer, offerOf, segmentsOf]
  · rw [processFlightOffers_single, if_pos (by decide)]
    have ht : providerTotal inheritedCabinOffer = 0 := by
      norm_num [providerTotal, inheritedCabinOffer, offerOf, firstFareDetails, reportedWeight,
        numOr]
    have hc : offerCabin inheritedCabinOffer = "constructor" := by decide
    simp only [List.map_cons, List.map_nil, normalFlight, offerEmissions, ht, lt_irrefl,
      if_false, estimatedWeight, hc]
    simp [estimateEmissions, propertyKey, objectGet, emissionFactors, List.lookup,
      objectPrototypeKeys, Lookup.truthyNum, Lookup.toNum, Num.mul, Math.round]

/-! ## Monotonicity of the ranking in the stop count -/

theorem compositeScore_fewer_stops (f : Flight) (more : ℚ) (h0 : 0 ≤ f.stops)
    (hlt : f.stops < more) :
    compositeScore { f with stops := more } < compositeScore f := by
  have hd : getDurationMinutes { f with stops := more } = getDurationMinutes f := rfl
  have hne : more ≠ 0 := by intro h; rw [h] at hlt; linarith
  simp only [compositeScore, hd, hne, if_false]
  by_cases hz : f.stops = 0
  · rw [if_pos hz]
    linarith
  · rw [if_neg hz]
    linarith

theorem prioritizeFlights_order (l : List Flight) (better worse : Flight)
    (hscore : compositeScore worse < compositeScore better)
    (hb : better ∈ l) (hw : worse ∈ l) :
    List.Sublist [better, worse] (prioritizeFlights l) ∧
      ¬ List.Sublist [worse, better] (prioritizeFlights l) := by
  have hsorted : (prioritizeFlights l).Pairwise
      (fun earlier later => compositeScore later ≤ compositeScore earlier) :=
    arraySort_descending compositeScore compareFlights compareFlights_eq l
  have hperm : (prioritizeFlights l).Perm l := arraySort_perm compareFlights l
  have hnot : ¬ List.Sublist [worse, better] (prioritizeFlights l) := by
    intro hsub
    have hp := hsorted.sublist hsub
    rw [List.pairwise_cons] at hp
    have := hp.1 better (List.mem_singleton_self better)
    linarith
  refine ⟨?_, hnot⟩
  have hb2 : better ∈ prioritizeFlights l := hperm.mem_iff.mpr hb
  have hw2 : worse ∈ prioritizeFlights l := hperm.mem_iff.mpr hw
  obtain ⟨s, t, hst⟩ := List.append_of_mem hb2
  rw [hst] at hw2 hnot ⊢
  rcases List.mem_append.mp hw2 with h1 | h1
  · exfalso
    apply hnot
    have h2 : List.Sublist [worse] s := List.singleton_sublist.mpr h1
    have h3 : List.Sublist [better] (better :: t) := (List.nil_sublist t).cons₂ better
    exact h2.append h3
  · rcases List.mem_cons.mp h1 with h2 | h2
    · rw [h2] at hscore
      exact absurd hscore (lt_irrefl _)
    · have h3 : List.Sublist [worse] t := List.singleton_sublist.mpr h2
      exact (h3.cons₂ better).trans (List.sublist_append_right s (better :: t))

/-- C17: of two flights that differ only in their non-negative stop counts, the one with
fewer stops has the strictly higher composite score, and in the output of
`prioritizeFlights` on any list that holds both it stands before the other and never
after it (the two-element lists are read as subsequences of the output). -/
theorem prioritizeFlights_fewer_stops_first (f : Flight) (more : ℚ) (h0 : 0 ≤ f.stops)
    (hlt : f.stops < more) :
    compositeScore { f with stops := more } < compositeScore f ∧
    (∀ l : List Flight, f ∈ l → { f with stops := more } ∈ l →
      List.Sublist [f, { f with stops := more }] (prioritizeFlights l) ∧
        ¬ List.Sublist [{ f with stops := more }, f] (prioritizeFlights l)) := by
  refine ⟨compositeScore_fewer_stops f more h0 hlt, ?_⟩
  intro l hf hg
  exact prioritizeFlights_order l f _ (compositeScore_fewer_stops f more h0 hlt) hf hg

/-- C17 on flight A of scenario D and its copy with one stop: A scores higher and stands
first when the list hands the copy over first. -/
theorem prioritizeFlights_fewer_stops_first_witness :
    compositeScore (flightOf 1 "WN" 500 0 (some "PT5H")) <
        compositeScore (flightOf 0 "WN" 500 0 (some "PT5H")) ∧
      List.Sublist
        [flightOf 0 "WN" 500 0 (some "PT5H"), flightOf 1 "WN" 500 0 (some "PT5H")]
        (prioritizeFlights
          [flightOf 1 "WN" 500 0 (some "PT5H"), flightOf 0 "WN" 500 0 (some "PT5H")]) := by
  have h := prioritizeFlights_fewer_stops_first (flightOf 0 "WN" 500 0 (some "PT5H")) 1
    (by norm_num [flightOf]) (by norm_num [flightOf])
  refine ⟨h.1, ?_⟩
  exact (h.2 [flightOf 1 "WN" 500 0 (some "PT5H"), flightOf 0 "WN" 500 0 (some "PT5H")]
    (by simp) (List.mem_cons_self _ _)).1

/-! ## Premium list, ties and round trips -/

/-- C26: every code of `premiumAirlines` is a key of the airline directory, and
`getAirlineName` returns for it the listed display name, which differs from the code. -/
theorem premiumAirlines_listed :
    ∀ code ∈ premiumAirlines, ∃ entry ∈ airlineNames, entry.1 = code ∧
      getAirlineName (some code) = .value entry.2 ∧ entry.2 ≠ code := by
  decide

/-- C26 on the code `EK` of the allow-list: `getAirlineName` returns `Emirates`. -/
theorem premiumAirlines_listed_witness :
    "EK" ∈ premiumAirlines ∧ getAirlineName (some "EK") = .value "Emirates" := by
  obtain ⟨entry, _, hcode, hname, _⟩ := premiumAirlines_listed "EK" (by decide)
  refine ⟨by decide, ?_⟩
  rw [hname]
  have h : getAirlineName (some "EK") = .value "Emirates" := by decide
  rw [hname] at h
  exact h

/-! ## Round trips, the data-model invariant and eco insights -/

theorem estimated_weight_jfk_bos (offer : RawOffer) (stops : ℚ) (count : ℕ)
    (hw : offer.wellFormed = true) (ht : providerTotal offer = 0)
    (hc : offerCabin offer = "ECONOMY") (hs : offerStops offer = stops)
    (hn : (offer.itineraries.getD []).length = count) :
    (processFlightOffers [some offer] "JFK" "BOS" 0).map (fun f => f.carbonEmissions.weight) =
      [.val (((⌊(1500 : ℚ) * 0.09 * (1 + 0.20 * stops) + 1 / 2⌋ : ℤ) : ℚ) * count)] := by
  rw [processFlightOffers_single, if_pos hw]
  simp only [List.map_cons, List.map_nil, normalFlight, offerEmissions, ht, lt_irrefl,
    if_false, estimatedWeight, hc, hs, hn, estimateFlightDistance_jfk_bos, Lookup.toNum]
  rw [estimateEmissions_formula _ _ _ (by decide)]
  norm_num [cabinFactor, Num.mul]

/-- C29 as stated fails: the outbound itinerary has two segments, hence one stop.  Alone it
weighs `round(1500 * 0.09 * 1.2) = 162`; with a copy of it as return the stops of both
itineraries are summed before the estimate is doubled, and the round trip weighs
`2 * round(1500 * 0.09 * 1.4) = 378`, not `2 * 162 = 324`. -/
theorem processFlightOffers_round_trip_counterexample :
    (processFlightOffers [some oneStopOneWay] "JFK" "BOS" 0).map
        (fun f => f.carbonEmissions.weight) = [.val 162] ∧
      (processFlightOffers [some oneStopRoundTrip] "JFK" "BOS" 0).map
        (fun f => f.carbonEmissions.weight) = [.val 378] ∧
      (378 : ℚ) ≠ 2 * 162 := by
  refine ⟨?_, ?_, by norm_num⟩
  · rw [estimated_weight_jfk_bos oneStopOneWay 1 1 (by decide)
      (by norm_num [providerTotal, oneStopOneWay, offerOf, firstFareDetails, reportedWeight,
        economyFare, numOr])
      (by decide)
      (by norm_num [offerStops, itineraryStopCount, oneStopOneWay, offerOf, segmentsOf,
        technicalStops, plainSegment])
      (by decide)]
    norm_num
  · rw [estimated_weight_jfk_bos oneStopRoundTrip 2 2 (by decide)
      (by norm_num [providerTotal, oneStopRoundTrip, offerOf, firstFareDetails,
        reportedWeight, economyFare, numOr])
      (by decide)
      (by norm_num [offerStops, itineraryStopCount, oneStopRoundTrip, offerOf, segmentsOf,
        technicalStops, plainSegment])
      (by decide)]
    norm_num

/-- Without any stop the round trip (scenario C) weighs twice the one-way offer
(scenario A). -/
theorem processFlightOffers_round_trip_direct :
    (processFlightOffers [some scenarioA] "JFK" "BOS" 0).map
        (fun f => f.carbonEmissions.weight) = [.val 135] ∧
      (processFlightOffers [some scenarioC] "JFK" "BOS" 0).map
        (fun f => f.carbonEmissions.weight) = [.val (2 * 135)] := by
  constructor
  · rw [estimated_weight_jfk_bos scenarioA 0 1 (by decide)
      (by norm_num [providerTotal, scenarioA, offerOf, firstFareDetails, reportedWeight,
        economyFare, numOr])
      (by decide)
      (by norm_num [offerStops, itineraryStopCount, scenarioA, offerOf, segmentsOf,
        technicalStops, plainSegment])
      (by decide)]
    norm_num
  · rw [estimated_weight_jfk_bos scenarioC 0 2 (by decide)
      (by norm_num [providerTotal, scenarioC, offerOf, firstFareDetails, reportedWeight,
        economyFare, numOr])
      (by decide)
      (by norm_num [offerStops, itineraryStopCount, scenarioC, offerOf, segmentsOf,
        technicalStops, plainSegment])
      (by decide)]
    norm_num

theorem Num.mul_one (x : Num) : x.mul (.val 1) = x := by
  cases x with
  | val q => simp [Num.mul]
  | NaN => rfl

/-- C29, amended: for an offer without provider emissions, the one-way offer made of the
itinerary `outbound` alone weighs the estimate for the stops `s` of that itinerary, and the
round trip whose return is a copy of `outbound` weighs twice the estimate for `2 * s`
stops, the stops of both itineraries being added up before the estimate; so the round trip
weighs exactly twice the one-way offer when the outbound itinerary has no stop. -/
theorem processFlightOffers_round_trip (offer : RawOffer) (outbound : RawItinerary)
    (origin destination : String) (departureDate : ℤ)
    (hnone : ∀ fd ∈ (firstFareDetails (offer.travelerPricings.getD [])).getD [],
      reportedWeight fd ≤ 0)
    (hwf : ({ offer with itineraries := some [some outbound] } : RawOffer).wellFormed = true) :
    ∃ oneWay roundTrip : Flight,
      processFlightOffers [some { offer with itineraries := some [some outbound] }]
        origin destination departureDate = [oneWay] ∧
      processFlightOffers
        [some { offer with itineraries := some [some outbound, some outbound] }]
        origin destination departureDate = [roundTrip] ∧
      oneWay.carbonEmissions.weight =
        estimateEmissions (estimateFlightDistance origin destination).toNum
          (some ((firstCabin (offer.travelerPricings.getD [])).getD "ECONOMY"))
          (itineraryStopCount (some outbound)) ∧
      roundTrip.carbonEmissions.weight =
        (estimateEmissions (estimateFlightDistance origin destination).toNum
          (some ((firstCabin (offer.travelerPricings.getD [])).getD "ECONOMY"))
          (2 * itineraryStopCount (some outbound))).mul (.val 2) ∧
      (itineraryStopCount (some outbound) = 0 →
        roundTrip.carbonEmissions.weight = oneWay.carbonEmissions.weight.mul (.val 2)) := by
  have hle : providerTotal offer ≤ 0 := by
    unfold providerTotal
    exact sum_map_nonpos _ _ hnone
  have hwf2 : ({ offer with itineraries := some [some outbound, some outbound] } :
      RawOffer).wellFormed = true := by
    simp only [RawOffer.wellFormed, Option.getD_some, List.all_cons, List.all_nil,
      Bool.and_true, Bool.and_eq_true] at hwf ⊢
    exact ⟨⟨hwf.1, hwf.1⟩, hwf.2⟩
  have h1 : ¬ 0 < providerTotal
      ({ offer with itineraries := some [some outbound] } : RawOffer) := not_lt.mpr hle
  have h2 : ¬ 0 < providerTotal
      ({ offer with itineraries := some [some outbound, some outbound] } : RawOffer) :=
    not_lt.mpr hle
  have w1 : (normalFlight { offer with itineraries := some [some outbound] } origin
      destination departureDate).carbonEmissions.weight =
      estimateEmissions (estimateFlightDistance origin destination).toNum
        (some ((firstCabin (offer.travelerPricings.getD [])).getD "ECONOMY"))
        (itineraryStopCount (some outbound)) := by
    simp only [normalFlight, offerEmissions, h1, if_false, estimatedWeight, offerCabin,
      offerStops, Option.getD_some, List.map_cons, List.map_nil, List.sum_cons,
      List.sum_nil, add_zero, List.length_cons, List.length_nil]
    norm_num [Num.mul_one]
  have w2 : (normalFlight { offer with itineraries := some [some outbound, some outbound] }
      origin destination departureDate).carbonEmissions.weight =
      (estimateEmissions (estimateFlightDistance origin destination).toNum
        (some ((firstCabin (offer.travelerPricings.getD [])).getD "ECONOMY"))
        (2 * itineraryStopCount (some outbound))).mul (.val 2) := by
    simp only [normalFlight, offerEmissions, h2, if_false, estimatedWeight, offerCabin,
      offerStops, Option.getD_some, List.map_cons, List.map_nil, List.sum_cons,
      List.sum_nil, add_zero, List.length_cons, List.length_nil]
    norm_num [two_mul]
  refine ⟨_, _, ?_, ?_, w1, w2, ?_⟩
  · rw [processFlightOffers_single, if_pos hwf]
  · rw [processFlightOffers_single, if_pos hwf2]
  · intro h0
    rw [w1, w2, h0]
    norm_num

/-- C29, amended, on scenario A and scenario C, the round trip made of its itinerary, from
JFK to BOS: no stop, 135 one way and 270 for the round trip. -/
theorem processFlightOffers_round_trip_witness :
    (processFlightOffers [some scenarioA] "JFK" "BOS" 0).map
        (fun f => f.carbonEmissions.weight) = [.val 135] ∧
      (processFlightOffers [some scenarioC] "JFK" "BOS" 0).map
        (fun f => f.carbonEmissions.weight) = [.val 270] := by
  have hnone : ∀ fd ∈ (firstFareDetails (scenarioA.travelerPricings.getD [])).getD [],
      reportedWeight fd ≤ 0 := by
    simp [scenarioA, offerOf, firstFareDetails, reportedWeight, economyFare, numOr]
  obtain ⟨oneWay, roundTrip, h1, h2, w1, w2, _⟩ :=
    processFlightOffers_round_trip scenarioA
      { duration := none, segments := some [some plainSegment] } "JFK" "BOS" 0 hnone
      (by decide)
  have h1a : processFlightOffers [some scenarioA] "JFK" "BOS" 0 = [oneWay] := h1
  have h2c : processFlightOffers [some scenarioC] "JFK" "BOS" 0 = [roundTrip] := h2
  have hs : itineraryStopCount
      (some { duration := none, segments := some [some plainSegment] }) = 0 := by
    norm_num [itineraryStopCount, segmentsOf, technicalStops, plainSegment]
  have hc : (firstCabin (scenarioA.travelerPricings.getD [])).getD "ECONOMY" = "ECONOMY" := by
    decide
  rw [h1a, h2c, List.map_cons, List.map_nil, List.map_cons, List.map_nil, w1, w2, hs, hc,
    estimateFlightDistance_jfk_bos, Lookup.toNum]
  norm_num
  rw [estimateEmissions_formula _ _ _ (by decide)]
  norm_num [cabinFactor, Num.mul]

theorem parseFloat_minus_five : parseFloat (some "-5") = some (-5) := by
  simp [parseFloat, unsignedDecimal, isWhiteSpace, digitsValue, exponentPart]

/-- C23 as stated fails: the offer without itineraries and with the price total `-5`
yields a flight with no itinerary and the total -5. -/
theorem processFlightOffers_invariant_counterexample :
    (processFlightOffers [some negativePriceOffer] "JFK" "BOS" 0).map
      (fun f => (f.itineraries.length, f.price.total)) = [(0, -5)] := by
  rw [processFlightOffers_single, if_pos (by decide)]
  have h : negativePriceOffer.price.bind (fun p => p.total) = some "-5" := rfl
  simp only [List.map_cons, List.map_nil, normalFlight, h, parseFloat_minus_five]
  simp [negativePriceOffer, numOr]

/-- C23, amended: the flight has as many itineraries as the raw offer (none when the offer
has none) and its `price.total` is the number `parseFloat` reads from the offer's
`price.total`, 0 when it reads none; so the flight has 1 or 2 itineraries when the offer
has, and a total that is not negative when that number is not. -/
theorem processFlightOffers_invariant (offer : RawOffer) (origin destination : String)
    (departureDate : ℤ) :
    (offer.wellFormed = true →
      ∃ f, processFlightOffers [some offer] origin destination departureDate = [f]) ∧
    (∀ f ∈ processFlightOffers [some offer] origin destination departureDate,
      f.itineraries.length = (offer.itineraries.getD []).length ∧
      (parseFloat (offer.price.bind (fun p => p.total)) = none → f.price.total = 0) ∧
      (∀ q, parseFloat (offer.price.bind (fun p => p.total)) = some q → f.price.total = q) ∧
      (((offer.itineraries.getD []).length = 1 ∨ (offer.itineraries.getD []).length = 2) →
        (f.itineraries.length = 1 ∨ f.itineraries.length = 2)) ∧
      (∀ q, parseFloat (offer.price.bind (fun p => p.total)) = some q → 0 ≤ q →
        0 ≤ f.price.total)) := by
  rw [processFlightOffers_single]
  constructor
  · intro h
    exact ⟨normalFlight offer origin destination departureDate, by rw [if_pos h]⟩
  · intro f hf
    by_cases h : offer.wellFormed
    · simp only [h, if_true, List.mem_singleton] at hf
      subst hf
      have hq : ∀ q, parseFloat (offer.price.bind (fun p => p.total)) = some q →
          (normalFlight offer origin destination departureDate).price.total = q := by
        intro q hq
        by_cases h0 : q = 0 <;> simp [normalFlight, hq, numOr, h0]
      refine ⟨by simp [normalFlight], ?_, hq, ?_, ?_⟩
      · intro hn
        simp [normalFlight, hn, numOr]
      · intro hlen
        simpa [normalFlight] using hlen
      · intro q hp hq0
        rw [hq q hp]
        exact hq0
    · simp [h] at hf

/-- C23, amended, on scenario C: two itineraries and no price give a flight with two
itineraries and the total 0. -/
theorem processFlightOffers_invariant_witness :
    (processFlightOffers [some scenarioC] "JFK" "BOS" 0).map
      (fun f => (f.itineraries.length, f.price.total)) = [(2, 0)] := by
  obtain ⟨f, hf⟩ := (processFlightOffers_invariant scenarioC "JFK" "BOS" 0).1 (by decide)
  obtain ⟨h1, h2, _⟩ := (processFlightOffers_invariant scenarioC "JFK" "BOS" 0).2 f
    (by simp [hf])
  rw [hf, List.map_cons, List.map_nil, h1, h2 rfl]
  rfl

theorem preSave_of_weight (doc : Flight) (w : ℚ) (hw : doc.carbonEmissions.weight = .val w)
    (h0 : w ≠ 0) :
    (preSave doc).ecoInsights =
      some { treesNeeded := ⌈w / 21⌉, carKmEquivalent := ⌊w / 0.12 + 1 / 2⌋,
             homeEnergyDays := ((⌊w / 30 * 10 + 1 / 2⌋ : ℤ) : ℚ) / 10 } := by
  simp [preSave, hw, h0]

theorem ecoInsights_135 :
    (⌈(135 : ℚ) / 21⌉ = 7 ∧ ⌊(135 : ℚ) / 0.12 + 1 / 2⌋ = 1125) ∧
      ((⌊(135 : ℚ) / 30 * 10 + 1 / 2⌋ : ℤ) : ℚ) / 10 = 9 / 2 := by
  have h1 : ⌈(135 : ℚ) / 21⌉ = 7 := by
    rw [Int.ceil_eq_iff]; norm_num
  have h2 : ⌊(135 : ℚ) / 0.12 + 1 / 2⌋ = 1125 := by
    rw [Int.floor_eq_iff]; norm_num
  have h3 : ⌊(135 : ℚ) / 30 * 10 + 1 / 2⌋ = 45 := by
    rw [Int.floor_eq_iff]; norm_num
  refine ⟨⟨h1, h2⟩, ?_⟩
  rw [h3]
  norm_num

theorem scenarioA_flight :
    ∃ f, processFlightOffers [some scenarioA] "JFK" "BOS" 0 = [f] ∧
      f.carbonEmissions.weight = .val 135 ∧ f.ecoInsights = none := by
  have h := (processFlightOffers_round_trip_direct).1
  rw [processFlightOffers_single, if_pos (by decide)] at h ⊢
  refine ⟨_, rfl, ?_, ?_⟩
  · simpa using h
  · simp [normalFlight]

/-- C24 as stated fails: the flight of scenario A weighs 135, for which the metrics are
7 trees, 1125 car km and 4.5 home-energy days, and it carries no eco insights; they are on
the document only after the save hook has run. -/
theorem processFlightOffers_ecoInsights_counterexample :
    (processFlightOffers [some scenarioA] "JFK" "BOS" 0).map
        (fun f => (f.carbonEmissions.weight, f.ecoInsights, (preSave f).ecoInsights)) =
      [(.val 135, none,
        some { treesNeeded := 7, carKmEquivalent := 1125, homeEnergyDays := 9 / 2 })] := by
  obtain ⟨f, hf, hw, he⟩ := scenarioA_flight
  obtain ⟨⟨h1, h2⟩, h3⟩ := ecoInsights_135
  rw [hf, List.map_cons, List.map_nil, hw, he, preSave_of_weight f 135 hw (by norm_num),
    h1, h2, h3]

/-- C24, amended: no flight returned by `processFlightOffers` carries eco insights, the
object it builds having no such key and being pushed without a save; the metrics
`ceil(w / 21)`, `round(w / 0.12)` and `round((w / 30) * 10) / 10` are what the `pre('save')`
hook of the Flight model assigns when such a flight of non-zero weight `w` is saved. -/
theorem processFlightOffers_no_ecoInsights (offers : List (Option RawOffer))
    (origin destination : String) (departureDate : ℤ) :
    ∀ f ∈ processFlightOffers offers origin destination departureDate,
      f.ecoInsights = none ∧
      (∀ w : ℚ, f.carbonEmissions.weight = .val w → w ≠ 0 →
        (preSave f).ecoInsights =
          some { treesNeeded := ⌈w / 21⌉, carKmEquivalent := ⌊w / 0.12 + 1 / 2⌋,
                 homeEnergyDays := ((⌊w / 30 * 10 + 1 / 2⌋ : ℤ) : ℚ) / 10 }) ∧
      (f.carbonEmissions.weight = .val 0 ∨ f.carbonEmissions.weight = .NaN →
        (preSave f).ecoInsights = none) := by
  intro f hf
  rw [processFlightOffers_eq] at hf
  obtain ⟨l, hl, hfl⟩ := List.mem_flatten.mp hf
  obtain ⟨o, _, rfl⟩ := List.mem_map.mp hl
  have hnone : f.ecoInsights = none := by
    cases o with
    | none => simp [contribution] at hfl
    | some offer =>
      by_cases hwf : offer.wellFormed
      · simp only [contribution, hwf, if_true, List.mem_singleton] at hfl
        rw [hfl]
        simp [normalFlight]
      · simp [contribution, hwf] at hfl
  refine ⟨hnone, fun w hw h0 => preSave_of_weight f w hw h0, ?_⟩
  rintro (hw | hw) <;> simp [preSave, hw, hnone]

/-- C24, amended, on scenario A: its flight carries no eco insights, and saving it assigns
7 trees, 1125 car km and 4.5 home-energy days. -/
theorem processFlightOffers_no_ecoInsights_witness :
    (processFlightOffers [some scenarioA] "JFK" "BOS" 0).map
        (fun f => (f.ecoInsights, (preSave f).ecoInsights)) =
      [(none, some { treesNeeded := 7, carKmEquivalent := 1125, homeEnergyDays := 9 / 2 })] := by
  obtain ⟨f, hf, hw, _⟩ := scenarioA_flight
  obtain ⟨hnone, hsave, _⟩ :=
    processFlightOffers_no_ecoInsights [some scenarioA] "JFK" "BOS" 0 f (by simp [hf])
  obtain ⟨⟨h1, h2⟩, h3⟩ := ecoInsights_135
  rw [hf, List.map_cons, List.map_nil, hnone, hsave 135 hw (by norm_num), h1, h2, h3]

/-! ## Distance table -/

theorem key_not_inherited (origin destination : String) (ho : origin.length = 3)
    (hd : destination.length = 3) : origin ++ destination ∉ objectPrototypeKeys := by
  intro h
  have hlen : (origin ++ destination).length = 6 := by
    rw [String.length_append, ho, hd]
  have hall : ∀ k ∈ objectPrototypeKeys, k.length ≠ 6 := by decide
  exact hall _ h hlen

theorem append_eq_iff (origin destination a b : String) (ho : origin.length = 3)
    (ha : a.length = 3) :
    origin ++ destination = a ++ b ↔ origin = a ∧ destination = b := by
  constructor
  · intro h
    have h2 : origin.data ++ destination.data = a.data ++ b.data := by
      have := congrArg String.data h
      simpa using this
    have hl : origin.data.length = a.data.length := by
      rw [← String.length, ← String.length, ho, ha]
    obtain ⟨h3, h4⟩ := List.append_inj h2 hl
    exact ⟨String.ext h3, String.ext h4⟩
  · rintro ⟨rfl, rfl⟩
    rfl

theorem distances_direct (origin destination : String) (ho : origin.length = 3)
    (hd : destination.length = 3) :
    objectGet distances (origin ++ destination) =
      if origin = "JFK" ∧ destination = "LAX" then .value 3983
      else if origin = "JFK" ∧ destination = "LHR" then .value 5541
      else if origin = "LAX" ∧ destination = "SFO" then .value 543
      else if origin = "LAS" ∧ destination = "DFW" then .value 1789
      else if origin = "ORD" ∧ destination = "LAX" then .value 2799
      else .undefined := by
  have e1 : origin ++ destination = "JFKLAX" ↔ origin = "JFK" ∧ destination = "LAX" :=
    append_eq_iff origin destination "JFK" "LAX" ho rfl
  have e2 : origin ++ destination = "JFKLHR" ↔ origin = "JFK" ∧ destination = "LHR" :=
    append_eq_iff origin destination "JFK" "LHR" ho rfl
  have e3 : origin ++ destination = "LAXSFO" ↔ origin = "LAX" ∧ destination = "SFO" :=
    append_eq_iff origin destination "LAX" "SFO" ho rfl
  have e4 : origin ++ destination = "LASDFW" ↔ origin = "LAS" ∧ destination = "DFW" :=
    append_eq_iff origin destination "LAS" "DFW" ho rfl
  have e5 : origin ++ destination = "ORDLAX" ↔ origin = "ORD" ∧ destination = "LAX" :=
    append_eq_iff origin destination "ORD" "LAX" ho rfl
  rw [objectGet_distances _ (key_not_inherited origin destination ho hd)]
  simp only [e1, e2, e3, e4, e5]

theorem estimateFlightDistance_eq_route (origin destination : String)
    (ho : origin.length = 3) (hd : destination.length = 3) :
    estimateFlightDistance origin destination = .value (routeDistance origin destination) := by
  have hdir := distances_direct origin destination ho hd
  have hrev := distances_direct destination origin hd ho
  unfold estimateFlightDistance
  simp only [hdir, hrev]
  by_cases h1 : origin = "JFK" ∧ destination = "LAX"
  · obtain ⟨rfl, rfl⟩ := h1
    simp [routeDistance, tabulatedRoutes, List.find?, Lookup.truthyNum]
  by_cases h2 : origin = "JFK" ∧ destination = "LHR"
  · obtain ⟨rfl, rfl⟩ := h2
    simp [routeDistance, tabulatedRoutes, List.find?, Lookup.truthyNum]
  by_cases h3 : origin = "LAX" ∧ destination = "SFO"
  · obtain ⟨rfl, rfl⟩ := h3
    simp [routeDistance, tabulatedRoutes, List.find?, Lookup.truthyNum]
  by_cases h4 : origin = "LAS" ∧ destination = "DFW"
  · obtain ⟨rfl, rfl⟩ := h4
    simp [routeDistance, tabulatedRoutes, List.find?, Lookup.truthyNum]
  by_cases h5 : origin = "ORD" ∧ destination = "LAX"
  · obtain ⟨rfl, rfl⟩ := h5
    simp [routeDistance, tabulatedRoutes, List.find?, Lookup.truthyNum]
  by_cases h6 : destination = "JFK" ∧ origin = "LAX"
  · obtain ⟨rfl, rfl⟩ := h6
    simp [routeDistance, tabulatedRoutes, List.find?, Lookup.truthyNum]
  by_cases h7 : destination = "JFK" ∧ origin = "LHR"
  · obtain ⟨rfl, rfl⟩ := h7
    simp [routeDistance, tabulatedRoutes, List.find?, Lookup.truthyNum]
  by_cases h8 : destination = "LAX" ∧ origin = "SFO"
  · obtain ⟨rfl, rfl⟩ := h8
    simp [routeDistance, tabulatedRoutes, List.find?, Lookup.truthyNum]
  by_cases h9 : destination = "LAS" ∧ origin = "DFW"
  · obtain ⟨rfl, rfl⟩ := h9
    simp [routeDistance, tabulatedRoutes, List.find?, Lookup.truthyNum]
  by_cases h10 : destination = "ORD" ∧ origin = "LAX"
  · obtain ⟨rfl, rfl⟩ := h10
    simp [routeDistance, tabulatedRoutes, List.find?, Lookup.truthyNum]
  have g1 : ¬ ("JFK" = origin ∧ "LAX" = destination) := fun h => h1 ⟨h.1.symm, h.2.symm⟩
  have g2 : ¬ ("JFK" = origin ∧ "LHR" = destination) := fun h => h2 ⟨h.1.symm, h.2.symm⟩
  have g3 : ¬ ("LAX" = origin ∧ "SFO" = destination) := fun h => h3 ⟨h.1.symm, h.2.symm⟩
  have g4 : ¬ ("LAS" = origin ∧ "DFW" = destination) := fun h => h4 ⟨h.1.symm, h.2.symm⟩
  have g5 : ¬ ("ORD" = origin ∧ "LAX" = destination) := fun h => h5 ⟨h.1.symm, h.2.symm⟩
  have g6 : ¬ ("JFK" = destination ∧ "LAX" = origin) := fun h => h6 ⟨h.1.symm, h.2.symm⟩
  have g7 : ¬ ("JFK" = destination ∧ "LHR" = origin) := fun h => h7 ⟨h.1.symm, h.2.symm⟩
  have g8 : ¬ ("LAX" = destination ∧ "SFO" = origin) := fun h => h8 ⟨h.1.symm, h.2.symm⟩
  have g9 : ¬ ("LAS" = destination ∧ "DFW" = origin) := fun h => h9 ⟨h.1.symm, h.2.symm⟩
  have g10 : ¬ ("ORD" = destination ∧ "LAX" = origin) := fun h => h10 ⟨h.1.symm, h.2.symm⟩
  simp only [h1, h2, h3, h4, h5, h6, h7, h8, h9, h10, if_false, Lookup.truthyNum,
    Bool.false_eq_true, routeDistance, tabulatedRoutes, List.find?, Prod.mk.injEq,
    g1, g2, g3, g4, g5, g6, g7, g8, g9, g10, or_self, decide_False]

theorem routeDistance_comm (origin destination : String) :
    routeDistance origin destination = routeDistance destination origin := by
  unfold routeDistance
  have h : (fun r : (String × String) × ℚ =>
      decide (r.1 = (origin, destination) ∨ r.1 = (destination, origin))) =
      (fun r => decide (r.1 = (destination, origin) ∨ r.1 = (origin, destination))) := by
    funext r
    simp only [or_comm]
  rw [h]

theorem routeDistance_pos (origin destination : String) :
    0 < routeDistance origin destination := by
  unfold routeDistance
  cases h : tabulatedRoutes.find?
      (fun r => decide (r.1 = (origin, destination) ∨ r.1 = (destination, origin))) with
  | none => norm_num
  | some r =>
    have hm : r ∈ tabulatedRoutes := List.mem_of_find?_eq_some h
    simp only [tabulatedRoutes, List.mem_cons, List.mem_singleton, List.not_mem_nil,
      or_false] at hm
    rcases hm with rfl | rfl | rfl | rfl | rfl <;> norm_num

/-- C25: for codes of three characters `estimateFlightDistance` returns the tabulated
distance when the pair is one of the five routes in either direction and 1500 otherwise;
it is symmetric and positive. -/
theorem estimateFlightDistance_routes (origin destination : String)
    (ho : origin.length = 3) (hd : destination.length = 3) :
    estimateFlightDistance origin destination = .value (routeDistance origin destination) ∧
      estimateFlightDistance origin destination = estimateFlightDistance destination origin ∧
      0 < routeDistance origin destination := by
  refine ⟨estimateFlightDistance_eq_route origin destination ho hd, ?_,
    routeDistance_pos origin destination⟩
  rw [estimateFlightDistance_eq_route origin destination ho hd,
    estimateFlightDistance_eq_route destination origin hd ho, routeDistance_comm]

/-- C25 on the route from LAX to JFK, tabulated as JFK to LAX, and on JFK to BOS, which is
not tabulated. -/
theorem estimateFlightDistance_routes_witness :
    estimateFlightDistance "LAX" "JFK" = .value 3983 ∧
      estimateFlightDistance "JFK" "BOS" = .value 1500 := by
  have h1 := (estimateFlightDistance_routes "LAX" "JFK" (by decide) (by decide)).1
  have h2 := (estimateFlightDistance_routes "JFK" "BOS" (by decide) (by decide)).1
  have r1 : routeDistance "LAX" "JFK" = 3983 := by
    simp [routeDistance, tabulatedRoutes, List.find?]
  have r2 : routeDistance "JFK" "BOS" = 1500 := by
    simp [routeDistance, tabulatedRoutes, List.find?]
  rw [r1] at h1
  rw [r2] at h2
  exact ⟨h1, h2⟩

/-! ## Layover -/

theorem floor_div_hour (n : ℤ) : ⌊(n : ℚ) / (1000 * 60 * 60)⌋ = n / 3600000 := by
  have h : ((1000 : ℚ) * 60 * 60) = ((3600000 : ℕ) : ℚ) := by norm_num
  rw [h, Rat.floor_intCast_div_natCast]
  rfl

theorem floor_div_minute (n : ℤ) : ⌊(n : ℚ) / (1000 * 60)⌋ = n / 60000 := by
  have h : ((1000 : ℚ) * 60) = ((60000 : ℕ) : ℚ) := by norm_num
  rw [h, Rat.floor_intCast_div_natCast]
  rfl

/-- C27: when the next departure is not earlier than the previous arrival, the layover has
`0 <= minutes < 60`, `hours >= 0` and `hours * 60 + minutes` equal to the whole minutes
between arrival and departure, and its airport is the arrival airport of the earlier
segment. -/
theorem calculateLayover_spec (dateOf : Option String → Option ℤ) (segment1 segment2 : Segment)
    (arrival departure : ℤ) (ha : dateOf segment1.arrival.atTime = some arrival)
    (hd : dateOf segment2.departure.atTime = some departure) (hle : arrival ≤ departure) :
    ∃ hours minutes : ℤ,
      (calculateLayover dateOf segment1 segment2).hours = some hours ∧
      (calculateLayover dateOf segment1 segment2).minutes = some minutes ∧
      0 ≤ minutes ∧ minutes < 60 ∧ 0 ≤ hours ∧
      hours * 60 + minutes = ⌊((departure - arrival : ℤ) : ℚ) / 60000⌋ ∧
      (calculateLayover dateOf segment1 segment2).airport = segment1.arrival.iataCode := by
  have h0 : 0 ≤ departure - arrival := by omega
  have hmod : Int.tmod (departure - arrival) (1000 * 60 * 60) =
      (departure - arrival) % 3600000 := by
    rw [Int.tmod_eq_emod h0 (by norm_num)]
    rfl
  have hmin : ⌊((departure - arrival : ℤ) : ℚ) / 60000⌋ = (departure - arrival) / 60000 := by
    have h : (60000 : ℚ) = ((60000 : ℕ) : ℚ) := by norm_num
    rw [h, Rat.floor_intCast_div_natCast]
    rfl
  refine ⟨(departure - arrival) / 3600000, (departure - arrival) % 3600000 / 60000, ?_, ?_,
    ?_, ?_, ?_, ?_, ?_⟩
  · simp only [calculateLayover, ha, hd, floor_div_hour]
  · simp only [calculateLayover, ha, hd, hmod, floor_div_minute]
  · omega
  · omega
  · omega
  · rw [hmin]
    omega
  · simp only [calculateLayover, ha, hd]

/-- C27 on an arrival at LHR on 2030-01-01 and a departure on 2030-01-02, both at midnight
UTC: a layover of 24 hours and 0 minutes at LHR. -/
theorem calculateLayover_spec_witness :
    calculateLayover sampleDateOf (segmentAt "LHR" "2030-01-01" "2030-01-01")
        (segmentAt "CDG" "2030-01-02" "2030-01-02") =
      { hours := some 24, minutes := some 0, airport := some "LHR" } := by
  have h1 : sampleDateOf (segmentAt "LHR" "2030-01-01" "2030-01-01").arrival.atTime =
      some (21915 * 86400000) := by decide
  have h2 : sampleDateOf (segmentAt "CDG" "2030-01-02" "2030-01-02").departure.atTime =
      some (21916 * 86400000) := by decide
  obtain ⟨hours, minutes, hh, hm, m0, m60, _, hsum, hair⟩ :=
    calculateLayover_spec sampleDateOf (segmentAt "LHR" "2030-01-01" "2030-01-01")
      (segmentAt "CDG" "2030-01-02" "2030-01-02") _ _ h1 h2 (by norm_num)
  have hfloor : ⌊((21916 * 86400000 - 21915 * 86400000 : ℤ) : ℚ) / 60000⌋ = 1440 := by
    rw [Int.floor_eq_iff]; norm_num
  rw [hfloor] at hsum
  have hcalc : (calculateLayover sampleDateOf (segmentAt "LHR" "2030-01-01" "2030-01-01")
      (segmentAt "CDG" "2030-01-02" "2030-01-02")).hours = some 24 := by
    simp only [calculateLayover, h1, h2, floor_div_hour]
    norm_num
  have hh24 : hours = 24 := by
    rw [hcalc] at hh
    exact (Option.some.inj hh).symm
  have hm0 : minutes = 0 := by omega
  have e : ∀ l : Layover, l = { hours := l.hours, minutes := l.minutes, airport := l.airport } :=
    fun l => rfl
  rw [e (calculateLayover _ _ _), hh, hm, hair, hh24, hm0]
  rfl

/-! ## Duration tokens -/

theorem digitsValue_foldl (ds : List Char) (a : ℕ) :
    ds.foldl (fun n c => 10 * n + (c.toNat - 48)) a = a * 10 ^ ds.length + digitsValue ds := by
  induction ds generalizing a with
  | nil => simp [digitsValue]
  | cons d rest ih =>
    simp only [List.foldl_cons, digitsValue, List.length_cons]
    rw [ih, ih (10 * 0 + (d.toNat - 48))]
    ring

theorem digitsValue_cons (d : Char) (ds : List Char) :
    digitsValue (d :: ds) = (d.toNat - 48) * 10 ^ ds.length + digitsValue ds := by
  simp only [digitsValue, List.foldl_cons]
  rw [digitsValue_foldl]
  simp [digitsValue]

theorem digitChar_value : ∀ k, k < 10 → (Nat.digitChar k).toNat - 48 = k := by
  decide

theorem digitChar_isDigit : ∀ k, k < 10 → (Nat.digitChar k).isDigit = true := by
  decide

theorem toDigitsCore_spec (fuel : ℕ) :
    ∀ (n : ℕ) (ds : List Char), n < fuel → (∀ c ∈ ds, c.isDigit = true) →
      digitsValue (Nat.toDigitsCore 10 fuel n ds) = n * 10 ^ ds.length + digitsValue ds ∧
      (∀ c ∈ Nat.toDigitsCore 10 fuel n ds, c.isDigit = true) ∧
      Nat.toDigitsCore 10 fuel n ds ≠ [] := by
  induction fuel with
  | zero => intro n ds h; omega
  | succ fuel ih =>
    intro n ds hn hds
    have hmod : n % 10 < 10 := Nat.mod_lt n (by norm_num)
    have hall : ∀ c ∈ Nat.digitChar (n % 10) :: ds, c.isDigit = true := by
      intro c hc
      rcases List.mem_cons.mp hc with rfl | hc
      · exact digitChar_isDigit _ hmod
      · exact hds c hc
    unfold Nat.toDigitsCore
    by_cases h0 : n / 10 = 0
    · simp only [h0, if_true]
      refine ⟨?_, hall, List.cons_ne_nil _ _⟩
      rw [digitsValue_cons, digitChar_value _ hmod]
      have : n % 10 = n := by omega
      rw [this]
    · simp only [h0, if_false]
      have hlt : n / 10 < fuel := by omega
      obtain ⟨h1, h2, h3⟩ := ih (n / 10) (Nat.digitChar (n % 10) :: ds) hlt hall
      refine ⟨?_, h2, h3⟩
      rw [h1, digitsValue_cons, digitChar_value _ hmod, List.length_cons, pow_succ]
      have hn2 : n = 10 * (n / 10) + n % 10 := by omega
      generalize n / 10 = q at hn2 ⊢
      generalize n % 10 = r at hn2 ⊢
      rw [hn2]
      ring

theorem toString_digits (n : ℕ) :
    digitsValue (toString n).data = n ∧ (∀ c ∈ (toString n).data, c.isDigit = true) ∧
      (toString n).data ≠ [] := by
  have h := toDigitsCore_spec (n + 1) n [] (by omega) (by simp)
  have e : (toString n).data = Nat.toDigitsCore 10 (n + 1) n [] := rfl
  rw [e]
  refine ⟨?_, h.2.1, h.2.2⟩
  rw [h.1]
  simp [digitsValue]

theorem matchGroup_hit (unit : Char) (ds tl : List Char) (hu : unit.isDigit = false)
    (hds : ∀ c ∈ ds, c.isDigit = true) (hne : ds ≠ []) :
    matchGroup unit (ds ++ unit :: tl) = (some ds, tl) := by
  have h1 : (ds ++ unit :: tl).takeWhile Char.isDigit = ds := by
    rw [List.takeWhile_append_of_pos hds, List.takeWhile_cons, hu]
    simp
  have h2 : (ds ++ unit :: tl).dropWhile Char.isDigit = unit :: tl := by
    rw [List.dropWhile_append_of_pos hds, List.dropWhile_cons, hu]
    simp
  simp [matchGroup, h1, h2, hne]

theorem matchGroup_miss (unit other : Char) (ds tl : List Char) (ho : other.isDigit = false)
    (hne : other ≠ unit) (hds : ∀ c ∈ ds, c.isDigit = true) :
    matchGroup unit (ds ++ other :: tl) = (none, ds ++ other :: tl) := by
  have h2 : (ds ++ other :: tl).dropWhile Char.isDigit = other :: tl := by
    rw [List.dropWhile_append_of_pos hds, List.dropWhile_cons, ho]
    simp
  simp [matchGroup, h2, hne]

theorem matchGroup_nil (unit : Char) : matchGroup unit [] = (none, []) := by
  simp [matchGroup]

theorem durationMatch_tokens (hs ms : List Char) (hh : ∀ c ∈ hs, c.isDigit = true)
    (hm : ∀ c ∈ ms, c.isDigit = true) (hhne : hs ≠ []) (hmne : ms ≠ []) :
    durationMatch ('P' :: 'T' :: (hs ++ 'H' :: (ms ++ ['M']))) = some (some hs, some ms) ∧
      durationMatch ('P' :: 'T' :: (hs ++ ['H'])) = some (some hs, none) ∧
      durationMatch ('P' :: 'T' :: (ms ++ ['M'])) = some (none, some ms) := by
  refine ⟨?_, ?_, ?_⟩
  · simp [durationMatch, matchGroup_hit 'H' hs _ (by decide) hh hhne,
      matchGroup_hit 'M' ms _ (by decide) hm hmne]
  · simp [durationMatch, matchGroup_hit 'H' hs _ (by decide) hh hhne, matchGroup_nil]
  · simp [durationMatch, matchGroup_miss 'H' 'M' ms [] (by decide) (by decide) hm,
      matchGroup_hit 'M' ms _ (by decide) hm hmne]

theorem getDurationMinutes_of_match (f : Flight) (segments : Option (List Segment))
    (rest : List Itinerary) (cs : List Char) (g1 g2 : Option (List Char))
    (hm : durationMatch cs = some (g1, g2)) :
    getDurationMinutes
        { f with itineraries := { duration := some (String.mk cs), segments := segments } :: rest }
      = binary64 (binary64 (parseGroup g1 * 60) + parseGroup g2) := by
  have hne : String.mk cs ≠ "" := by
    intro h
    have h2 : cs = [] := congrArg String.data h
    rw [h2] at hm
    simp [durationMatch] at hm
  simp [getDurationMinutes, hne, hm]

/-- The duration tokens read by the ranking are understood for digits of any length,
leading zeros included, as long as the minutes stay below `2^53`: `PT<hs>H<ms>M` counts
`60 * hs + ms` minutes, `PT<hs>H` counts `60 * hs` and `PT<ms>M` counts `ms`. -/
theorem getDurationMinutes_digits (f : Flight) (segments : Option (List Segment))
    (rest : List Itinerary) (hs ms : List Char) (hh : ∀ c ∈ hs, c.isDigit = true)
    (hm : ∀ c ∈ ms, c.isDigit = true) (hhne : hs ≠ []) (hmne : ms ≠ [])
    (hb : digitsValue hs * 60 + digitsValue ms < 2 ^ 53) :
    getDurationMinutes { f with itineraries :=
        { duration := some (String.mk ('P' :: 'T' :: (hs ++ 'H' :: (ms ++ ['M'])))),
          segments := segments } :: rest } = 60 * digitsValue hs + digitsValue ms ∧
    getDurationMinutes { f with itineraries :=
        { duration := some (String.mk ('P' :: 'T' :: (hs ++ ['H']))),
          segments := segments } :: rest } = 60 * digitsValue hs ∧
    getDurationMinutes { f with itineraries :=
        { duration := some (String.mk ('P' :: 'T' :: (ms ++ ['M']))),
          segments := segments } :: rest } = digitsValue ms := by
  obtain ⟨h1, h2, h3⟩ := durationMatch_tokens hs ms hh hm hhne hmne
  have ph : parseGroup (some hs) = digitsValue hs :=
    parseGroup_of_value _ _ rfl (by omega)
  have pm : parseGroup (some ms) = digitsValue ms :=
    parseGroup_of_value _ _ rfl (by omega)
  have p0 : parseGroup none = ((0 : ℕ) : ℚ) := by simp [parseGroup]
  refine ⟨?_, ?_, ?_⟩
  · rw [getDurationMinutes_of_match f segments rest _ _ _ h1, ph, pm,
      minutes_exact _ _ hb]
    push_cast
    ring
  · rw [getDurationMinutes_of_match f segments rest _ _ _ h2, ph, p0,
      minutes_exact _ _ (by omega)]
    push_cast
    ring
  · rw [getDurationMinutes_of_match f segments rest _ _ _ h3, p0, pm,
      minutes_exact _ _ (by omega)]
    push_cast
    ring

theorem token_data (h m : ℕ) :
    ("PT" ++ toString h ++ "H" ++ toString m ++ "M" : String) =
        String.mk ('P' :: 'T' :: ((toString h).data ++ 'H' :: ((toString m).data ++ ['M']))) ∧
      ("PT" ++ toString h ++ "H" : String) =
        String.mk ('P' :: 'T' :: ((toString h).data ++ ['H'])) ∧
      ("PT" ++ toString m ++ "M" : String) =
        String.mk ('P' :: 'T' :: ((toString m).data ++ ['M'])) := by
  refine ⟨?_, ?_, ?_⟩ <;> apply String.ext <;> simp [String.data_append]

theorem binary64_above_two_pow_53 :
    binary64 9007199254740993 = 9007199254740992 ∧
      binary64 ((9007199254740992 : ℚ) * 60) = 540431955284459520 ∧
      binary64 ((540431955284459520 : ℚ) + 0) = 540431955284459520 := by
  refine ⟨?_, ?_, ?_⟩
  · rw [binary64_eval 9007199254740993 53 4503599627370496 (by norm_num)
      (by norm_num [abs_of_pos]) (by norm_num [abs_of_pos])
      (roundHalfEven_tie _ _ (by norm_num) (by norm_num))]
    norm_num
  · rw [binary64_eval _ 58 8444249301319680 (by norm_num)
      (by norm_num [abs_of_pos]) (by norm_num [abs_of_pos])
      (roundHalfEven_of_near _ _ (by norm_num))]
    norm_num
  · rw [binary64_eval _ 58 8444249301319680 (by norm_num)
      (by norm_num [abs_of_pos]) (by norm_num [abs_of_pos])
      (roundHalfEven_of_near _ _ (by norm_num))]
    norm_num

/-- C21 as stated fails for digits beyond `2^53`: the hours of `PT9007199254740993H` are
read as the double `9007199254740992` and the token counts `540431955284459520` minutes,
not `60 * 9007199254740993 = 540431955284459580`. -/
theorem getDurationMinutes_tokens_counterexample :
    ("PT" ++ toString 9007199254740993 ++ "H" : String) = "PT9007199254740993H" ∧
      getDurationMinutes (flightOf 0 "WN" 500 0 (some "PT9007199254740993H")) =
        540431955284459520 ∧
      (540431955284459520 : ℚ) ≠ 60 * 9007199254740993 := by
  refine ⟨by decide, ?_, by norm_num⟩
  rw [getDurationMinutes_flightOf_match _ _ _ _ "PT9007199254740993H"
    (some ['9', '0', '0', '7', '1', '9', '9', '2', '5', '4', '7', '4', '0', '9', '9', '3'], none)
    (by decide) (by decide)]
  have hv : digitsValue
      ['9', '0', '0', '7', '1', '9', '9', '2', '5', '4', '7', '4', '0', '9', '9', '3'] =
      9007199254740993 := by decide
  simp only [parseGroup, hv]
  obtain ⟨h1, h2, h3⟩ := binary64_above_two_pow_53
  have h1b : binary64 ((9007199254740993 : ℕ) : ℚ) = 9007199254740992 := by
    simpa using h1
  rw [h1b, h2, h3]

/-- C21, amended: for all natural numbers `h` and `m` written in decimal with
`60 * h + m` below `2^53`, the ranking's `getDurationMinutes` counts `60 * h + m` minutes
for `PT<h>H<m>M`, `60 * h` for `PT<h>H` and `m` for `PT<m>M`; the token `PT2H30M` of the
code comment counts 150. -/
theorem getDurationMinutes_tokens (f : Flight) (segments : Option (List Segment))
    (rest : List Itinerary) (h m : ℕ) (hb : 60 * h + m < 2 ^ 53) :
    getDurationMinutes { f with itineraries :=
        { duration := some ("PT" ++ toString h ++ "H" ++ toString m ++ "M"),
          segments := segments } :: rest } = 60 * h + m ∧
    getDurationMinutes { f with itineraries :=
        { duration := some ("PT" ++ toString h ++ "H"), segments := segments } :: rest }
      = 60 * h ∧
    getDurationMinutes { f with itineraries :=
        { duration := some ("PT" ++ toString m ++ "M"), segments := segments } :: rest }
      = m ∧
    getDurationMinutes (flightOf 0 "WN" 500 0 (some "PT2H30M")) = 150 := by
  obtain ⟨vh, dh, nh⟩ := toString_digits h
  obtain ⟨vm, dm, nm⟩ := toString_digits m
  obtain ⟨e1, e2, e3⟩ := token_data h m
  obtain ⟨g1, g2, g3⟩ := getDurationMinutes_digits f segments rest _ _ dh dm nh nm
    (by rw [vh, vm]; omega)
  rw [vh, vm] at g1
  rw [vh] at g2
  rw [vm] at g3
  rw [e1, e2, e3]
  refine ⟨g1, g2, g3, ?_⟩
  rw [getDurationMinutes_flightOf _ _ _ _ "PT2H30M" (some ['2'], some ['3', '0']) 2 30
    (by decide) (by decide) (by decide) (by decide) (by norm_num)]
  norm_num

/-- C21, amended, on `h = 2` and `m = 30`: the token is `PT2H30M` and counts 150. -/
theorem getDurationMinutes_tokens_witness :
    60 * 2 + 30 < 2 ^ 53 ∧
      ("PT" ++ toString 2 ++ "H" ++ toString 30 ++ "M" : String) = "PT2H30M" ∧
      getDurationMinutes { flightA with itineraries :=
        [{ duration := some ("PT" ++ toString 2 ++ "H" ++ toString 30 ++ "M"),
           segments := none }] } = 150 := by
  refine ⟨by norm_num, by decide, ?_⟩
  have h := (getDurationMinutes_tokens flightA none [] 2 30 (by norm_num)).1
  rw [h]
  norm_num

/-! ## Results page: duration and sort -/

/-- C28, the failing inputs: for `PT2H30M` the page removes `PT` and the first `H` and
reads the hours from `230M`, so it computes `230 * 60 + 30 = 13830` where the server counts
150; for `PT45M` it reads 45 as hours and computes 2700 where the server counts 45.  The
two agree on `PT5H`. -/
theorem displayDuration_mismatch :
    displayDuration "PT2H30M" = some 13830 ∧
      getDurationMinutes (flightOf 0 "WN" 500 0 (some "PT2H30M")) = 150 ∧
      displayDuration "PT45M" = some 2700 ∧
      getDurationMinutes (flightOf 0 "WN" 500 0 (some "PT45M")) = 45 ∧
      displayDuration "PT5H" = some 300 ∧
      getDurationMinutes (flightOf 0 "WN" 500 0 (some "PT5H")) = 300 := by
  refine ⟨by decide, ?_, by decide, ?_, by decide, ?_⟩
  · rw [getDurationMinutes_flightOf _ _ _ _ "PT2H30M" (some ['2'], some ['3', '0']) 2 30
      (by decide) (by decide) (by decide) (by decide) (by norm_num)]
    norm_num
  · rw [getDurationMinutes_flightOf _ _ _ _ "PT45M" (none, some ['4', '5']) 0 45
      (by decide) (by decide) (by decide) (by decide) (by norm_num)]
    norm_num
  · rw [getDurationMinutes_flightOf _ _ _ _ "PT5H" (some ['5'], none) 5 0 (by decide)
      (by decide) (by decide) (by decide) (by norm_num)]
    norm_num

theorem sortedInsert_pairwise {α : Type} (comparator : α → α → ℚ) (R : α → α → Prop)
    (P : α → Prop)
    (hle : ∀ x y, P x → P y → comparator x y ≤ 0 → R x y)
    (hgt : ∀ x y, P x → P y → ¬ comparator x y ≤ 0 → R y x)
    (htrans : ∀ x y z, P x → P y → P z → R x y → R y z → R x z)
    (x : α) (hx : P x) (l : List α) (hP : ∀ a ∈ l, P a) (hl : l.Pairwise R) :
    (sortedInsert comparator x l).Pairwise R := by
  induction l with
  | nil => simp [sortedInsert]
  | cons y ys ih =>
    have hy : ∀ z ∈ ys, R y z := (List.pairwise_cons.mp hl).1
    have hys : ys.Pairwise R := (List.pairwise_cons.mp hl).2
    have hPy : P y := hP y (List.mem_cons_self y ys)
    have hPys : ∀ a ∈ ys, P a := fun a ha => hP a (List.mem_cons_of_mem y ha)
    unfold sortedInsert
    by_cases h : comparator x y ≤ 0
    · rw [if_pos h]
      have hxy : R x y := hle x y hx hPy h
      refine List.pairwise_cons.mpr ⟨?_, hl⟩
      intro z hz
      rcases List.mem_cons.mp hz with rfl | hz
      · exact hxy
      · exact htrans x y z hx hPy (hPys z hz) hxy (hy z hz)
    · rw [if_neg h]
      refine List.pairwise_cons.mpr ⟨?_, ih hPys hys⟩
      intro z hz
      rcases List.mem_cons.mp ((sortedInsert_perm comparator x ys).mem_iff.mp hz) with rfl | hz
      · exact hgt _ y hx hPy h
      · exact hy z hz

theorem arraySort_pairwise {α : Type} (comparator : α → α → ℚ) (R : α → α → Prop)
    (P : α → Prop)
    (hle : ∀ x y, P x → P y → comparator x y ≤ 0 → R x y)
    (hgt : ∀ x y, P x → P y → ¬ comparator x y ≤ 0 → R y x)
    (htrans : ∀ x y z, P x → P y → P z → R x y → R y z → R x z)
    (l : List α) (hP : ∀ a ∈ l, P a) : (arraySort comparator l).Pairwise R := by
  induction l with
  | nil => simp [arraySort]
  | cons x xs ih =>
    unfold arraySort
    have hPxs : ∀ a ∈ xs, P a := fun a ha => hP a (List.mem_cons_of_mem x ha)
    exact sortedInsert_pairwise comparator R P hle hgt htrans x (hP x (List.mem_cons_self x xs))
      _ (fun a ha => hPxs a ((arraySort_perm comparator xs).mem_iff.mp ha)) (ih hPxs)

/-- The comparator of `sortedFlights` on two flights whose stops differ. -/
theorem compareDisplayed_stops (sortBy : String) (a b : DisplayedFlight)
    (h : a.stops ≠ b.stops) : (compareDisplayed sortBy a b).orZero = a.stops - b.stops := by
  have hd : a.stops - b.stops ≠ 0 := sub_ne_zero.mpr h
  simp [compareDisplayed, hd, Num.orZero]

/-- The comparator of `sortedFlights` on two flights with equal stops whose chosen key is a
number: the difference of the keys. -/
theorem compareDisplayed_key (sortBy : String) (a b : DisplayedFlight)
    (h : a.stops = b.stops)
    (ha : sortBy = "duration" → a.duration ≠ none)
    (hb : sortBy = "duration" → b.duration ≠ none) :
    (compareDisplayed sortBy a b).orZero = sortKey sortBy a - sortKey sortBy b := by
  have hd : a.stops - b.stops = 0 := sub_eq_zero.mpr h
  by_cases hp : sortBy = "price"
  · simp [compareDisplayed, hd, Num.orZero, sortKey, hp]
  · by_cases hdur : sortBy = "duration"
    · have ha := ha hdur
      have hb := hb hdur
      cases hda : a.duration with
      | none => exact absurd hda ha
      | some x =>
        cases hdb : b.duration with
        | none => exact absurd hdb hb
        | some y => simp [compareDisplayed, hd, Num.orZero, sortKey, hdur, hda, hdb]
    · by_cases he : sortBy = "emissions"
      · simp [compareDisplayed, hd, Num.orZero, sortKey, he]
      · simp [compareDisplayed, hd, Num.orZero, sortKey, hp, hdur, he]

/-- Stops never decrease along `sortedFlights`, whatever the sort choice and the keys. -/
theorem sortedFlights_stops (sortBy : String) (flights : List DisplayedFlight) :
    (sortedFlights sortBy flights).Perm flights ∧
      (sortedFlights sortBy flights).Pairwise (fun a b => a.stops ≤ b.stops) := by
  refine ⟨arraySort_perm _ _, ?_⟩
  refine arraySort_pairwise _ _ (fun _ => True) ?_ ?_ ?_ flights (fun _ _ => trivial)
  · intro x y _ _ h
    by_cases hs : x.stops = y.stops
    · exact le_of_eq hs
    · rw [compareDisplayed_stops sortBy x y hs] at h
      linarith
  · intro x y _ _ h
    by_cases hs : x.stops = y.stops
    · exact le_of_eq hs.symm
    · rw [compareDisplayed_stops sortBy x y hs] at h
      linarith
  · intro x y z _ _ _ hxy hyz
    exact le_trans hxy hyz

/-- Where the chosen key of every flight is a number — always for price and emissions, and
for duration when no duration is `NaN` — `sortedFlights` is a permutation in which stops
never decrease and, among equal stops, the chosen key never decreases. -/
theorem sortedFlights_ordered (sortBy : String) (flights : List DisplayedFlight)
    (hnum : sortBy = "duration" → ∀ f ∈ flights, f.duration ≠ none) :
    (sortedFlights sortBy flights).Perm flights ∧
      (sortedFlights sortBy flights).Pairwise (fun a b => a.stops ≤ b.stops) ∧
      (sortedFlights sortBy flights).Pairwise
        (fun a b => a.stops = b.stops → sortKey sortBy a ≤ sortKey sortBy b) := by
  refine ⟨arraySort_perm _ _, (sortedFlights_stops sortBy flights).2, ?_⟩
  have hlex : (sortedFlights sortBy flights).Pairwise
      (fun a b => a.stops < b.stops ∨ (a.stops = b.stops ∧ sortKey sortBy a ≤ sortKey sortBy b)) := by
    refine arraySort_pairwise _ _ (fun f => sortBy = "duration" → f.duration ≠ none) ?_ ?_ ?_
      flights (fun f hf hd => hnum hd f hf)
    · intro x y hx hy h
      by_cases hs : x.stops = y.stops
      · rw [compareDisplayed_key sortBy x y hs hx hy] at h
        exact Or.inr ⟨hs, by linarith⟩
      · rw [compareDisplayed_stops sortBy x y hs] at h
        exact Or.inl (lt_of_le_of_ne (by linarith) hs)
    · intro x y hx hy h
      by_cases hs : x.stops = y.stops
      · rw [compareDisplayed_key sortBy x y hs hx hy] at h
        exact Or.inr ⟨hs.symm, by linarith⟩
      · rw [compareDisplayed_stops sortBy x y hs] at h
        exact Or.inl (by linarith)
    · intro x y z _ _ _ hxy hyz
      rcases hxy with hxy | ⟨hxy, kxy⟩
      · rcases hyz with hyz | ⟨hyz, _⟩
        · exact Or.inl (lt_trans hxy hyz)
        · exact Or.inl (hyz ▸ hxy)
      · rcases hyz with hyz | ⟨hyz, kyz⟩
        · exact Or.inl (hxy ▸ hyz)
        · exact Or.inr ⟨hxy.trans hyz, le_trans kxy kyz⟩
  refine hlex.imp ?_
  intro a b h hs
  rcases h with h | ⟨_, h⟩
  · exact absurd hs (ne_of_lt h)
  · exact h

theorem sortedFlights_ordered_example :
    (sortedFlights "price"
        [{ id := some "x", stops := 1, price := 90, duration := some 100, co2 := 40 },
         { id := some "y", stops := 0, price := 300, duration := none, co2 := 80 },
         { id := some "z", stops := 0, price := 120, duration := some 60, co2 := 70 }]) =
      [{ id := some "z", stops := 0, price := 120, duration := some 60, co2 := 70 },
       { id := some "y", stops := 0, price := 300, duration := none, co2 := 80 },
       { id := some "x", stops := 1, price := 90, duration := some 100, co2 := 40 }] := by
  norm_num [sortedFlights, arraySort, sortedInsert, compareDisplayed, Num.orZero]

/-- C22, the failing input: the page computes `NaN` for the duration token `P1DT2H`, and a
`NaN` duration is neither below nor above any other, so no arrangement of a list holding
such a flight and another with the same stops has its durations non-decreasing.  With the
sort choice `duration` the comparator yields `NaN` against that flight, which the sort
takes for 0: three flights without stops of 300, `NaN` and 180 minutes are left as they
stand, 300 before 180. -/
theorem sortedFlights_nan_duration :
    displayDuration "P1DT2H" = none ∧ displayDuration "PT3H" = some 180 ∧
      displayDuration "PT5H" = some 300 ∧
      (∀ l : List DisplayedFlight,
        l.Perm [displayedWith "a" "P1DT2H", displayedWith "b" "PT3H"] →
          ¬ l.Pairwise (fun x y => x.stops = y.stops → numberLe x.duration y.duration)) ∧
      sortedFlights "duration"
          [displayedWith "c" "PT5H", displayedWith "a" "P1DT2H", displayedWith "b" "PT3H"] =
        [displayedWith "c" "PT5H", displayedWith "a" "P1DT2H", displayedWith "b" "PT3H"] := by
  have h1 : displayDuration "P1DT2H" = none := by decide
  have h3 : displayDuration "PT3H" = some 180 := by decide
  have h5 : displayDuration "PT5H" = some 300 := by decide
  refine ⟨h1, h3, h5, ?_, ?_⟩
  · intro l hp hpw
    have hlen := hp.length_eq
    match l, hlen with
    | [x, y], _ =>
      have hx : x ∈ [displayedWith "a" "P1DT2H", displayedWith "b" "PT3H"] :=
        hp.mem_iff.mp (by simp)
      have hy : y ∈ [displayedWith "a" "P1DT2H", displayedWith "b" "PT3H"] :=
        hp.mem_iff.mp (by simp)
      have ha : displayedWith "a" "P1DT2H" ∈ [x, y] := hp.mem_iff.mpr (by simp)
      have hxy : x.stops = y.stops → numberLe x.duration y.duration := by
        simpa using hpw
      have hsx : x.stops = 0 := by
        rcases List.mem_pair.mp hx with rfl | rfl <;> rfl
      have hsy : y.stops = 0 := by
        rcases List.mem_pair.mp hy with rfl | rfl <;> rfl
      have hle := hxy (hsx.trans hsy.symm)
      rcases List.mem_pair.mp ha with rfl | rfl
      · simp [displayedWith, h1, numberLe] at hle
      · cases hd : x.duration with
        | none => simp [displayedWith, h1, hd, numberLe] at hle
        | some v => simp [displayedWith, h1, hd, numberLe] at hle
  · simp [sortedFlights, arraySort, sortedInsert, compareDisplayed, Num.orZero, displayedWith,
      h1, h3, h5]

/-! ## Ties of the ranking in doubles -/

theorem sortedInsert_filter {α : Type} (key : α → ℚ) (comparator : α → α → ℚ)
    (hcmp : ∀ x y, comparator x y ≤ 0 ↔ key y ≤ key x) (v : ℚ) (x : α) (l : List α) :
    (sortedInsert comparator x l).filter (fun a => decide (key a = v)) =
      (x :: l).filter (fun a => decide (key a = v)) := by
  induction l with
  | nil => rfl
  | cons y ys ih =>
    unfold sortedInsert
    by_cases h : comparator x y ≤ 0
    · rw [if_pos h]
    · rw [if_neg h]
      have hlt : key x < key y := lt_of_not_le (fun hle => h ((hcmp x y).mpr hle))
      by_cases hx : key x = v
      · have hy : ¬ key y = v := by
          intro hy
          rw [hx, hy] at hlt
          exact lt_irrefl _ hlt
        simp only [List.filter_cons, hx, hy, decide_True, decide_False, if_true] at ih ⊢
        simpa using ih
      · simp only [List.filter_cons, hx, decide_False] at ih ⊢
        by_cases hy : key y = v
        · simp only [hy, decide_True, if_true]
          simpa using ih
        · simp only [hy, decide_False]
          simpa using ih

theorem arraySort_filter {α : Type} (key : α → ℚ) (comparator : α → α → ℚ)
    (hcmp : ∀ x y, comparator x y ≤ 0 ↔ key y ≤ key x) (v : ℚ) (l : List α) :
    (arraySort comparator l).filter (fun a => decide (key a = v)) =
      l.filter (fun a => decide (key a = v)) := by
  induction l with
  | nil => rfl
  | cons x xs ih =>
    unfold arraySort
    rw [sortedInsert_filter key comparator hcmp, List.filter_cons, List.filter_cons, ih]

theorem arraySort_of_descending {α : Type} (key : α → ℚ) (comparator : α → α → ℚ)
    (hcmp : ∀ x y, comparator x y ≤ 0 ↔ key y ≤ key x) (l : List α)
    (hl : l.Pairwise (fun a b => key b ≤ key a)) : arraySort comparator l = l := by
  induction l with
  | nil => rfl
  | cons x xs ih =>
    have hx : ∀ y ∈ xs, key y ≤ key x := (List.pairwise_cons.mp hl).1
    unfold arraySort
    rw [ih (List.pairwise_cons.mp hl).2]
    cases xs with
    | nil => rfl
    | cons y ys =>
      have h : comparator x y ≤ 0 := (hcmp x y).mpr (hx y (List.mem_cons_self y ys))
      simp [sortedInsert, h]

theorem arraySort_descending_of_sign {α : Type} (key : α → ℚ) (comparator : α → α → ℚ)
    (hcmp : ∀ x y, comparator x y ≤ 0 ↔ key y ≤ key x) (l : List α) :
    (arraySort comparator l).Pairwise (fun a b => key b ≤ key a) := by
  refine arraySort_pairwise comparator _ (fun _ => True) ?_ ?_ ?_ l (fun _ _ => trivial)
  · intro x y _ _ h
    exact (hcmp x y).mp h
  · intro x y _ _ h
    exact le_of_lt (lt_of_not_le (fun hle => h ((hcmp x y).mpr hle)))
  · intro x y z _ _ _ hxy hyz
    exact le_trans hyz hxy

/-- The comparator in doubles returns the rounded difference of the two scores. -/
theorem double_compareFlights_eq (a b : Flight) :
    Double.compareFlights a b = binary64 (Double.score b - Double.score a) := rfl

/-- The comparator in doubles is not positive exactly when the second flight does not
score higher than the first: a difference of two doubles does not round to zero. -/
theorem double_compareFlights_nonpos_iff (a b : Flight) :
    Double.compareFlights a b ≤ 0 ↔ Double.score b ≤ Double.score a := by
  rw [double_compareFlights_eq]
  exact binary64_sub_nonpos_iff _ _

theorem double_score_flightX : Double.score flightX = 8159792449074495 / 8796093022208 := by
  have hd : getDurationMinutes flightX = 120 := by
    rw [flightX, getDurationMinutes_flightOf _ _ _ _ "PT120M" (none, some ['1', '2', '0']) 0 120
      (by decide) (by decide) (by decide) (by decide) (by norm_num)]
    norm_num
  have hp : ¬ "WN" ∈ premiumAirlines := by decide
  have e0 : binary64 (1000) = 1000 := by
    rw [binary64_eval _ 9 8796093022208000 (by norm_num) (by norm_num [abs_of_pos])
      (by norm_num [abs_of_pos]) (roundHalfEven_of_near _ _ (by norm_num [abs_lt]))]
    norm_num
  have e1 : binary64 (12339 / 100) = 8682799344081961 / 70368744177664 := by
    rw [binary64_eval _ 6 8682799344081961 (by norm_num) (by norm_num [abs_of_pos])
      (by norm_num [abs_of_pos]) (roundHalfEven_of_near _ _ (by norm_num [abs_lt]))]
    norm_num
  have e2 : binary64 (8682799344081961 / 703687441776640) = 6946239475265569 / 562949953421312 := by
    rw [binary64_eval _ 3 6946239475265569 (by norm_num) (by norm_num [abs_of_pos])
      (by norm_num [abs_of_pos]) (roundHalfEven_of_near _ _ (by norm_num [abs_lt]))]
    norm_num
  have e3 : binary64 (556003713946046431 / 562949953421312) = 8687558030406975 / 8796093022208 := by
    rw [binary64_eval _ 9 8687558030406975 (by norm_num) (by norm_num [abs_of_pos])
      (by norm_num [abs_of_pos]) (roundHalfEven_of_near _ _ (by norm_num [abs_lt]))]
    norm_num
  have e4 : binary64 (8687558030406975 / 8796093022208) = 8687558030406975 / 8796093022208 := by
    rw [binary64_eval _ 9 8687558030406975 (by norm_num) (by norm_num [abs_of_pos])
      (by norm_num [abs_of_pos]) (roundHalfEven_of_near _ _ (by norm_num [abs_lt]))]
    norm_num
  have e5 : binary64 (60) = 60 := by
    rw [binary64_eval _ 5 8444249301319680 (by norm_num) (by norm_num [abs_of_pos])
      (by norm_num [abs_of_pos]) (roundHalfEven_of_near _ _ (by norm_num [abs_lt]))]
    norm_num
  have e6 : binary64 (8159792449074495 / 8796093022208) = 8159792449074495 / 8796093022208 := by
    rw [binary64_eval _ 9 8159792449074495 (by norm_num) (by norm_num [abs_of_pos])
      (by norm_num [abs_of_pos]) (roundHalfEven_of_near _ _ (by norm_num [abs_lt]))]
    norm_num
  unfold Double.score
  rw [hd]
  simp only [flightX, flightOf]
  norm_num [binary64_zero, hp, e0, e1, e2, e3, e4, e5, e6]

theorem double_score_flightY : Double.score flightY = 127496757016789 / 137438953472 := by
  have hd : getDurationMinutes flightY = 119 := by
    rw [flightY, getDurationMinutes_flightOf _ _ _ _ "PT119M" (none, some ['1', '1', '9']) 0 119
      (by decide) (by decide) (by decide) (by decide) (by norm_num)]
    norm_num
  have hp : ¬ "WN" ∈ premiumAirlines := by decide
  have e0 : binary64 (1000) = 1000 := by
    rw [binary64_eval _ 9 8796093022208000 (by norm_num) (by norm_num [abs_of_pos])
      (by norm_num [abs_of_pos]) (roundHalfEven_of_near _ _ (by norm_num [abs_lt]))]
    norm_num
  have e1 : binary64 (12839 / 100) = 1129330383121285 / 8796093022208 := by
    rw [binary64_eval _ 7 4517321532485140 (by norm_num) (by norm_num [abs_of_pos])
      (by norm_num [abs_of_pos]) (roundHalfEven_of_near _ _ (by norm_num [abs_lt]))]
    norm_num
  have e2 : binary64 (225866076624257 / 17592186044416) = 225866076624257 / 17592186044416 := by
    rw [binary64_eval _ 3 7227714451976224 (by norm_num) (by norm_num [abs_of_pos])
      (by norm_num [abs_of_pos]) (roundHalfEven_of_near _ _ (by norm_num [abs_lt]))]
    norm_num
  have e3 : binary64 (17366319967791743 / 17592186044416) = 135674374748373 / 137438953472 := by
    rw [binary64_eval _ 9 8683159983895872 (by norm_num) (by norm_num [abs_of_pos])
      (by norm_num [abs_of_pos]) (roundHalfEven_tie_below _ _ (by norm_num) (by norm_num))]
    norm_num
  have e4 : binary64 (135674374748373 / 137438953472) = 135674374748373 / 137438953472 := by
    rw [binary64_eval _ 9 8683159983895872 (by norm_num) (by norm_num [abs_of_pos])
      (by norm_num [abs_of_pos]) (roundHalfEven_of_near _ _ (by norm_num [abs_lt]))]
    norm_num
  have e5 : binary64 (119 / 2) = 119 / 2 := by
    rw [binary64_eval _ 5 8373880557142016 (by norm_num) (by norm_num [abs_of_pos])
      (by norm_num [abs_of_pos]) (roundHalfEven_of_near _ _ (by norm_num [abs_lt]))]
    norm_num
  have e6 : binary64 (127496757016789 / 137438953472) = 127496757016789 / 137438953472 := by
    rw [binary64_eval _ 9 8159792449074496 (by norm_num) (by norm_num [abs_of_pos])
      (by norm_num [abs_of_pos]) (roundHalfEven_of_near _ _ (by norm_num [abs_lt]))]
    norm_num
  unfold Double.score
  rw [hd]
  simp only [flightY, flightOf]
  norm_num [binary64_zero, hp, e0, e1, e2, e3, e4, e5, e6]


theorem compositeScore_flightX_flightY :
    compositeScore flightX = 927.661 ∧ compositeScore flightY = 927.661 := by
  have hx : getDurationMinutes flightX = 120 := by
    rw [flightX, getDurationMinutes_flightOf _ _ _ _ "PT120M" (none, some ['1', '2', '0']) 0 120
      (by decide) (by decide) (by decide) (by decide) (by norm_num)]
    norm_num
  have hy : getDurationMinutes flightY = 119 := by
    rw [flightY, getDurationMinutes_flightOf _ _ _ _ "PT119M" (none, some ['1', '1', '9']) 0 119
      (by decide) (by decide) (by decide) (by decide) (by norm_num)]
    norm_num
  have hpx : ¬ ∃ airline ∈ flightX.airlines, airline.code ∈ premiumAirlines := by decide
  have hpy : ¬ ∃ airline ∈ flightY.airlines, airline.code ∈ premiumAirlines := by decide
  constructor
  · rw [compositeScore, hx, if_neg hpx]
    norm_num [flightX, flightOf]
  · rw [compositeScore, hy, if_neg hpy]
    norm_num [flightY, flightOf]

/-- C30 as stated fails: flight X (123.39, PT120M) and flight Y (128.39, PT119M) have the
same composite score 927.661.  The doubles the comparator computes for them differ in
the last place, that of Y being `2^-43` above that of X, so the comparator returns
`2^-43` for (X, Y) and the ranking of `[X, Y]` is `[Y, X]`. -/
theorem prioritizeFlights_tie_counterexample :
    compositeScore flightX = compositeScore flightY ∧
      Double.score flightX = 8159792449074495 / 2 ^ 43 ∧
      Double.score flightY = 8159792449074496 / 2 ^ 43 ∧
      Double.compareFlights flightX flightY = 1 / 2 ^ 43 ∧
      Double.prioritizeFlights [flightX, flightY] = [flightY, flightX] := by
  have hx : Double.score flightX = 8159792449074495 / 2 ^ 43 := by
    rw [double_score_flightX]
    norm_num
  have hy : Double.score flightY = 8159792449074496 / 2 ^ 43 := by
    rw [double_score_flightY]
    norm_num
  have hc : Double.compareFlights flightX flightY = 1 / 2 ^ 43 := by
    rw [double_compareFlights_eq, hx, hy]
    rw [binary64_eval _ (-43) 4503599627370496 (by norm_num) (by norm_num [abs_of_pos])
      (by norm_num [abs_of_pos]) (roundHalfEven_of_near _ _ (by norm_num [abs_lt]))]
    norm_num
  refine ⟨?_, hx, hy, hc, ?_⟩
  · rw [compositeScore_flightX_flightY.1, compositeScore_flightX_flightY.2]
  · simp only [Double.prioritizeFlights, arraySort, sortedInsert, hc]
    norm_num

/-- C30, amended: `prioritizeFlights` keeps in their input order the flights whose scores,
as the comparator computes them in doubles, are equal: for every value the flights with
that score form the same list in the output as in the input; and it is idempotent. -/
theorem prioritizeFlights_double_stable (flights : List Flight) :
    (∀ v : ℚ,
      (Double.prioritizeFlights flights).filter (fun f => decide (Double.score f = v)) =
        flights.filter (fun f => decide (Double.score f = v))) ∧
    Double.prioritizeFlights (Double.prioritizeFlights flights) =
      Double.prioritizeFlights flights := by
  constructor
  · intro v
    exact arraySort_filter Double.score Double.compareFlights double_compareFlights_nonpos_iff
      v flights
  · exact arraySort_of_descending Double.score Double.compareFlights
      double_compareFlights_nonpos_iff _
      (arraySort_descending_of_sign Double.score Double.compareFlights
        double_compareFlights_nonpos_iff flights)

end FlightPrint
